import Mathlib

/-!
# Natron render scheduler (`Engine/VideoEngine.cpp`)

A shallow embedding of `RenderTree` (the dependency tree builder) and of the
`VideoEngine` start / iterate / stop / abort protocol, followed by the
properties proved about them.

Conventions of the embedding:

* a node is identified by a natural number (the identity of the
  `boost::shared_ptr<Node>`); the node graph is the list of the nodes'
  input-slot vectors, indexed by node identity;
* C++ `int` values (frame numbers, counters) are integers; signed overflow is
  undefined behaviour in C++ and is not modelled;
* recursion and loops of the source (`fillGraph`, the `for (;;)` of
  `iterateKernel`) carry a fuel argument and return `none` when it runs out;
* signals and calls into collaborators are recorded, in order, in a trace.
-/

namespace Natron

/-! ## The node graph and the render tree -/

/-- The node graph: entry `n` is the vector returned by
`Node::getInputs_other_thread()` for node `n`, one entry per input slot, `none`
for an empty slot.  A node identity outside the list has no input slot. -/
abbrev Graph := List (List (Option Nat))

/-- The input slots of node `n` after `updateRenderInputs()`. -/
def Graph.inputsOf (g : Graph) (n : Nat) : List (Option Nat) :=
  g.getD n []

/-- Node `m` is connected to some input slot of node `n`. -/
def IsInput (g : Graph) (m n : Nat) : Prop :=
  some m ∈ g.inputsOf n

/-- Node `m` is a transitive input of node `n`. -/
def IsTransitiveInput (g : Graph) (m n : Nat) : Prop :=
  Relation.TransGen (IsInput g) m n

/-- Node `m` is `n` itself or one of its transitive inputs. -/
def Reachable (g : Graph) (m n : Nat) : Prop :=
  Relation.ReflTransGen (IsInput g) m n

/-- The graph has no cycle: no node is a transitive input of itself. -/
def Acyclic (g : Graph) : Prop :=
  ∀ n, ¬ IsTransitiveInput g n n

/-- Fields of `RenderTree`. -/
structure RenderTree where
  output : Nat
  sorted : List Nat
  isViewer : Bool
  isOutputOpenFXNode : Bool
  wasEverBuilt : Bool
  firstFrame : Int
  lastFrame : Int
deriving DecidableEq, Repr

/-- One pass of the loop of `RenderTree::fillGraph` over the input slots:
`if (inputs[i]) fillGraph(inputs[i], markedNodes)`, where `recurse` is the
recursive call. -/
def RenderTree.fillInput
    (recurse : Nat → List Nat × List Nat → Option (List Nat × List Nat))
    (acc : List Nat × List Nat) (input : Option Nat) : Option (List Nat × List Nat) :=
  match input with
  | some i => recurse i acc
  | none => some acc

/-- `RenderTree::fillGraph`.  The state is the pair `(markedNodes, _sorted)`.
The function first recurses into every connected input, in slot order, and
then appends `node` to both lists unless `markedNodes` already holds it. -/
def RenderTree.fillGraph (g : Graph) :
    Nat → Nat → List Nat × List Nat → Option (List Nat × List Nat)
  | 0, _, _ => none
  | fuel + 1, node, st =>
    match (g.inputsOf node).foldlM (RenderTree.fillInput (RenderTree.fillGraph g fuel)) st with
    | none => none
    | some (markedNodes, sorted) =>
      if node ∈ markedNodes then some (markedNodes, sorted)
      else some (markedNodes ++ [node], sorted ++ [node])

/-- `RenderTree::clearGraph` (the per-node `clearPersistentMessage` calls touch
no scheduler state and are left out). -/
def RenderTree.clearGraph (t : RenderTree) : RenderTree :=
  { t with sorted := [] }

/-- `RenderTree::refreshTree`.  `outputIsViewer` is the result of the
`dynamic_cast<ViewerInstance*>(_output)` test and `outputIsOpenFX` that of
`_output->isOpenFX()`.  The recursion depth is bounded by the number of nodes
plus one, which is enough on every acyclic graph. -/
def RenderTree.refreshTree (g : Graph) (outputIsViewer outputIsOpenFX : Bool)
    (t : RenderTree) : Option RenderTree :=
  let t1 := { t with isViewer := outputIsViewer, isOutputOpenFXNode := outputIsOpenFX }
  let t2 := t1.clearGraph
  match RenderTree.fillGraph g (g.length + 1) t2.output ([], t2.sorted) with
  | none => none
  | some (_, sorted) => some { t2 with sorted := sorted, wasEverBuilt := true }

/-! ## Collaborators of the scheduler -/

/-- `Natron::Status`, as far as the scheduler tells its values apart. -/
inductive Status where
  | StatOK
  | StatFailed
  | StatReplyDefault
deriving DecidableEq, Repr

/-- `VideoEngine::PlaybackMode`. -/
inductive PlaybackMode where
  | PLAYBACK_LOOP
  | PLAYBACK_BOUNCE
  | PLAYBACK_ONCE
deriving DecidableEq, Repr

/-- `AppManager::AppType`. -/
inductive AppType where
  | APP_BACKGROUND
  | APP_BACKGROUND_AUTO_RUN
  | APP_GUI
deriving DecidableEq, Repr

/-- `INT_MIN`, the "unbounded low" sentinel of a declared frame range. -/
def INT_MIN : Int := -2147483648

/-- `INT_MAX`, the "unbounded high" sentinel of a declared frame range. -/
def INT_MAX : Int := 2147483647

/-- `NATRON_FPS_REFRESH_RATE`. -/
def NATRON_FPS_REFRESH_RATE : Int := 10

/-- Signals emitted by the scheduler and calls it makes into collaborators, in
the order in which they happen. -/
inductive Event where
  | engineStarted (forward : Bool) (frameCount : Int)
  | engineStopped (wasAborted : Int)
  | frameRendered (time : Int)
  | fpsChanged
  | writeRenderingStarted
  | writeFrameRendered (time : Int)
  | notifyRenderFinished
  | setAborted (node : Nat) (aborted : Bool)
  | setKnobsFrozen (node : Nat) (frozen : Bool)
  | computePreviewImage (node : Nat) (time : Int)
  | refreshPreviewImage (node : Nat) (time : Int)
  | beginSequenceRender (node : Nat) (first last view : Int)
  | endSequenceRender (node : Nat) (first last view : Int)
  | renderViewer (time : Int) (singleThreaded isSequentialRender : Bool)
  | disconnectViewer
  | getRegionOfDefinition (time : Int) (view : Nat)
  | renderRoI (time : Int) (view : Nat) (isSequentialRender : Bool)
deriving DecidableEq, Repr

/-- The times of the `frameRendered` signals of a trace, in order. -/
def frameRenderedEvents (trace : List Event) : List Int :=
  trace.filterMap fun e =>
    match e with
    | .frameRendered t => some t
    | _ => none

/-- Fields of `VideoEngine::RunArgs`. -/
structure RunArgs where
  sameFrame : Bool
  recursiveCall : Bool
  forward : Bool
  refreshTree : Bool
  seekTimeline : Bool
  frameRequestsCount : Int
  frameRequestIndex : Int
  forcePreview : Bool
  forceSequential : Bool
deriving DecidableEq, Repr

/-- Modelled from the spec: the `TimeLine` class (`Engine/TimeLine.h`), a shared
mutable cursor over `[leftBound, rightBound]` that remembers who repositioned
it last. -/
structure TimeLine where
  leftBound : Int
  rightBound : Int
  currentFrame : Int
  lastSeekCaller : Option Nat
deriving DecidableEq, Repr

/-- Modelled from the spec: `TimeLine::setFrameRange`, pushing a resolved range
onto the timeline. -/
def TimeLine.setFrameRange (t : TimeLine) (first last : Int) : TimeLine :=
  { t with leftBound := first, rightBound := last }

/-- Modelled from the spec: `TimeLine::seekFrame(frame, requester)`. -/
def TimeLine.seekFrame (t : TimeLine) (frame : Int) (caller : Nat) : TimeLine :=
  { t with currentFrame := frame, lastSeekCaller := some caller }

/-- Modelled from the spec: `TimeLine::incrementCurrentFrame(requester)`. -/
def TimeLine.incrementCurrentFrame (t : TimeLine) (caller : Nat) : TimeLine :=
  { t with currentFrame := t.currentFrame + 1, lastSeekCaller := some caller }

/-- Modelled from the spec: `TimeLine::decrementCurrentFrame(requester)`. -/
def TimeLine.decrementCurrentFrame (t : TimeLine) (caller : Nat) : TimeLine :=
  { t with currentFrame := t.currentFrame - 1, lastSeekCaller := some caller }

/-- The state of the `OutputEffectInstance` that the scheduler reads and
writes: `set/getFirstFrame`, `set/getLastFrame`, `set/getCurrentFrame`,
`setDoingFullSequenceRender`. -/
structure OutputState where
  firstFrame : Int
  lastFrame : Int
  currentFrame : Int
  doingFullSequenceRender : Bool
deriving DecidableEq, Repr

/-- What the scheduler reads from its surroundings and does not change: the node
graph, the dynamic type of the output, the process-wide settings, and the
answers of the nodes.  An answer of `none` stands for a `std::exception` thrown
by the call. -/
structure Env where
  graph : Graph
  outputIsViewer : Bool
  outputIsOpenFX : Bool
  numberOfThreads : Int
  isBackground : Bool
  appType : AppType
  hasAbortAnyProcessingBeenCalled : Bool
  hasSequentialOnlyNodeUpstream : Bool
  declaredFrameRange : Int × Int
  isFrameRangeLocked : Bool
  shouldRefreshPreview : Bool
  isPreviewEnabled : Nat → Bool
  projectViewsCount : Int
  mainView : Int
  renderViewer : Int → Bool → Bool → Option Status
  getRegionOfDefinition : Int → Nat → Option Status
  renderRoI : Int → Nat → Bool → Option Status
  beginSequenceRender : Nat → Int → Int → Int → Status
  endSequenceRender : Nat → Int → Int → Int → Status

/-- Fields of `VideoEngine` (mutexes and wait conditions apart), with the state
of the collaborators it drives: the timeline returned by `getTimeline()`, the
output effect, the play state of the timer, whether the `QThread` is running,
and the trace of signals and calls. -/
structure VideoEngine where
  tree : RenderTree
  threadStarted : Bool
  abortBeingProcessed : Bool
  abortRequested : Int
  mustQuit : Bool
  hasQuit : Bool
  playbackMode : PlaybackMode
  restart : Bool
  startCount : Int
  working : Bool
  timerRunning : Bool
  timerFrameCount : Int
  lastRequestedRunArgs : RunArgs
  currentRunArgs : RunArgs
  firstFrame : Int
  lastFrame : Int
  doingARenderSingleThreaded : Bool
  threadRunning : Bool
  timeline : TimeLine
  output : OutputState
  trace : List Event
deriving DecidableEq, Repr

/-! ## The scheduler -/

/-- Append signals or calls to the trace. -/
def VideoEngine.emit (w : VideoEngine) (es : List Event) : VideoEngine :=
  { w with trace := w.trace ++ es }

/-- `VideoEngine::isWorking`. -/
def VideoEngine.isWorking (w : VideoEngine) : Bool :=
  w.working

/-- `VideoEngine::refreshTree`. -/
def VideoEngine.refreshTree (env : Env) (w : VideoEngine) : Option VideoEngine :=
  match w.tree.refreshTree env.graph env.outputIsViewer env.outputIsOpenFX with
  | none => none
  | some t => some { w with tree := t }

/-- `VideoEngine::getFrameRange`, with the value of `_tree.getOutput()` (a
possibly null pointer) passed as `output`. -/
def VideoEngine.getFrameRangeOf (env : Env) (output : Option Nat) (w : VideoEngine) :
    VideoEngine :=
  if w.abortRequested > 0 then w
  else
    match output with
    | some _ =>
      let first := env.declaredFrameRange.1
      let last := env.declaredFrameRange.2
      let first := if first = INT_MIN then w.timeline.leftBound else first
      let last := if last = INT_MAX then w.timeline.rightBound else last
      { w with firstFrame := first, lastFrame := last }
    | none =>
      { w with firstFrame := w.timeline.leftBound, lastFrame := w.timeline.rightBound }

/-- `VideoEngine::getFrameRange` on an engine whose tree has an output (the
constructor of `RenderTree` asserts it). -/
def VideoEngine.getFrameRange (env : Env) (w : VideoEngine) : VideoEngine :=
  w.getFrameRangeOf env (some w.tree.output)

/-- The loop of `RenderTree::beginSequentialRender` over the nodes still to
notify: it stops at the first node that answers `StatFailed`. -/
def RenderTree.beginSequentialRender (env : Env) (first last view : Int) :
    List Nat → List Event → Status × List Event
  | [], tr => (.StatOK, tr)
  | n :: rest, tr =>
    if env.beginSequenceRender n first last view = .StatFailed then
      (.StatFailed, tr ++ [.beginSequenceRender n first last view])
    else
      RenderTree.beginSequentialRender env first last view rest
        (tr ++ [.beginSequenceRender n first last view])

/-- The loop of `RenderTree::endSequentialRender`. -/
def RenderTree.endSequentialRender (env : Env) (first last view : Int) :
    List Nat → List Event → Status × List Event
  | [], tr => (.StatOK, tr)
  | n :: rest, tr =>
    if env.endSequenceRender n first last view = .StatFailed then
      (.StatFailed, tr ++ [.endSequenceRender n first last view])
    else
      RenderTree.endSequentialRender env first last view rest
        (tr ++ [.endSequenceRender n first last view])

/-- `RenderTree::setNodesKnobsFrozen`. -/
def VideoEngine.setNodesKnobsFrozen (frozen : Bool) (w : VideoEngine) : VideoEngine :=
  w.emit (w.tree.sorted.map fun n => .setKnobsFrozen n frozen)

/-- The part of `VideoEngine::render` that records the last requested run
arguments (up to the choice between the calling thread and the worker). -/
def VideoEngine.recordRunArgs (env : Env) (frameCount : Int)
    (seekTimeline refreshTree forward sameFrame forcePreview : Bool)
    (w : VideoEngine) : VideoEngine :=
  let refreshTree := if !w.tree.wasEverBuilt && !refreshTree then true else refreshTree
  { w with
    lastRequestedRunArgs :=
      { sameFrame := sameFrame
        recursiveCall := false
        forward := forward
        refreshTree := refreshTree
        seekTimeline := seekTimeline
        frameRequestsCount := frameCount
        frameRequestIndex := 0
        forcePreview := forcePreview
        forceSequential := env.hasSequentialOnlyNodeUpstream } }

/-- The part of `VideoEngine::startEngine` that prepares a non-viewer output:
`getFrameRange()`, first and last frame pushed onto the output, "doing full
sequence render" set, `beginSequentialRender` when the run is forced sequential,
and the knobs frozen in an interactive session.  The boolean is `false` when
`beginSequentialRender` returned `StatFailed` (`startEngine` then returns
`false` at once). -/
def VideoEngine.beginOutput (env : Env) (w : VideoEngine) : Bool × VideoEngine :=
  if !w.tree.isViewer then
    let w1 := w.getFrameRange env
    let seq : Status × List Event :=
      if w1.currentRunArgs.forceSequential then
        RenderTree.beginSequentialRender env w1.firstFrame w1.lastFrame env.mainView
          w1.tree.sorted w1.trace
      else (.StatOK, w1.trace)
    let output : OutputState :=
      { w1.output with
        firstFrame := w1.firstFrame
        lastFrame := w1.lastFrame
        doingFullSequenceRender := true }
    let w2 := { w1 with output := output, trace := seq.2 }
    if seq.1 = .StatFailed then (false, w2)
    else if !w2.tree.isViewer && !env.isBackground then (true, w2.setNodesKnobsFrozen true)
    else (true, w2)
  else (true, w)

/-- The end of `VideoEngine::startEngine`: the working flag is set, then
`engineStarted` is emitted and the timer armed unless the run is a same-frame
one, then the start is written to the output pipe of a background process. -/
def VideoEngine.announceStart (env : Env) (w : VideoEngine) : VideoEngine :=
  { w with
    working := true
    timerRunning := if w.currentRunArgs.sameFrame then w.timerRunning else true
    trace := w.trace
      ++ (if w.currentRunArgs.sameFrame then []
          else [.engineStarted w.currentRunArgs.forward w.currentRunArgs.frameRequestsCount])
      ++ (if env.isBackground then [.writeRenderingStarted] else []) }

/-- `VideoEngine::startEngine`: the returned boolean is its result; `none` when
the rebuild of the tree does not return.  The assertions on
`_abortBeingProcessed` are not evaluated. -/
def VideoEngine.startEngine (env : Env) (w : VideoEngine) : Option (Bool × VideoEngine) :=
  if w.abortRequested > 0 then some (false, w)
  else
    let w1 := { w with restart := false, currentRunArgs := w.lastRequestedRunArgs }
    match (if w1.currentRunArgs.refreshTree then w1.refreshTree env else some w1) with
    | none => none
    | some w2 =>
      match w2.beginOutput env with
      | (false, w3) => some (false, w3)
      | (true, w3) => some (true, w3.announceStart env)

/-- The body of the loop of `VideoEngine::stopEngine` over the nodes of the
tree, for one node. -/
def VideoEngine.stopNode (env : Env) (w : VideoEngine) (shouldRefreshPreview : Bool)
    (n : Nat) : List Event :=
  (if env.isPreviewEnabled n then
      if w.currentRunArgs.forcePreview then [Event.computePreviewImage n w.timeline.currentFrame]
      else if shouldRefreshPreview then [Event.refreshPreviewImage n w.timeline.currentFrame]
      else []
    else []) ++ [Event.setAborted n false]

/-- The first block of `VideoEngine::stopEngine`, under
`_abortBeingProcessedMutex`: the abort counter is reset, the previews are
refreshed and the aborted flags cleared unless a quit is requested,
`engineStopped` is emitted with whether an abort was pending, and the run is
marked over (remaining count 0, restart, timer paused, not working). -/
def VideoEngine.drainAbort (env : Env) (w : VideoEngine) : VideoEngine :=
  { w with
    abortBeingProcessed := false
    abortRequested := 0
    trace := w.trace
      ++ (if w.mustQuit then []
          else (w.tree.sorted.map
            (w.stopNode env ((env.shouldRefreshPreview && !w.currentRunArgs.sameFrame)
              || w.currentRunArgs.forcePreview))).flatten)
      ++ [.engineStopped (if w.abortRequested > 0 then 1 else 0)]
    currentRunArgs := { w.currentRunArgs with frameRequestsCount := 0 }
    restart := true
    timerRunning := false
    working := false }

/-- The middle of `VideoEngine::stopEngine`: "doing full sequence render" is
unset; for a non-viewer output the knobs are unfrozen in an interactive session
and `endSequentialRender` is called when the run was forced sequential (its
status is dropped); a background process is told that the render has
finished. -/
def VideoEngine.releaseOutput (env : Env) (w : VideoEngine) : VideoEngine :=
  let w1 := { w with output := { w.output with doingFullSequenceRender := false } }
  let w2 := if !w1.tree.isViewer && !env.isBackground then w1.setNodesKnobsFrozen false else w1
  let w3 :=
    if !w2.tree.isViewer && w2.currentRunArgs.forceSequential then
      { w2 with trace := (RenderTree.endSequentialRender env w2.firstFrame w2.lastFrame
          env.mainView w2.tree.sorted w2.trace).2 }
    else w2
  if env.isBackground then w3.emit [.notifyRenderFinished] else w3

/-- The end of `VideoEngine::stopEngine`: the quit transition, when a quit was
requested. -/
def VideoEngine.completeQuit (w : VideoEngine) : Bool × VideoEngine :=
  if w.mustQuit then
    (true, { w with mustQuit := false, hasQuit := true, threadStarted := false })
  else (false, w)

/-- `VideoEngine::stopEngine`: the returned boolean is its result (`true` when
the quit transition was completed). -/
def VideoEngine.stopEngine (env : Env) (w : VideoEngine) : Bool × VideoEngine :=
  ((w.drainAbort env).releaseOutput env).completeQuit

/-- The per-view loop of `VideoEngine::renderFrame` over the views still to
visit; `stat` is the status so far.  The result is `none` when a call throws. -/
def VideoEngine.renderViews (env : Env) (time : Int) (isSequentialRender : Bool)
    (mainView : Int) : List Nat → Status → List Event → Option Status × List Event
  | [], stat, tr => (some stat, tr)
  | i :: rest, stat, tr =>
    if isSequentialRender && decide ((i : Int) ≠ mainView) then
      VideoEngine.renderViews env time isSequentialRender mainView rest stat tr
    else
      let tr := tr ++ [.getRegionOfDefinition time i]
      match env.getRegionOfDefinition time i with
      | none => (none, tr)
      | some stat =>
        if stat ≠ .StatFailed then
          let tr := tr ++ [.renderRoI time i isSequentialRender]
          match env.renderRoI time i isSequentialRender with
          | none => (none, tr)
          | some _ => VideoEngine.renderViews env time isSequentialRender mainView rest stat tr
        else (some stat, tr)

/-- The local `isSequentialRender` of `VideoEngine::renderFrame`. -/
def VideoEngine.isSequentialRender (w : VideoEngine) : Bool :=
  decide (w.currentRunArgs.frameRequestsCount > 1) ||
  decide (w.currentRunArgs.frameRequestsCount = -1) ||
  w.currentRunArgs.forceSequential

/-- The bookkeeping of `VideoEngine::renderFrame` after `renderViewer`, unless
the run is a same-frame one: every `NATRON_FPS_REFRESH_RATE` frames of an
unbounded run `fpsChanged` is emitted and the frame count of the timer set back
to 1, otherwise that count is incremented.  Waiting on the timer is not
modelled. -/
def VideoEngine.paceViewer (w : VideoEngine) : VideoEngine :=
  if w.currentRunArgs.sameFrame then w
  else if Int.tmod w.timerFrameCount NATRON_FPS_REFRESH_RATE = 0
      ∧ w.currentRunArgs.frameRequestsCount = -1 then
    { w with trace := w.trace ++ [.fpsChanged], timerFrameCount := 1 }
  else { w with timerFrameCount := w.timerFrameCount + 1 }

/-- `VideoEngine::renderFrame`: the first component is the returned status, or
`none` when a `std::exception` leaves the function. -/
def VideoEngine.renderFrame (env : Env) (time : Int) (singleThreaded : Bool)
    (w : VideoEngine) : Option Status × VideoEngine :=
  if w.tree.isViewer && !w.tree.isOutputOpenFXNode then
    let w1 := w.emit [.renderViewer time singleThreaded w.isSequentialRender]
    match env.renderViewer time singleThreaded w.isSequentialRender with
    | none => (none, w1)
    | some stat =>
      (some stat,
        if stat = .StatFailed then w1.paceViewer.emit [.disconnectViewer] else w1.paceViewer)
  else
    let mainView : Int := if w.isSequentialRender then env.mainView else 0
    let r := VideoEngine.renderViews env time w.isSequentialRender mainView
      (List.range env.projectViewsCount.toNat) .StatOK w.trace
    (r.1, { w with trace := r.2 })

/-- `VideoEngine::abortRendering(blocking)`.  `callerIsWorker` tells whether
`QThread::currentThread() == this`.  The returned boolean tells whether the
caller is left waiting on `_abortedRequestedCondition` for the abort counter to
come back to zero. -/
def VideoEngine.abortRendering (blocking callerIsWorker : Bool) (w : VideoEngine) :
    Bool × VideoEngine :=
  if !w.isWorking then (false, w)
  else
    let w := w.emit (w.tree.sorted.reverse.map fun n => .setAborted n true)
    let w := { w with abortRequested := w.abortRequested + 1 }
    if !callerIsWorker && w.threadRunning && blocking then
      (decide (w.abortRequested > 0), w)
    else (false, w)

/-- Outcome of the "set the current frame" section of `iterateKernel`: the
frame to render, or a `return`. -/
inductive Advance where
  | frame (currentFrame : Int) (w : VideoEngine)
  | stop (w : VideoEngine)
deriving DecidableEq

/-- The "set the current frame" section of `VideoEngine::iterateKernel`, with
the bounds `firstFrame`, `lastFrame` computed just before it. -/
def VideoEngine.setCurrentFrame (env : Env) (firstFrame lastFrame : Int)
    (w : VideoEngine) : Advance :=
  if !w.currentRunArgs.recursiveCall then
    if env.outputIsViewer then .frame w.timeline.currentFrame w
    else .frame firstFrame { w with output := { w.output with currentFrame := firstFrame } }
  else if !w.currentRunArgs.sameFrame && w.currentRunArgs.seekTimeline then
    if !env.outputIsViewer then
      let w := { w with output := { w.output with currentFrame := w.output.currentFrame + 1 } }
      let currentFrame := w.output.currentFrame
      if currentFrame > lastFrame then .stop w else .frame currentFrame w
    else if w.currentRunArgs.forward then
      let currentFrame := w.timeline.currentFrame
      if currentFrame < lastFrame then
        .frame (currentFrame + 1)
          { w with timeline := w.timeline.incrementCurrentFrame w.tree.output }
      else
        match w.playbackMode with
        | .PLAYBACK_LOOP =>
          .frame firstFrame { w with timeline := w.timeline.seekFrame firstFrame w.tree.output }
        | .PLAYBACK_BOUNCE =>
          .frame (currentFrame - 1)
            { w with timeline := w.timeline.seekFrame (currentFrame - 1) w.tree.output,
                     currentRunArgs := { w.currentRunArgs with forward := false } }
        | .PLAYBACK_ONCE => .stop w
    else
      let currentFrame := w.timeline.currentFrame
      if currentFrame > firstFrame then
        .frame (currentFrame - 1)
          { w with timeline := w.timeline.decrementCurrentFrame w.tree.output }
      else
        match w.playbackMode with
        | .PLAYBACK_LOOP =>
          .frame lastFrame { w with timeline := w.timeline.seekFrame lastFrame w.tree.output }
        | .PLAYBACK_BOUNCE =>
          .frame (currentFrame + 1)
            { w with timeline := w.timeline.seekFrame (currentFrame + 1) w.tree.output,
                     currentRunArgs := { w.currentRunArgs with forward := true } }
        | .PLAYBACK_ONCE => .stop w
  else .frame 0 w

/-- The stop conditions of `VideoEngine::iterateKernel`, checked before each
frame is rendered. -/
def VideoEngine.mustStop (env : Env) (firstFrame lastFrame : Int) (w : VideoEngine) : Bool :=
  decide (w.abortRequested > 0)
  || (w.tree.isViewer && w.currentRunArgs.recursiveCall && decide (firstFrame = lastFrame)
      && decide (w.currentRunArgs.frameRequestsCount = -1)
      && decide (w.currentRunArgs.frameRequestIndex = 1))
  || decide (w.currentRunArgs.frameRequestsCount = 0)
  || (decide (env.appType = .APP_BACKGROUND_AUTO_RUN) && env.hasAbortAnyProcessingBeenCalled)

/-- The update of the counters at the end of an iteration of `iterateKernel`. -/
def VideoEngine.updateCounters (w : VideoEngine) : VideoEngine :=
  let args := w.currentRunArgs
  let args :=
    if args.frameRequestIndex = 0 ∧ args.frameRequestsCount = 1 ∧ args.sameFrame = false then
      { args with frameRequestsCount := 0 }
    else if args.frameRequestsCount ≠ -1 then
      { args with frameRequestsCount := args.frameRequestsCount - 1 }
    else args
  let args := { args with frameRequestIndex := args.frameRequestIndex + 1 }
  { w with currentRunArgs := { args with recursiveCall := true } }

/-- Outcome of one pass through the body of the loop of `iterateKernel`. -/
inductive Step where
  | next (w : VideoEngine)
  | done (w : VideoEngine)
deriving DecidableEq

/-- The start of a pass of `iterateKernel` for a viewer: `getFrameRange()`,
then `timeline->setFrameRange(_firstFrame, _lastFrame)` when the frame range is
locked and the viewer was not the last to seek the timeline. -/
def VideoEngine.updateTimelineRange (env : Env) (w : VideoEngine) : VideoEngine :=
  if env.outputIsViewer then
    let w := w.getFrameRange env
    if env.isFrameRangeLocked && decide (w.timeline.lastSeekCaller ≠ some w.tree.output) then
      { w with timeline := w.timeline.setFrameRange w.firstFrame w.lastFrame }
    else w
  else w

/-- The local `firstFrame` of a pass of `iterateKernel`. -/
def VideoEngine.passFirstFrame (env : Env) (w : VideoEngine) : Int :=
  if env.outputIsViewer then w.timeline.leftBound else w.output.firstFrame

/-- The local `lastFrame` of a pass of `iterateKernel`. -/
def VideoEngine.passLastFrame (env : Env) (w : VideoEngine) : Int :=
  if env.outputIsViewer then w.timeline.rightBound else w.output.lastFrame

/-- The end of a pass of `iterateKernel`, from the call of `renderFrame` on:
the frame is rendered, announced and counted. -/
def VideoEngine.renderAndCount (env : Env) (singleThreaded : Bool) (currentFrame : Int)
    (w : VideoEngine) : Step :=
  match w.renderFrame env currentFrame singleThreaded with
  | (none, w) =>
    if env.outputIsViewer then .done (w.emit [.disconnectViewer]) else .done w
  | (some stat, w) =>
    if stat = .StatFailed then .done w
    else
      let w := w.emit [.frameRendered currentFrame]
      let w := if env.isBackground then w.emit [.writeFrameRendered currentFrame] else w
      if singleThreaded && w.mustQuit then .done w
      else .next w.updateCounters

/-- One pass through the body of the `for (;;)` loop of
`VideoEngine::iterateKernel`.  `refreshRenderInputs` and
`clearPersistentMessages` touch no scheduler state, and
`QCoreApplication::processEvents()` delivers nothing in a sequential run. -/
def VideoEngine.iterateOnce (env : Env) (singleThreaded : Bool) (w : VideoEngine) : Step :=
  if w.abortRequested > 0 then .done w
  else
    let w := w.updateTimelineRange env
    let firstFrame := w.passFirstFrame env
    let lastFrame := w.passLastFrame env
    match w.setCurrentFrame env firstFrame lastFrame with
    | .stop w => .done w
    | .frame currentFrame w =>
      if w.mustStop env firstFrame lastFrame then .done w
      else w.renderAndCount env singleThreaded currentFrame

/-- `VideoEngine::iterateKernel`: the loop runs until a pass returns; `none`
when it has not returned after `fuel` passes. -/
def VideoEngine.iterateKernel (env : Env) (singleThreaded : Bool) :
    Nat → VideoEngine → Option VideoEngine
  | 0, _ => none
  | fuel + 1, w =>
    match w.iterateOnce env singleThreaded with
    | .done w => some w
    | .next w => VideoEngine.iterateKernel env singleThreaded fuel w

/-- The state of `iterateKernel` after at most `n` passes through its loop. -/
def VideoEngine.iterateUpTo (env : Env) (singleThreaded : Bool) :
    Nat → VideoEngine → VideoEngine
  | 0, w => w
  | n + 1, w =>
    match w.iterateOnce env singleThreaded with
    | .done w => w
    | .next w => VideoEngine.iterateUpTo env singleThreaded n w

/-- `VideoEngine::runSameThread`: the whole start / iterate / stop sequence on
the calling thread. -/
def VideoEngine.runSameThread (env : Env) (fuel : Nat) (w : VideoEngine) :
    Option VideoEngine :=
  if w.doingARenderSingleThreaded then some w
  else
    let w := { w with doingARenderSingleThreaded := true }
    match w.startEngine env with
    | none => none
    | some (false, w) => some { (w.stopEngine env).2 with doingARenderSingleThreaded := false }
    | some (true, w) =>
      if w.mustQuit then
        some { w with mustQuit := false, hasQuit := true, doingARenderSingleThreaded := false }
      else
        match w.iterateKernel env true fuel with
        | none => none
        | some w =>
          if w.mustQuit then
            some { w with mustQuit := false, hasQuit := true,
                          doingARenderSingleThreaded := false }
          else some { (w.stopEngine env).2 with doingARenderSingleThreaded := false }

/-- `VideoEngine::render`.  With `getNumberOfThreads() == -1` the run happens
on the calling thread; otherwise the worker thread is started or woken up. -/
def VideoEngine.render (env : Env) (fuel : Nat) (frameCount : Int)
    (seekTimeline refreshTree forward sameFrame forcePreview : Bool)
    (w : VideoEngine) : Option VideoEngine :=
  let w := w.recordRunArgs env frameCount seekTimeline refreshTree forward sameFrame forcePreview
  if env.numberOfThreads = -1 then w.runSameThread env fuel
  else if w.hasQuit then some w
  else if !w.threadStarted && !w.mustQuit then
    some { w with threadRunning := true, threadStarted := true }
  else some { w with startCount := w.startCount + 1 }

/-! ## The worker thread and the requests of the clients -/

/-- How a pass through the `for (;;)` loop of `VideoEngine::run` ends: the
thread function returns, or the worker parks on `_startCondition`. -/
inductive RunOutcome where
  | returned (w : VideoEngine)
  | parked (w : VideoEngine)
deriving DecidableEq

/-- The end of a pass of `VideoEngine::run`: `stopEngine()`, whose result
decides between `return` and the wait on `_startCondition`. -/
def VideoEngine.stopAndPark (env : Env) (w : VideoEngine) : RunOutcome :=
  match w.stopEngine env with
  | (true, w2) => .returned { w2 with threadRunning := false }
  | (false, w2) => .parked w2

/-- The quit branch at the top of the loop of `VideoEngine::run`. -/
def VideoEngine.runQuit (env : Env) (w : VideoEngine) : VideoEngine :=
  { w with
    mustQuit := false
    hasQuit := true
    threadRunning := false
    trace := w.trace ++ (if env.isBackground then [.notifyRenderFinished] else []) }

/-- One pass through the `for (;;)` loop of `VideoEngine::run`, up to the wait
on `_startCondition`; `none` when the rebuild of the tree or `iterateKernel`
does not return within the fuel. -/
def VideoEngine.runPass (env : Env) (fuel : Nat) (w : VideoEngine) : Option RunOutcome :=
  if w.mustQuit then some (.returned (w.runQuit env))
  else if w.restart then
    match w.startEngine env with
    | none => none
    | some (false, w1) => some (w1.stopAndPark env)
    | some (true, w1) =>
      match w1.iterateKernel env false fuel with
      | none => none
      | some w2 => some (w2.stopAndPark env)
  else
    match w.iterateKernel env false fuel with
    | none => none
    | some w2 => some (w2.stopAndPark env)

/-- The wait `while (_startCount <= 0) wait; _startCount = 0;` of
`VideoEngine::run`: `none` while the worker stays parked. -/
def VideoEngine.wakeUp (w : VideoEngine) : Option VideoEngine :=
  if w.startCount ≤ 0 then none else some { w with startCount := 0 }

/-- `VideoEngine::run`, for at most `passes` passes through its loop when
nobody else acts: the result is `parked` when the worker waits with no wake-up
pending. -/
def VideoEngine.run (env : Env) (fuel : Nat) : Nat → VideoEngine → Option RunOutcome
  | 0, _ => none
  | passes + 1, w =>
    match w.runPass env fuel with
    | none => none
    | some (.returned w1) => some (.returned w1)
    | some (.parked w1) =>
      match w1.wakeUp with
      | none => some (.parked w1)
      | some w2 => VideoEngine.run env fuel passes w2

/-- The local `isPlaybackRunning` of `refreshAndContinueRender` and of
`updateTreeAndContinueRender`. -/
def VideoEngine.isPlaybackRunning (w : VideoEngine) : Bool :=
  w.isWorking &&
    (decide (w.currentRunArgs.frameRequestsCount = -1) ||
      (decide (w.currentRunArgs.frameRequestsCount > 1) &&
        decide (w.currentRunArgs.frameRequestIndex < w.currentRunArgs.frameRequestsCount - 1)))

/-- `VideoEngine::refreshAndContinueRender(forcePreview, abortPreviousRender)`,
called from the worker thread or not. -/
def VideoEngine.refreshAndContinueRender (env : Env) (fuel : Nat)
    (forcePreview abortPreviousRender callerIsWorker : Bool) (w : VideoEngine) :
    Option VideoEngine :=
  if !w.isPlaybackRunning then
    let w1 := if abortPreviousRender then (w.abortRendering false callerIsWorker).2 else w
    w1.render env fuel 1 false false w1.currentRunArgs.forward true forcePreview
  else some w

/-- `VideoEngine::updateTreeAndContinueRender`.  When `abortRendering(true)`
leaves the caller waiting, `afterWait` gives the state in which the wait ends
(what the worker has done in between). -/
def VideoEngine.updateTreeAndContinueRender (env : Env) (fuel : Nat) (callerIsWorker : Bool)
    (afterWait : VideoEngine → VideoEngine) (w : VideoEngine) : Option VideoEngine :=
  if w.isPlaybackRunning then
    let count : Int :=
      if w.currentRunArgs.frameRequestsCount = -1 then -1
      else w.currentRunArgs.frameRequestsCount - w.currentRunArgs.frameRequestIndex
    let r := w.abortRendering true callerIsWorker
    let w1 := if r.1 then afterWait r.2 else r.2
    w1.render env fuel count true true w1.currentRunArgs.forward false false
  else w.render env fuel 1 false true w.currentRunArgs.forward true false

/-- `VideoEngine::setPlaybackMode`. -/
def VideoEngine.setPlaybackMode (mode : PlaybackMode) (w : VideoEngine) : VideoEngine :=
  { w with playbackMode := mode }

/-- `VideoEngine::quitEngineThread`.  `afterAbort` gives the state in which the
wait of the blocking abort ends, `afterQuit` the state in which the wait on
`_mustQuitCondition` ends. -/
def VideoEngine.quitEngineThread (callerIsWorker : Bool)
    (afterAbort afterQuit : VideoEngine → VideoEngine) (w : VideoEngine) : VideoEngine :=
  if w.threadStarted then
    let w1 := { w with mustQuit := true }
    let r := w1.abortRendering true callerIsWorker
    let w2 := if w1.isWorking then (if r.1 then afterAbort r.2 else r.2) else w1
    let w3 := { w2 with startCount := w2.startCount + 1 }
    let w4 := if w3.mustQuit then afterQuit w3 else w3
    { w4 with threadStarted := false }
  else { w with mustQuit := true }

/-! ## Auxiliary notions -/

/-- The engine state carried by an outcome of `setCurrentFrame`. -/
def Advance.state : Advance → VideoEngine
  | .frame _ w => w
  | .stop w => w

/-- The engine state carried by an outcome of a pass of `iterateKernel`. -/
def Step.state : Step → VideoEngine
  | .next w => w
  | .done w => w

/-- The frame computation succeeds: `renderFrame` returns, for frame `time` in
state `w`, a status other than `StatFailed`. -/
def VideoEngine.frameSucceeds (env : Env) (singleThreaded : Bool) (time : Int)
    (w : VideoEngine) : Prop :=
  ∃ stat, (w.renderFrame env time singleThreaded).1 = some stat ∧ stat ≠ .StatFailed

/-- A global abort of all processing was requested in a background auto-run
(the fourth stop condition of `iterateKernel`). -/
def Env.autoRunAborted (env : Env) : Bool :=
  decide (env.appType = .APP_BACKGROUND_AUTO_RUN) && env.hasAbortAnyProcessingBeenCalled

/-- Every chain of inputs below `n` has fewer than `k` nodes. -/
def DepthLE (g : Graph) : Nat → Nat → Prop
  | 0, _ => False
  | k + 1, n => ∀ m, IsInput g m n → DepthLE g k m

/-- The list has no duplicates and holds, before each of its nodes, all the
nodes connected to the input slots of that node. -/
def TopoOrdered (g : Graph) (l : List Nat) : Prop :=
  l.Nodup ∧ ∀ n ∈ l, ∀ m, IsInput g m n → m ∈ l ∧ l.indexOf m < l.indexOf n

/-- A sufficient, checkable condition for a graph to be acyclic: every input
of a node has a smaller identity than the node. -/
def Graph.descending (g : Graph) : Bool :=
  (List.range g.length).all fun n =>
    (g.inputsOf n).all fun i =>
      match i with
      | some m => decide (m < n)
      | none => true

/-- A diamond with an empty slot: node 3 reads 2 and 1, node 2 reads 1, nothing
and 0, node 1 reads 0. -/
def exampleGraph : Graph :=
  [[], [some 0], [some 1, none, some 0], [some 2, some 1]]

/-- A tree on output 3 that still holds entries of an earlier build. -/
def exampleTree : RenderTree :=
  { output := 3, sorted := [7, 3, 7], isViewer := false, isOutputOpenFXNode := false,
    wasEverBuilt := true, firstFrame := 0, lastFrame := 0 }

/-- The constructor `VideoEngine::VideoEngine(owner, parent)` with that of
`RenderTree`.  The default-constructed run arguments and the collaborators
(timeline, output effect) are given from outside; the new timer is taken as
paused and the thread as not running. -/
def VideoEngine.construct (owner : Nat) (defaultArgs : RunArgs) (timeline : TimeLine)
    (output : OutputState) : VideoEngine :=
  { tree := { output := owner, sorted := [], isViewer := false, isOutputOpenFXNode := false,
              wasEverBuilt := false, firstFrame := 0, lastFrame := 0 }
    threadStarted := false
    abortBeingProcessed := false
    abortRequested := 0
    mustQuit := false
    hasQuit := false
    playbackMode := .PLAYBACK_LOOP
    restart := true
    startCount := 0
    working := false
    timerRunning := false
    timerFrameCount := 0
    lastRequestedRunArgs := defaultArgs
    currentRunArgs := defaultArgs
    firstFrame := 0
    lastFrame := 0
    doingARenderSingleThreaded := false
    threadRunning := false
    timeline := timeline
    output := output
    trace := [] }

/-- Run arguments with every flag unset and both counters at zero. -/
def exampleArgs : RunArgs :=
  { sameFrame := false, recursiveCall := false, forward := false, refreshTree := false,
    seekTimeline := false, frameRequestsCount := 0, frameRequestIndex := 0,
    forcePreview := false, forceSequential := false }

/-- A timeline over `[1, 10]` with the cursor on frame 10. -/
def exampleTimeline : TimeLine :=
  { leftBound := 1, rightBound := 10, currentFrame := 10, lastSeekCaller := none }

/-- A freshly constructed engine on output node 3. -/
def exampleEngine : VideoEngine :=
  VideoEngine.construct 3 exampleArgs exampleTimeline
    { firstFrame := 0, lastFrame := 0, currentFrame := 0, doingFullSequenceRender := false }

/-- A session on `exampleGraph` in which every call into the nodes succeeds;
`viewer` tells whether the output is a viewer. -/
def exampleEnv (viewer : Bool) : Env :=
  { graph := exampleGraph
    outputIsViewer := viewer
    outputIsOpenFX := false
    numberOfThreads := 4
    isBackground := false
    appType := .APP_GUI
    hasAbortAnyProcessingBeenCalled := false
    hasSequentialOnlyNodeUpstream := false
    declaredFrameRange := (INT_MIN, 8)
    isFrameRangeLocked := false
    shouldRefreshPreview := false
    isPreviewEnabled := fun _ => false
    projectViewsCount := 2
    mainView := 0
    renderViewer := fun _ _ _ => some .StatOK
    getRegionOfDefinition := fun _ _ => some .StatOK
    renderRoI := fun _ _ _ => some .StatOK
    beginSequenceRender := fun _ _ _ _ => .StatOK
    endSequenceRender := fun _ _ _ _ => .StatOK }

/-- The engine `exampleEngine` after `render(frameCount, seekTimeline = true,
refreshTree = false, forward = true, sameFrame, forcePreview = false)` has
recorded its arguments and `startEngine` has run, on a viewer or on a writer. -/
def exampleStarted (viewer : Bool) (frameCount : Int) (sameFrame : Bool) : VideoEngine :=
  (((exampleEngine.recordRunArgs (exampleEnv viewer) frameCount true false true sameFrame
    false).startEngine (exampleEnv viewer)).getD (false, exampleEngine)).2

/-- The frame-advance policy applies: this is a second or later pass
(`recursiveCall`), with `seekTimeline` set and `sameFrame` unset. -/
def VideoEngine.advances (w : VideoEngine) : Prop :=
  w.currentRunArgs.recursiveCall = true ∧ w.currentRunArgs.sameFrame = false ∧
    w.currentRunArgs.seekTimeline = true

/-- The unbounded viewer run of `exampleStarted` at the start of its second
pass, with the given playback mode, direction and timeline cursor. -/
def examplePass2 (mode : PlaybackMode) (forward : Bool) (cursor : Int) : VideoEngine :=
  let w := (exampleStarted true (-1) false).iterateUpTo (exampleEnv true) false 1
  { w with
    playbackMode := mode
    currentRunArgs := { w.currentRunArgs with forward := forward }
    timeline := { w.timeline with currentFrame := cursor } }

/-- A viewer run looping forward at the start of a second or later pass: the
policy applies, the direction is forward, the mode is LOOP, the bounds read by
the pass are `first` and `last`, and the timeline cursor lies within them. -/
def VideoEngine.loopsForwardWithin (env : Env) (first last : Int) (w : VideoEngine) : Prop :=
  w.advances ∧ w.currentRunArgs.forward = true ∧ w.playbackMode = .PLAYBACK_LOOP ∧
    (w.updateTimelineRange env).timeline.leftBound = first ∧
    (w.updateTimelineRange env).timeline.rightBound = last ∧
    first ≤ w.timeline.currentFrame ∧ w.timeline.currentFrame ≤ last

/-- The frames `first, first + 1, ...`, `n` of them. -/
def framesFrom (first : Int) : Nat → List Int
  | 0 => []
  | n + 1 => first :: framesFrom (first + 1) n

/-- An unbounded run on a writer after its first pass: the policy applies, no
abort or quit is pending, the output stands on frame `current` and its last
frame is `last`. -/
def VideoEngine.writesSequence (env : Env) (st : Bool) (current last : Int)
    (w : VideoEngine) : Prop :=
  env.outputIsViewer = false ∧ w.tree.isViewer = false ∧ w.advances ∧
    w.currentRunArgs.frameRequestsCount = -1 ∧ ¬ w.abortRequested > 0 ∧
    (st && w.mustQuit) = false ∧ w.output.currentFrame = current ∧ w.output.lastFrame = last

/-- An unbounded same-frame run on a writer with no abort or quit pending. -/
def VideoEngine.repeatsSameFrame (env : Env) (st : Bool) (w : VideoEngine) : Prop :=
  env.outputIsViewer = false ∧ w.tree.isViewer = false ∧
    w.currentRunArgs.sameFrame = true ∧ w.currentRunArgs.frameRequestsCount = -1 ∧
    ¬ w.abortRequested > 0 ∧ (st && w.mustQuit) = false

/-- The start of `startEngine` once no abort is pending: the last requested
arguments become the current ones and the tree is rebuilt when they ask for
it. -/
def VideoEngine.prepared (env : Env) (w : VideoEngine) : Option VideoEngine :=
  if w.lastRequestedRunArgs.refreshTree then
    ({ w with restart := false, currentRunArgs := w.lastRequestedRunArgs } :
      VideoEngine).refreshTree env
  else some { w with restart := false, currentRunArgs := w.lastRequestedRunArgs }

/-- The engine state carried by the outcome of a pass of `run`. -/
def RunOutcome.state : RunOutcome → VideoEngine
  | .returned w => w
  | .parked w => w

/-- The session of `exampleEnv false` with a sequential-only node upstream, in
which node 2 rejects begin-sequence-render. -/
def rejectingEnv : Env :=
  { exampleEnv false with
    hasSequentialOnlyNodeUpstream := true
    beginSequenceRender := fun n _ _ _ => if n = 2 then .StatFailed else .StatOK }

/-- The engine `exampleEngine` after `render(3, true, false, true, false, false)`
has recorded its arguments in the session `rejectingEnv`. -/
def exampleRequested : VideoEngine :=
  exampleEngine.recordRunArgs rejectingEnv 3 true false true false false

/-- The engine `exampleRequested` once `startEngine` has promoted the arguments
and rebuilt the tree. -/
def examplePrepared : VideoEngine :=
  (exampleRequested.prepared rejectingEnv).getD exampleRequested

/-- The arguments of one call of `VideoEngine::render`. -/
structure RenderCall where
  frameCount : Int
  seekTimeline : Bool
  refreshTree : Bool
  forward : Bool
  sameFrame : Bool
  forcePreview : Bool
deriving DecidableEq, Repr

/-- The call `render(c.frameCount, c.seekTimeline, c.refreshTree, c.forward,
c.sameFrame, c.forcePreview)`. -/
def VideoEngine.renderCall (env : Env) (fuel : Nat) (c : RenderCall) (w : VideoEngine) :
    Option VideoEngine :=
  w.render env fuel c.frameCount c.seekTimeline c.refreshTree c.forward c.sameFrame
    c.forcePreview

/-- What happens between the `startEngine` and the `stopEngine` of a run of
the worker: the worker goes once through the loop of `iterateKernel`, or a
client calls `render`. -/
inductive RunAction where
  | pass
  | call (c : RenderCall)
deriving DecidableEq, Repr

/-- The render calls among the actions, in order. -/
def renderCalls : List RunAction → List RenderCall
  | [] => []
  | .pass :: rest => renderCalls rest
  | .call c :: rest => c :: renderCalls rest

/-- A pass of the worker through the loop of `iterateKernel`, when it is still
in that loop (`next`); once the loop has returned (`done`) the worker is on its
way to `stopEngine` and does no further pass. -/
def VideoEngine.workerPass (env : Env) : Step → Step
  | .next w => w.iterateOnce env false
  | .done w => .done w

/-- A render call made while the worker is in, or has just left, the loop of
`iterateKernel`. -/
def VideoEngine.clientCall (env : Env) (fuel : Nat) (c : RenderCall) : Step → Option Step
  | .next w => (w.renderCall env fuel c).map .next
  | .done w => (w.renderCall env fuel c).map .done

/-- A run of the worker interleaved with render calls of the clients, from the
state after `startEngine` to the state in which `stopEngine` is called. -/
def VideoEngine.duringRun (env : Env) (fuel : Nat) : List RunAction → Step → Option Step
  | [], s => some s
  | .pass :: rest, s => VideoEngine.duringRun env fuel rest (VideoEngine.workerPass env s)
  | .call c :: rest, s =>
    match VideoEngine.clientCall env fuel c s with
    | none => none
    | some s1 => VideoEngine.duringRun env fuel rest s1

/-- The viewer run of three frames of `exampleStarted`, on a started worker
thread. -/
def exampleRunning : VideoEngine :=
  { exampleStarted true 3 false with threadStarted := true, threadRunning := true }

/-- Four passes of the worker, with a request for five frames forward after
the first and a request for two frames backward after the second. -/
def exampleActions : List RunAction :=
  [.pass, .call ⟨5, true, false, true, false, false⟩, .pass,
    .call ⟨2, true, false, false, false, false⟩, .pass, .pass]

/-- The state in which the run of `exampleRunning` interleaved with
`exampleActions` reaches `stopEngine`. -/
def exampleRunEnd : VideoEngine :=
  ((VideoEngine.duringRun (exampleEnv true) 5 exampleActions (.next exampleRunning)).getD
    (.next exampleRunning)).state

/-- The operations of the scheduler that involve no wait on another thread:
each constructor is one call of a function of `VideoEngine` (or one pass of
the loop of `iterateKernel` or of `run`), from the state before the call to
the state after it. -/
inductive Operation (env : Env) : VideoEngine → VideoEngine → Prop where
  | render (fuel : Nat) (c : RenderCall) (w w2 : VideoEngine) :
      w.renderCall env fuel c = some w2 → Operation env w w2
  | startEngine (w w2 : VideoEngine) (b : Bool) :
      w.startEngine env = some (b, w2) → Operation env w w2
  | iteratePass (singleThreaded : Bool) (w : VideoEngine) :
      Operation env w (w.iterateOnce env singleThreaded).state
  | iterateKernel (singleThreaded : Bool) (fuel : Nat) (w w2 : VideoEngine) :
      w.iterateKernel env singleThreaded fuel = some w2 → Operation env w w2
  | stopEngine (w : VideoEngine) : Operation env w (w.stopEngine env).2
  | runSameThread (fuel : Nat) (w w2 : VideoEngine) :
      w.runSameThread env fuel = some w2 → Operation env w w2
  | runPass (fuel : Nat) (w : VideoEngine) (out : RunOutcome) :
      w.runPass env fuel = some out → Operation env w out.state
  | wakeUp (w w2 : VideoEngine) : w.wakeUp = some w2 → Operation env w w2
  | abortRendering (blocking callerIsWorker : Bool) (w : VideoEngine) :
      Operation env w (w.abortRendering blocking callerIsWorker).2
  | refreshTree (w w2 : VideoEngine) : w.refreshTree env = some w2 → Operation env w w2
  | getFrameRange (w : VideoEngine) : Operation env w (w.getFrameRange env)
  | setPlaybackMode (mode : PlaybackMode) (w : VideoEngine) :
      Operation env w (w.setPlaybackMode mode)
  | refreshAndContinueRender (fuel : Nat) (forcePreview abortPreviousRender callerIsWorker : Bool)
      (w w2 : VideoEngine) :
      w.refreshAndContinueRender env fuel forcePreview abortPreviousRender callerIsWorker
        = some w2 → Operation env w w2

/-- All the operations of the scheduler: those of `Operation`, and the two
that may wait for the worker (`updateTreeAndContinueRender` and
`quitEngineThread`), during whose waits the scheduler goes through any number
of operations. -/
inductive Transition (env : Env) : VideoEngine → VideoEngine → Prop where
  | operation (w w2 : VideoEngine) : Operation env w w2 → Transition env w w2
  | updateTreeAndContinueRender (fuel : Nat) (callerIsWorker : Bool)
      (afterWait : VideoEngine → VideoEngine) (w w2 : VideoEngine) :
      (∀ x, Relation.ReflTransGen (Operation env) x (afterWait x)) →
      w.updateTreeAndContinueRender env fuel callerIsWorker afterWait = some w2 →
      Transition env w w2
  | quitEngineThread (callerIsWorker : Bool) (afterAbort afterQuit : VideoEngine → VideoEngine)
      (w : VideoEngine) :
      (∀ x, Relation.ReflTransGen (Operation env) x (afterAbort x)) →
      (∀ x, Relation.ReflTransGen (Operation env) x (afterQuit x)) →
      Transition env w (w.quitEngineThread callerIsWorker afterAbort afterQuit)

/-- The engine `exampleRunning` after a quit was requested during its run,
`stopEngine` has completed the quit transition and `run` has returned. -/
def exampleQuit : VideoEngine :=
  (({ exampleRunning with mustQuit := true } : VideoEngine).stopAndPark (exampleEnv true)).state

/-- The viewer run `render(frameCount, true, false, true, false, false)` of
`exampleStarted` on a started worker thread, after at most `passes` passes of
`iterateKernel`. -/
def exampleMidRun (frameCount : Int) (passes : Nat) : VideoEngine :=
  ({ exampleStarted true frameCount false with threadStarted := true, threadRunning := true } :
    VideoEngine).iterateUpTo (exampleEnv true) false passes

/-- The engine `exampleEngine` in BOUNCE mode on a timeline that holds the
single frame 7. -/
def exampleSingle : VideoEngine :=
  { exampleEngine with
    playbackMode := .PLAYBACK_BOUNCE
    timeline := { leftBound := 7, rightBound := 7, currentFrame := 7, lastSeekCaller := none } }

/-- The engine `exampleSingle` after `render(-1, true, false, true, false,
false)` has recorded its arguments and `startEngine` has run, on a viewer. -/
def exampleSingleStarted : VideoEngine :=
  (((exampleSingle.recordRunArgs (exampleEnv true) (-1) true false true false
    false).startEngine (exampleEnv true)).getD (false, exampleSingle)).2

/-- The calls that `renderFrame` makes for the views `views` of frame `time`
when no call fails: the region of definition of the view is queried, then the
view is rendered. -/
def viewCalls (time : Int) (isSequentialRender : Bool) (views : List Nat) : List Event :=
  (views.map fun v =>
    [Event.getRegionOfDefinition time v, Event.renderRoI time v isSequentialRender]).flatten

/-- The session of `exampleEnv false` in which the query of the region of
definition fails for view 1 of frame 1. -/
def rodFailingEnv : Env :=
  { exampleEnv false with
    getRegionOfDefinition := fun t v => if t = 1 ∧ v = 1 then some .StatFailed else some .StatOK }

/-- The engine `exampleEngine` after `render(1, true, false, true, false,
false)` has recorded its arguments and `startEngine` has run, on a writer in
the session `rodFailingEnv`. -/
def exampleFailing : VideoEngine :=
  (((exampleEngine.recordRunArgs rodFailingEnv 1 true false true false
    false).startEngine rodFailingEnv).getD (false, exampleEngine)).2

/-- The state `exampleFailing` once the first pass of `iterateKernel` has set
the current frame. -/
def exampleFailingFrame : VideoEngine :=
  ((exampleFailing.updateTimelineRange rodFailingEnv).setCurrentFrame rodFailingEnv
    ((exampleFailing.updateTimelineRange rodFailingEnv).passFirstFrame rodFailingEnv)
    ((exampleFailing.updateTimelineRange rodFailingEnv).passLastFrame rodFailingEnv)).state

/-- An abort is pending only against a run that has started: when the working
flag is unset the abort counter is zero. -/
def VideoEngine.abortOnlyWhileWorking (w : VideoEngine) : Prop :=
  w.working = false → w.abortRequested = 0

/-- The engine `exampleEngine` after a render request for three frames, the
`startEngine` of the worker, a non-blocking abort and `stopEngine`. -/
def exampleAfterAbort : VideoEngine :=
  let r1 := (exampleEngine.renderCall (exampleEnv true) 5 ⟨3, true, false, true, false,
    false⟩).getD exampleEngine
  let r2 := ((r1.startEngine (exampleEnv true)).getD (false, r1)).2
  ((r2.abortRendering false false).2.stopEngine (exampleEnv true)).2

/-- The counters of a bounded run of `N` requested frames agree with the
frames announced since the trace held the frames `base`: the remaining count is
not negative, the remaining count plus the index is `N`, and the index is the
number of frames announced. -/
def VideoEngine.countsFrames (N : Int) (base : List Int) (w : VideoEngine) : Prop :=
  w.currentRunArgs.frameRequestsCount + w.currentRunArgs.frameRequestIndex = N ∧
    0 ≤ w.currentRunArgs.frameRequestsCount ∧
    ∃ ts, frameRenderedEvents w.trace = base ++ ts ∧
      (ts.length : Int) = w.currentRunArgs.frameRequestIndex

/-- The engine `exampleSingle` (BOUNCE mode, timeline `[7, 7]`, cursor on 7)
after `render(3, true, false, true, false, false)`, `startEngine` and the first
pass of `iterateKernel`, on a viewer. -/
def exampleSinglePass2 : VideoEngine :=
  ((((exampleSingle.recordRunArgs (exampleEnv true) 3 true false true false
    false).startEngine (exampleEnv true)).getD (false, exampleSingle)).2).iterateUpTo
      (exampleEnv true) false 1

/-- A bounded run on a viewer playing forward, at the start of a second or
later pass: the policy applies, the direction is forward, no abort or quit is
pending, `k` frames remain, the start of a pass leaves the timeline as it is,
the right bound is `right` and the cursor stands on `cur`. -/
def VideoEngine.playsForward (env : Env) (st : Bool) (k : Nat) (cur right : Int)
    (w : VideoEngine) : Prop :=
  w.advances ∧ w.currentRunArgs.forward = true ∧ ¬ w.abortRequested > 0 ∧
    (st && w.mustQuit) = false ∧ w.currentRunArgs.frameRequestsCount = (k : Int) ∧
    (w.updateTimelineRange env).timeline = w.timeline ∧
    w.timeline.rightBound = right ∧ w.timeline.currentFrame = cur

/-- The engine `exampleEngine` with the cursor on frame 4, after
`render(3, true, false, true, false, false)` has recorded its arguments and
`startEngine` has run, on a viewer. -/
def exampleForward : VideoEngine :=
  (((({ exampleEngine with timeline := { exampleTimeline with currentFrame := 4 } } :
    VideoEngine).recordRunArgs (exampleEnv true) 3 true false true false
      false).startEngine (exampleEnv true)).getD (false, exampleEngine)).2

/-- The reference traversal that `fillGraph` is compared with: a depth-first
search that skips a node already visited, marks a node as visited when it
enters it, visits the connected inputs of the node in slot order, and lists the
node after its inputs (post-order).  The state is the pair `(visited, order)`;
the result is `none` when the fuel runs out. -/
def referenceDepthFirst (g : Graph) :
    Nat → Nat → List Nat × List Nat → Option (List Nat × List Nat)
  | 0, _, _ => none
  | fuel + 1, node, st =>
    if node ∈ st.1 then some st
    else
      match (g.inputsOf node).foldlM (RenderTree.fillInput (referenceDepthFirst g fuel))
          (node :: st.1, st.2) with
      | none => none
      | some (visited, order) => some (visited, order ++ [node])

/-- The post-order of the reference depth-first search from `output`, with the
recursion bound that `refreshTree` uses. -/
def referencePostOrder (g : Graph) (output : Nat) : Option (List Nat) :=
  (referenceDepthFirst g (g.length + 1) output ([], [])).map Prod.snd

/-! ## Facts about the graph -/

theorem isInput_lt_length {g : Graph} {m n : Nat} (h : IsInput g m n) : n < g.length := by
  by_contra hn
  have hnone : g[n]? = none := List.getElem?_eq_none (not_lt.mp hn)
  simp [IsInput, Graph.inputsOf, hnone] at h

theorem length_le_of_nodup_of_lt {P : List Nat} {N : Nat} (hP : P.Nodup)
    (hlt : ∀ p ∈ P, p < N) : P.length ≤ N := by
  have hsub : P ⊆ List.range N := fun p hp => List.mem_range.mpr (hlt p hp)
  have := (List.subperm_of_subset hP hsub).length_le
  simpa using this

theorem depthLE_of_acyclic {g : Graph} (hg : Acyclic g) :
    ∀ (k n : Nat) (P : List Nat), P.Nodup → (∀ p ∈ P, p < g.length) →
      (∀ p ∈ P, IsTransitiveInput g n p) → g.length + 1 ≤ P.length + k → DepthLE g k n := by
  intro k
  induction k with
  | zero =>
    intro n P hP hlt _ hlen
    have := length_le_of_nodup_of_lt hP hlt
    omega
  | succ k ih =>
    intro n P hP hlt htr hlen m hm
    apply ih m (n :: P)
    · refine List.nodup_cons.mpr ⟨fun hn => hg n (htr n hn), hP⟩
    · intro p hp
      rcases List.mem_cons.mp hp with rfl | hp
      · exact isInput_lt_length hm
      · exact hlt p hp
    · intro p hp
      rcases List.mem_cons.mp hp with rfl | hp
      · exact Relation.TransGen.single hm
      · exact Relation.TransGen.head hm (htr p hp)
    · simp only [List.length_cons]; omega

theorem depthLE_length_succ {g : Graph} (hg : Acyclic g) (n : Nat) :
    DepthLE g (g.length + 1) n :=
  depthLE_of_acyclic hg (g.length + 1) n [] List.nodup_nil (by simp) (by simp) (by simp)

theorem isInput_lt_of_descending {g : Graph} (hd : g.descending = true) {m n : Nat}
    (h : IsInput g m n) : m < n := by
  have hn := isInput_lt_length h
  simp only [Graph.descending, List.all_eq_true, List.mem_range] at hd
  simpa using hd n hn (some m) h

theorem acyclic_of_descending {g : Graph} (hd : g.descending = true) : Acyclic g := by
  have key : ∀ m n, IsTransitiveInput g m n → m < n := by
    intro m n h
    induction h with
    | single h => exact isInput_lt_of_descending hd h
    | tail _ hbc ih => exact lt_trans ih (isInput_lt_of_descending hd hbc)
  exact fun n hn => lt_irrefl n (key n n hn)

theorem exampleGraph_acyclic : Acyclic exampleGraph :=
  acyclic_of_descending (by decide)

/-! ## `fillGraph` returns on acyclic graphs -/

theorem fillInputs_isSome {g : Graph} {k : Nat}
    (ih : ∀ n, DepthLE g k n → ∀ st, (RenderTree.fillGraph g k n st).isSome) :
    ∀ (inputs : List (Option Nat)), (∀ i, some i ∈ inputs → DepthLE g k i) → ∀ st,
      (inputs.foldlM (RenderTree.fillInput (RenderTree.fillGraph g k)) st).isSome := by
  intro inputs
  induction inputs with
  | nil => intro _ st; simp
  | cons a rest ihr =>
    intro hall st
    have hrest : ∀ i, some i ∈ rest → DepthLE g k i :=
      fun i hi => hall i (List.mem_cons_of_mem _ hi)
    cases a with
    | none => simpa [List.foldlM_cons, RenderTree.fillInput] using ihr hrest st
    | some i =>
      have h1 := ih i (hall i (List.mem_cons_self _ _)) st
      obtain ⟨r, hr⟩ := Option.isSome_iff_exists.mp h1
      simpa [List.foldlM_cons, RenderTree.fillInput, hr] using ihr hrest r

theorem fillGraph_isSome {g : Graph} :
    ∀ (k n : Nat), DepthLE g k n → ∀ st, (RenderTree.fillGraph g k n st).isSome := by
  intro k
  induction k with
  | zero => intro n h; exact absurd h (by simp [DepthLE])
  | succ k ih =>
    intro n h st
    have hfold := fillInputs_isSome ih (g.inputsOf n) (fun i hi => h i hi) st
    obtain ⟨r, hr⟩ := Option.isSome_iff_exists.mp hfold
    rw [RenderTree.fillGraph, hr]
    obtain ⟨marked, sorted⟩ := r
    by_cases hm : n ∈ marked <;> simp [hm]

/-! ## What `fillGraph` builds -/

theorem topoOrdered_nil (g : Graph) : TopoOrdered g [] :=
  ⟨List.nodup_nil, fun n hn => absurd hn (List.not_mem_nil n)⟩

theorem topoOrdered_snoc {g : Graph} {l : List Nat} {n : Nat} (hl : TopoOrdered g l)
    (hn : n ∉ l) (hin : ∀ m, IsInput g m n → m ∈ l) : TopoOrdered g (l ++ [n]) := by
  refine ⟨?_, ?_⟩
  · exact List.Nodup.append hl.1 (List.nodup_singleton n) (by simpa using hn)
  · intro x hx m hm
    rcases List.mem_append.mp hx with hx | hx
    · obtain ⟨hml, hlt⟩ := hl.2 x hx m hm
      refine ⟨List.mem_append_left _ hml, ?_⟩
      rw [List.indexOf_append_of_mem hml, List.indexOf_append_of_mem hx]
      exact hlt
    · have hxn : x = n := by simpa using hx
      subst hxn
      have hml := hin m hm
      refine ⟨List.mem_append_left _ hml, ?_⟩
      rw [List.indexOf_append_of_mem hml, List.indexOf_append_of_not_mem hn]
      have := List.indexOf_lt_length.mpr hml
      omega

theorem topoOrdered_transitive {g : Graph} {l : List Nat} (hl : TopoOrdered g l)
    {m n : Nat} (h : IsTransitiveInput g m n) :
    n ∈ l → m ∈ l ∧ l.indexOf m < l.indexOf n := by
  induction h with
  | single hmn => exact fun hn => hl.2 _ hn m hmn
  | tail _ hbc ih =>
    intro hc
    obtain ⟨hb, hlt⟩ := hl.2 _ hc _ hbc
    obtain ⟨hm, hlt2⟩ := ih hb
    exact ⟨hm, lt_trans hlt2 hlt⟩

theorem topoOrdered_reachable {g : Graph} {l : List Nat} (hl : TopoOrdered g l)
    {m n : Nat} (h : Reachable g m n) (hn : n ∈ l) : m ∈ l := by
  rcases Relation.reflTransGen_iff_eq_or_transGen.mp h with heq | htr
  · exact heq ▸ hn
  · exact (topoOrdered_transitive hl htr hn).1

/-- What the loop over the input slots of a node adds to the two lists. -/
theorem fillInputs_spec {g : Graph} {k : Nat}
    (ih : ∀ (n : Nat) (marked sorted : List Nat) (res : List Nat × List Nat),
      TopoOrdered g marked → RenderTree.fillGraph g k n (marked, sorted) = some res →
      ∃ d, res = (marked ++ d, sorted ++ d) ∧ TopoOrdered g (marked ++ d) ∧
        n ∈ marked ++ d ∧ ∀ x ∈ d, Reachable g x n) :
    ∀ (inputs : List (Option Nat)) (marked sorted : List Nat) (res : List Nat × List Nat),
      TopoOrdered g marked →
      inputs.foldlM (RenderTree.fillInput (RenderTree.fillGraph g k)) (marked, sorted)
        = some res →
      ∃ d, res = (marked ++ d, sorted ++ d) ∧ TopoOrdered g (marked ++ d) ∧
        (∀ i, some i ∈ inputs → i ∈ marked ++ d) ∧
        ∀ x ∈ d, ∃ i, some i ∈ inputs ∧ Reachable g x i := by
  intro inputs
  induction inputs with
  | nil =>
    intro marked sorted res hm h
    refine ⟨[], ?_, by simpa using hm, by simp, by simp⟩
    simpa using h.symm
  | cons a rest ihr =>
    intro marked sorted res hm h
    cases a with
    | none =>
      have h2 : rest.foldlM (RenderTree.fillInput (RenderTree.fillGraph g k)) (marked, sorted)
          = some res := by
        simpa [List.foldlM_cons, RenderTree.fillInput] using h
      obtain ⟨d, hres, htopo, hin, hreach⟩ := ihr marked sorted res hm h2
      refine ⟨d, hres, htopo, ?_, ?_⟩
      · intro i hi
        rcases List.mem_cons.mp hi with hi | hi
        · cases hi
        · exact hin i hi
      · intro x hx
        obtain ⟨i, hi, hr⟩ := hreach x hx
        exact ⟨i, List.mem_cons_of_mem _ hi, hr⟩
    | some j =>
      cases hj : RenderTree.fillGraph g k j (marked, sorted) with
      | none => simp [List.foldlM_cons, RenderTree.fillInput, hj] at h
      | some r =>
        obtain ⟨d1, hr1, htopo1, hj1, hreach1⟩ := ih j marked sorted r hm hj
        subst hr1
        have h2 : rest.foldlM (RenderTree.fillInput (RenderTree.fillGraph g k))
            (marked ++ d1, sorted ++ d1) = some res := by
          simpa [List.foldlM_cons, RenderTree.fillInput, hj] using h
        obtain ⟨d2, hres, htopo2, hin2, hreach2⟩ := ihr _ _ res htopo1 h2
        refine ⟨d1 ++ d2, by simpa [List.append_assoc] using hres,
          by simpa [List.append_assoc] using htopo2, ?_, ?_⟩
        · intro i hi
          rcases List.mem_cons.mp hi with hi | hi
          · have hij : i = j := by simpa using hi
            subst hij
            have := List.mem_append_left d2 hj1
            simpa [List.append_assoc] using this
          · simpa [List.append_assoc] using hin2 i hi
        · intro x hx
          rcases List.mem_append.mp hx with hx | hx
          · exact ⟨j, List.mem_cons_self _ _, hreach1 x hx⟩
          · obtain ⟨i, hi, hr⟩ := hreach2 x hx
            exact ⟨i, List.mem_cons_of_mem _ hi, hr⟩

/-- What one call of `fillGraph` adds to the two lists, when it returns. -/
theorem fillGraph_spec {g : Graph} :
    ∀ (k n : Nat) (marked sorted : List Nat) (res : List Nat × List Nat),
      TopoOrdered g marked → RenderTree.fillGraph g k n (marked, sorted) = some res →
      ∃ d, res = (marked ++ d, sorted ++ d) ∧ TopoOrdered g (marked ++ d) ∧
        n ∈ marked ++ d ∧ ∀ x ∈ d, Reachable g x n := by
  intro k
  induction k with
  | zero => intro n marked sorted res _ h; simp [RenderTree.fillGraph] at h
  | succ k ih =>
    intro n marked sorted res hm h
    rw [RenderTree.fillGraph] at h
    cases hf : (g.inputsOf n).foldlM (RenderTree.fillInput (RenderTree.fillGraph g k))
        (marked, sorted) with
    | none => simp [hf] at h
    | some r =>
      obtain ⟨d, hr, htopo, hin, hreach⟩ := fillInputs_spec ih _ marked sorted r hm hf
      subst hr
      have hreach' : ∀ x ∈ d, Reachable g x n := by
        intro x hx
        obtain ⟨i, hi, hxi⟩ := hreach x hx
        exact Relation.ReflTransGen.tail hxi hi
      by_cases hmem : n ∈ marked ++ d
      · refine ⟨d, ?_, htopo, hmem, hreach'⟩
        simpa [hf, hmem] using h.symm
      · refine ⟨d ++ [n], ?_, ?_, ?_, ?_⟩
        · simpa [hf, hmem, List.append_assoc] using h.symm
        · simpa [List.append_assoc] using topoOrdered_snoc htopo hmem (fun m hmn => hin m hmn)
        · simp
        · intro x hx
          rcases List.mem_append.mp hx with hx | hx
          · exact hreach' x hx
          · have hxn : x = n := by simpa using hx
            exact hxn ▸ Relation.ReflTransGen.refl

/-- On an acyclic graph `refreshTree` returns, whatever the tree held before;
the sequence it leaves is freshly built, ordered inputs first without
duplicates, holds the output, and holds only nodes reachable from it. -/
theorem refreshTree_spec {g : Graph} (hg : Acyclic g) (v o : Bool) (t : RenderTree) :
    ∃ sorted, t.refreshTree g v o =
        some { t with isViewer := v, isOutputOpenFXNode := o, sorted := sorted,
                      wasEverBuilt := true } ∧
      TopoOrdered g sorted ∧ t.output ∈ sorted ∧ ∀ x ∈ sorted, Reachable g x t.output := by
  have hsome := fillGraph_isSome (g.length + 1) t.output (depthLE_length_succ hg t.output)
    ([], [])
  obtain ⟨r, hr⟩ := Option.isSome_iff_exists.mp hsome
  obtain ⟨d, hd, htopo, hout, hreach⟩ :=
    fillGraph_spec (g.length + 1) t.output [] [] r (topoOrdered_nil g) hr
  subst hd
  refine ⟨d, ?_, by simpa using htopo, by simpa using hout, hreach⟩
  simp [RenderTree.refreshTree, RenderTree.clearGraph, hr]

/-! ## The render order -/

/-- C1: on an acyclic graph, for any output node and any earlier content of the
tree, `RenderTree::refreshTree` returns and leaves a sorted sequence in which no
node occurs twice and in which every node stands at a strictly later position
than each of its transitive inputs (which are all in the sequence). -/
theorem refreshTree_topological (g : Graph) (outputIsViewer outputIsOpenFX : Bool)
    (t : RenderTree) (hg : Acyclic g) :
    ∃ t', t.refreshTree g outputIsViewer outputIsOpenFX = some t' ∧
      t'.sorted.Nodup ∧
      ∀ n ∈ t'.sorted, ∀ m, IsTransitiveInput g m n →
        m ∈ t'.sorted ∧ t'.sorted.indexOf m < t'.sorted.indexOf n := by
  obtain ⟨sorted, heq, htopo, _, _⟩ := refreshTree_spec hg outputIsViewer outputIsOpenFX t
  exact ⟨_, heq, htopo.1, fun n hn m hmn => topoOrdered_transitive htopo hmn hn⟩

/-- C2: on an acyclic graph, for any earlier content of the tree, after
`RenderTree::refreshTree` a node is in the sorted sequence exactly when it is
the output or reachable from it through connected input slots. -/
theorem refreshTree_nodes_eq_reachable (g : Graph) (outputIsViewer outputIsOpenFX : Bool)
    (t : RenderTree) (hg : Acyclic g) :
    ∃ t', t.refreshTree g outputIsViewer outputIsOpenFX = some t' ∧
      ∀ n, n ∈ t'.sorted ↔ Reachable g n t.output := by
  obtain ⟨sorted, heq, htopo, hout, hreach⟩ :=
    refreshTree_spec hg outputIsViewer outputIsOpenFX t
  exact ⟨_, heq, fun n => ⟨hreach n, fun h => topoOrdered_reachable htopo h hout⟩⟩

theorem refreshTree_topological_witness :
    Acyclic exampleGraph ∧
    ∃ t', exampleTree.refreshTree exampleGraph true false = some t' ∧
      t'.sorted.Nodup ∧
      ∀ n ∈ t'.sorted, ∀ m, IsTransitiveInput exampleGraph m n →
        m ∈ t'.sorted ∧ t'.sorted.indexOf m < t'.sorted.indexOf n :=
  ⟨exampleGraph_acyclic,
    refreshTree_topological exampleGraph true false exampleTree exampleGraph_acyclic⟩

theorem refreshTree_nodes_eq_reachable_witness :
    Acyclic exampleGraph ∧
    ∃ t', exampleTree.refreshTree exampleGraph true false = some t' ∧
      ∀ n, n ∈ t'.sorted ↔ Reachable exampleGraph n exampleTree.output :=
  ⟨exampleGraph_acyclic,
    refreshTree_nodes_eq_reachable exampleGraph true false exampleTree exampleGraph_acyclic⟩

theorem refreshTree_exampleTree : exampleTree.refreshTree exampleGraph true false =
    some { exampleTree with isViewer := true, sorted := [0, 1, 2, 3] } := by decide

/-! ## Which fields each operation touches -/

theorem getFrameRange_frame (env : Env) (w : VideoEngine) :
    ∃ f l, w.getFrameRange env = { w with firstFrame := f, lastFrame := l } := by
  unfold VideoEngine.getFrameRange VideoEngine.getFrameRangeOf
  dsimp only
  split_ifs <;> exact ⟨_, _, rfl⟩

theorem updateTimelineRange_frame (env : Env) (w : VideoEngine) :
    ∃ f l tl, w.updateTimelineRange env = { w with firstFrame := f, lastFrame := l,
                                                   timeline := tl } ∧
      tl.currentFrame = w.timeline.currentFrame ∧
      tl.lastSeekCaller = w.timeline.lastSeekCaller := by
  obtain ⟨f, l, h⟩ := getFrameRange_frame env w
  unfold VideoEngine.updateTimelineRange
  dsimp only
  rw [h]
  split_ifs <;> exact ⟨_, _, _, rfl, rfl, rfl⟩

theorem updateTimelineRange_writer (env : Env) (w : VideoEngine)
    (h : env.outputIsViewer = false) : w.updateTimelineRange env = w := by
  simp [VideoEngine.updateTimelineRange, h]

theorem setCurrentFrame_frame (env : Env) (f l : Int) (w : VideoEngine) :
    ∃ tl o fwd, (w.setCurrentFrame env f l).state =
      { w with timeline := tl, output := o,
               currentRunArgs := { w.currentRunArgs with forward := fwd } } := by
  unfold VideoEngine.setCurrentFrame
  dsimp only
  split_ifs <;> first
    | exact ⟨_, _, _, rfl⟩
    | (split <;> exact ⟨_, _, _, rfl⟩)

theorem frameRenderedEvents_append (a b : List Event) :
    frameRenderedEvents (a ++ b) = frameRenderedEvents a ++ frameRenderedEvents b := by
  simp [frameRenderedEvents, List.filterMap_append]

theorem renderViews_trace (env : Env) (t : Int) (q : Bool) (mv : Int) :
    ∀ (views : List Nat) (stat : Status) (tr : List Event),
      ∃ es, (VideoEngine.renderViews env t q mv views stat tr).2 = tr ++ es ∧
        frameRenderedEvents es = [] := by
  intro views
  induction views with
  | nil => intro stat tr; exact ⟨[], by simp [VideoEngine.renderViews], rfl⟩
  | cons i rest ih =>
    intro stat tr
    unfold VideoEngine.renderViews
    dsimp only
    split_ifs with hskip
    · exact ih stat tr
    · cases hrod : env.getRegionOfDefinition t i with
      | none => exact ⟨[.getRegionOfDefinition t i], rfl, rfl⟩
      | some s =>
        dsimp only
        split_ifs with hs
        · cases hroi : env.renderRoI t i q with
          | none => exact ⟨[.getRegionOfDefinition t i, .renderRoI t i q], by simp, rfl⟩
          | some s2 =>
            obtain ⟨es, hes, hnone⟩ :=
              ih s (tr ++ [.getRegionOfDefinition t i] ++ [.renderRoI t i q])
            refine ⟨[.getRegionOfDefinition t i, .renderRoI t i q] ++ es, ?_, ?_⟩
            · simpa [List.append_assoc] using hes
            · rw [frameRenderedEvents_append, hnone]; rfl
        · exact ⟨[.getRegionOfDefinition t i], rfl, rfl⟩

theorem paceViewer_frame (w : VideoEngine) :
    ∃ es n, w.paceViewer = { w with trace := w.trace ++ es, timerFrameCount := n } ∧
      frameRenderedEvents es = [] := by
  unfold VideoEngine.paceViewer
  split_ifs
  · exact ⟨[], w.timerFrameCount, by simp, rfl⟩
  · exact ⟨[.fpsChanged], 1, rfl, rfl⟩
  · exact ⟨[], w.timerFrameCount + 1, by simp, rfl⟩

theorem renderFrame_frame (env : Env) (t : Int) (st : Bool) (w : VideoEngine) :
    ∃ es n, (w.renderFrame env t st).2 =
        { w with trace := w.trace ++ es, timerFrameCount := n } ∧
      frameRenderedEvents es = [] := by
  unfold VideoEngine.renderFrame
  dsimp only
  by_cases hv : (w.tree.isViewer && !w.tree.isOutputOpenFXNode) = true
  · rw [if_pos hv]
    cases hr : env.renderViewer t st w.isSequentialRender with
    | none => exact ⟨[.renderViewer t st w.isSequentialRender], w.timerFrameCount, rfl, rfl⟩
    | some stat =>
      obtain ⟨es, n, hp, hnone⟩ :=
        paceViewer_frame (w.emit [.renderViewer t st w.isSequentialRender])
      dsimp only
      rw [hp]
      split_ifs
      · refine ⟨[.renderViewer t st w.isSequentialRender] ++ es ++ [.disconnectViewer], n,
          ?_, ?_⟩
        · simp [VideoEngine.emit, List.append_assoc]
        · rw [frameRenderedEvents_append, frameRenderedEvents_append, hnone]; rfl
      · refine ⟨[.renderViewer t st w.isSequentialRender] ++ es, n, ?_, ?_⟩
        · simp [VideoEngine.emit, List.append_assoc]
        · rw [frameRenderedEvents_append, hnone]; rfl
  · rw [if_neg hv]
    obtain ⟨es, hes, hnone⟩ := renderViews_trace env t w.isSequentialRender
      (if w.isSequentialRender = true then env.mainView else 0)
      (List.range env.projectViewsCount.toNat) .StatOK w.trace
    exact ⟨es, w.timerFrameCount, by rw [hes], hnone⟩

/-- A pass whose frame computation succeeds announces exactly that frame and
goes on to the next pass, unless a quit is seen on the calling thread. -/
theorem renderAndCount_ok (env : Env) (st : Bool) (t : Int) (w : VideoEngine)
    (hok : w.frameSucceeds env st t) :
    ∃ es n, frameRenderedEvents es = [t] ∧
      w.renderAndCount env st t =
        if (st && w.mustQuit) = true then
          .done { w with trace := w.trace ++ es, timerFrameCount := n }
        else .next ({ w with trace := w.trace ++ es, timerFrameCount := n } :
          VideoEngine).updateCounters := by
  obtain ⟨stat, hs, hne⟩ := hok
  obtain ⟨es, n, hfr, hnone⟩ := renderFrame_frame env t st w
  have hpair : w.renderFrame env t st =
      (some stat, { w with trace := w.trace ++ es, timerFrameCount := n }) :=
    Prod.ext hs hfr
  unfold VideoEngine.renderAndCount
  rw [hpair]
  dsimp only [VideoEngine.emit]
  rw [if_neg hne]
  by_cases hbg : env.isBackground = true
  · refine ⟨es ++ [.frameRendered t] ++ [.writeFrameRendered t], n, ?_, ?_⟩
    · rw [frameRenderedEvents_append, frameRenderedEvents_append, hnone]; rfl
    · simp only [hbg, if_true, List.append_assoc]
  · refine ⟨es ++ [.frameRendered t], n, ?_, ?_⟩
    · rw [frameRenderedEvents_append, hnone]; rfl
    · simp only [hbg, if_false, List.append_assoc]
      rfl

/-- Whatever the frame computation does, a pass announces at most the frame it
was given, and touches no field but the trace, the frame count of the timer and
the counters of the run. -/
theorem renderAndCount_any (env : Env) (st : Bool) (t : Int) (w : VideoEngine) :
    ∃ es n, (frameRenderedEvents es = [] ∨ frameRenderedEvents es = [t]) ∧
      (w.renderAndCount env st t =
          .done { w with trace := w.trace ++ es, timerFrameCount := n } ∨
        (frameRenderedEvents es = [t] ∧ w.renderAndCount env st t =
          .next ({ w with trace := w.trace ++ es, timerFrameCount := n } :
            VideoEngine).updateCounters)) := by
  by_cases hok : w.frameSucceeds env st t
  · obtain ⟨es, n, hes, heq⟩ := renderAndCount_ok env st t w hok
    refine ⟨es, n, Or.inr hes, ?_⟩
    rw [heq]
    split_ifs
    · exact Or.inl rfl
    · exact Or.inr ⟨hes, rfl⟩
  · obtain ⟨es, n, hfr, hnone⟩ := renderFrame_frame env t st w
    unfold VideoEngine.renderAndCount
    cases hs : (w.renderFrame env t st).1 with
    | none =>
      have hpair : w.renderFrame env t st =
          (none, { w with trace := w.trace ++ es, timerFrameCount := n }) :=
        Prod.ext hs hfr
      rw [hpair]
      dsimp only [VideoEngine.emit]
      split_ifs
      · refine ⟨es ++ [.disconnectViewer], n, Or.inl ?_, Or.inl ?_⟩
        · rw [frameRenderedEvents_append, hnone]; rfl
        · simp only [List.append_assoc]
      · exact ⟨es, n, Or.inl hnone, Or.inl rfl⟩
    | some stat =>
      have hpair : w.renderFrame env t st =
          (some stat, { w with trace := w.trace ++ es, timerFrameCount := n }) :=
        Prod.ext hs hfr
      have hstat : stat = .StatFailed := by
        by_contra hne
        exact hok ⟨stat, hs, hne⟩
      rw [hpair]
      dsimp only
      rw [if_pos hstat]
      exact ⟨es, n, Or.inl hnone, Or.inl rfl⟩

theorem refreshTree_frame (env : Env) (w w2 : VideoEngine)
    (h : w.refreshTree env = some w2) :
    ∃ t, w2 = { w with tree := t } ∧
      w.tree.refreshTree env.graph env.outputIsViewer env.outputIsOpenFX = some t := by
  unfold VideoEngine.refreshTree at h
  split at h
  · exact absurd h (by simp)
  · next t ht =>
    refine ⟨t, ?_, ht⟩
    simpa using h.symm

theorem beginOutput_frame (env : Env) (w : VideoEngine) :
    ∃ f l o tr, (w.beginOutput env).2 =
      { w with firstFrame := f, lastFrame := l, output := o, trace := tr } := by
  obtain ⟨f, l, hg⟩ := getFrameRange_frame env w
  unfold VideoEngine.beginOutput VideoEngine.setNodesKnobsFrozen VideoEngine.emit
  dsimp only
  rw [hg]
  split_ifs <;> exact ⟨_, _, _, _, rfl⟩

/-- What a successful `startEngine` leaves: no abort was pending, the last
requested arguments have become the current ones, the engine is working; the
tree, the resolved range, the output effect, the trace and the timer are the
only other fields that may differ. -/
theorem startEngine_true_frame (env : Env) (w0 w : VideoEngine)
    (h : w0.startEngine env = some (true, w)) :
    ¬ w0.abortRequested > 0 ∧
    ∃ t f l o tr tm, w =
      { w0 with restart := false, currentRunArgs := w0.lastRequestedRunArgs, tree := t,
                firstFrame := f, lastFrame := l, output := o, trace := tr, working := true,
                timerRunning := tm } := by
  unfold VideoEngine.startEngine at h
  split_ifs at h with ha
  · simp at h
  · refine ⟨ha, ?_⟩
    dsimp only at h
    split at h
    · simp at h
    · next w2 hw2 =>
      obtain ⟨f, l, o, tr, hb⟩ := beginOutput_frame env w2
      split at h
      · simp at h
      · next w3 hw3 =>
        have h3 : w3 = (w2.beginOutput env).2 := by rw [hw3]
        have hw : w = w3.announceStart env := by
          simpa using h.symm
        rw [hw, h3, hb]
        split_ifs at hw2 with hr
        · obtain ⟨t, ht, _⟩ := refreshTree_frame env _ w2 hw2
          rw [ht]
          exact ⟨_, _, _, _, _, _, rfl⟩
        · have : w2 = { w0 with restart := false, currentRunArgs := w0.lastRequestedRunArgs } := by
            simpa using hw2.symm
          rw [this]
          exact ⟨_, _, _, _, _, _, rfl⟩

/-! ## When the frame computation succeeds -/

theorem renderViews_ok (env : Env) (t : Int) (q : Bool) (mv : Int)
    (hrod : ∀ t v, ∃ stat, env.getRegionOfDefinition t v = some stat ∧ stat ≠ .StatFailed)
    (hroi : ∀ t v q, ∃ stat, env.renderRoI t v q = some stat) :
    ∀ (views : List Nat) (stat : Status) (tr : List Event), stat ≠ .StatFailed →
      ∃ stat2, (VideoEngine.renderViews env t q mv views stat tr).1 = some stat2 ∧
        stat2 ≠ .StatFailed := by
  intro views
  induction views with
  | nil => intro stat tr hs; exact ⟨stat, rfl, hs⟩
  | cons i rest ih =>
    intro stat tr hs
    unfold VideoEngine.renderViews
    dsimp only
    split_ifs with hskip
    · exact ih stat tr hs
    · obtain ⟨s1, h1, hne1⟩ := hrod t i
      obtain ⟨s2, h2⟩ := hroi t i q
      rw [h1]
      dsimp only
      rw [if_pos hne1, h2]
      exact ih s1 _ hne1

/-- If no call into the nodes throws and none but `renderRoI` returns
`StatFailed`, every frame computation succeeds. -/
theorem frameSucceeds_of_answers (env : Env)
    (hview : ∀ t s q, ∃ stat, env.renderViewer t s q = some stat ∧ stat ≠ .StatFailed)
    (hrod : ∀ t v, ∃ stat, env.getRegionOfDefinition t v = some stat ∧ stat ≠ .StatFailed)
    (hroi : ∀ t v q, ∃ stat, env.renderRoI t v q = some stat) :
    ∀ (st : Bool) (t : Int) (w : VideoEngine), w.frameSucceeds env st t := by
  intro st t w
  unfold VideoEngine.frameSucceeds VideoEngine.renderFrame
  dsimp only
  by_cases hv : (w.tree.isViewer && !w.tree.isOutputOpenFXNode) = true
  · rw [if_pos hv]
    obtain ⟨stat, hs, hne⟩ := hview t st w.isSequentialRender
    rw [hs]
    exact ⟨stat, rfl, hne⟩
  · rw [if_neg hv]
    exact renderViews_ok env t _ _ hrod hroi _ .StatOK _ (by decide)

theorem exampleEnv_frameSucceeds (viewer st : Bool) (t : Int) (w : VideoEngine) :
    w.frameSucceeds (exampleEnv viewer) st t :=
  frameSucceeds_of_answers (exampleEnv viewer)
    (fun _ _ _ => ⟨.StatOK, rfl, by decide⟩) (fun _ _ => ⟨.StatOK, rfl, by decide⟩)
    (fun _ _ _ => ⟨.StatOK, rfl⟩) st t w

theorem getFrameRange_resolved (env : Env) (w : VideoEngine) (h : ¬ w.abortRequested > 0) :
    (w.getFrameRange env).firstFrame =
        (if env.declaredFrameRange.1 = INT_MIN then w.timeline.leftBound
          else env.declaredFrameRange.1) ∧
    (w.getFrameRange env).lastFrame =
        (if env.declaredFrameRange.2 = INT_MAX then w.timeline.rightBound
          else env.declaredFrameRange.2) := by
  unfold VideoEngine.getFrameRange VideoEngine.getFrameRangeOf
  rw [if_neg h]
  exact ⟨rfl, rfl⟩

theorem renderTree_refreshTree_isViewer (g : Graph) (v o : Bool) (t t2 : RenderTree)
    (h : t.refreshTree g v o = some t2) : t2.isViewer = v := by
  unfold RenderTree.refreshTree at h
  dsimp only at h
  split at h
  · simp at h
  · have := Option.some.inj h
    rw [← this]
    rfl

theorem beginOutput_writer (env : Env) (w : VideoEngine) (h : w.tree.isViewer = false) :
    (w.beginOutput env).2.output.firstFrame = (w.getFrameRange env).firstFrame ∧
    (w.beginOutput env).2.output.lastFrame = (w.getFrameRange env).lastFrame ∧
    (w.beginOutput env).2.tree = w.tree := by
  obtain ⟨f, l, hg⟩ := getFrameRange_frame env w
  unfold VideoEngine.beginOutput VideoEngine.setNodesKnobsFrozen VideoEngine.emit
  simp only [h, Bool.not_false, if_true]
  rw [hg]
  split_ifs <;> exact ⟨rfl, rfl, rfl⟩

/-- What a successful `startEngine` leaves for a writer: the cached "is viewer"
flag is still unset and the output holds the range that `getFrameRange`
resolves. -/
theorem startEngine_true_writer (env : Env) (w0 w : VideoEngine)
    (h : w0.startEngine env = some (true, w))
    (hout : env.outputIsViewer = false) (htree : w0.tree.isViewer = false) :
    w.tree.isViewer = false ∧
    w.output.firstFrame = (w0.getFrameRange env).firstFrame ∧
    w.output.lastFrame = (w0.getFrameRange env).lastFrame := by
  unfold VideoEngine.startEngine at h
  split_ifs at h with ha
  · simp at h
  · dsimp only at h
    split at h
    · simp at h
    · next w2 hw2 =>
      have h2 : w2.tree.isViewer = false ∧ w2.timeline = w0.timeline ∧
          w2.abortRequested = w0.abortRequested := by
        split_ifs at hw2 with hr
        · obtain ⟨t, ht, hrt⟩ := refreshTree_frame env _ w2 hw2
          have hv := renderTree_refreshTree_isViewer _ _ _ _ _ hrt
          rw [ht]
          exact ⟨by rw [← hout]; exact hv, rfl, rfl⟩
        · have : w2 = { w0 with restart := false, currentRunArgs := w0.lastRequestedRunArgs } := by
            simpa using hw2.symm
          rw [this]
          exact ⟨htree, rfl, rfl⟩
      obtain ⟨hbf, hbl, hbt⟩ := beginOutput_writer env w2 h2.1
      split at h
      · simp at h
      · next w3 hw3 =>
        have h3 : w3 = (w2.beginOutput env).2 := by rw [hw3]
        have hw : w = w3.announceStart env := by
          simpa using h.symm
        have hr0 := getFrameRange_resolved env w0 ha
        have hr2 := getFrameRange_resolved env w2 (by rw [h2.2.2]; exact ha)
        rw [hw, h3]
        refine ⟨?_, ?_, ?_⟩
        · show (w2.beginOutput env).2.tree.isViewer = false
          rw [hbt]; exact h2.1
        · show (w2.beginOutput env).2.output.firstFrame = _
          rw [hbf, hr2.1, hr0.1, h2.2.1]
        · show (w2.beginOutput env).2.output.lastFrame = _
          rw [hbl, hr2.2, hr0.2, h2.2.1]

/-! ## One pass of `iterateKernel` -/

theorem iterateOnce_aborted (env : Env) (st : Bool) (w : VideoEngine)
    (h : w.abortRequested > 0) : w.iterateOnce env st = .done w := by
  unfold VideoEngine.iterateOnce
  rw [if_pos h]

theorem iterateOnce_stop (env : Env) (st : Bool) (w w2 : VideoEngine)
    (h : ¬ w.abortRequested > 0)
    (hset : (w.updateTimelineRange env).setCurrentFrame env
      ((w.updateTimelineRange env).passFirstFrame env)
      ((w.updateTimelineRange env).passLastFrame env) = .stop w2) :
    w.iterateOnce env st = .done w2 := by
  unfold VideoEngine.iterateOnce
  rw [if_neg h]
  dsimp only
  rw [hset]

theorem iterateOnce_mustStop (env : Env) (st : Bool) (w w2 : VideoEngine) (c : Int)
    (h : ¬ w.abortRequested > 0)
    (hset : (w.updateTimelineRange env).setCurrentFrame env
      ((w.updateTimelineRange env).passFirstFrame env)
      ((w.updateTimelineRange env).passLastFrame env) = .frame c w2)
    (hstop : w2.mustStop env ((w.updateTimelineRange env).passFirstFrame env)
      ((w.updateTimelineRange env).passLastFrame env) = true) :
    w.iterateOnce env st = .done w2 := by
  unfold VideoEngine.iterateOnce
  rw [if_neg h]
  dsimp only
  rw [hset]
  dsimp only
  rw [if_pos hstop]

theorem iterateOnce_render (env : Env) (st : Bool) (w w2 : VideoEngine) (c : Int)
    (h : ¬ w.abortRequested > 0)
    (hset : (w.updateTimelineRange env).setCurrentFrame env
      ((w.updateTimelineRange env).passFirstFrame env)
      ((w.updateTimelineRange env).passLastFrame env) = .frame c w2)
    (hstop : w2.mustStop env ((w.updateTimelineRange env).passFirstFrame env)
      ((w.updateTimelineRange env).passLastFrame env) = false) :
    w.iterateOnce env st = w2.renderAndCount env st c := by
  unfold VideoEngine.iterateOnce
  rw [if_neg h]
  dsimp only
  rw [hset]
  dsimp only
  rw [hstop]
  rfl

theorem mustStop_eq_false (env : Env) (f l : Int) (w : VideoEngine)
    (habort : ¬ w.abortRequested > 0) (hauto : env.autoRunAborted = false)
    (hcount : w.currentRunArgs.frameRequestsCount ≠ 0)
    (hsingle : ¬ (w.tree.isViewer = true ∧ w.currentRunArgs.recursiveCall = true ∧ f = l ∧
      w.currentRunArgs.frameRequestsCount = -1 ∧ w.currentRunArgs.frameRequestIndex = 1)) :
    w.mustStop env f l = false := by
  unfold VideoEngine.mustStop
  unfold Env.autoRunAborted at hauto
  rw [hauto]
  simp only [Bool.or_false, Bool.or_eq_false_iff, decide_eq_false_iff_not]
  refine ⟨⟨habort, ?_⟩, hcount⟩
  simpa [Bool.and_eq_true] using hsingle

theorem mustStop_of_count_zero (env : Env) (f l : Int) (w : VideoEngine)
    (hcount : w.currentRunArgs.frameRequestsCount = 0) : w.mustStop env f l = true := by
  unfold VideoEngine.mustStop
  simp [hcount]

theorem setCurrentFrame_state_eq (env : Env) (f l : Int) (w w2 : VideoEngine)
    (h : (w.setCurrentFrame env f l).state = w2) :
    ∃ tl o fwd, w2 = { w with timeline := tl, output := o,
                              currentRunArgs := { w.currentRunArgs with forward := fwd } } := by
  obtain ⟨tl, o, fwd, hs⟩ := setCurrentFrame_frame env f l w
  exact ⟨tl, o, fwd, by rw [← h, hs]⟩

theorem setCurrentFrame_first_pass (env : Env) (f l : Int) (w : VideoEngine)
    (h : w.currentRunArgs.recursiveCall = false) :
    ∃ c o, w.setCurrentFrame env f l = .frame c { w with output := o } := by
  unfold VideoEngine.setCurrentFrame
  simp only [h, Bool.not_false, if_true]
  split_ifs
  · exact ⟨_, w.output, rfl⟩
  · exact ⟨_, _, rfl⟩

/-- A pass entered with a remaining count of zero returns without announcing a
frame. -/
theorem iterateOnce_count_zero (env : Env) (st : Bool) (w : VideoEngine)
    (hcount : w.currentRunArgs.frameRequestsCount = 0) :
    ∃ w2, w.iterateOnce env st = .done w2 ∧
      frameRenderedEvents w2.trace = frameRenderedEvents w.trace := by
  by_cases hab : w.abortRequested > 0
  · exact ⟨w, iterateOnce_aborted env st w hab, rfl⟩
  · obtain ⟨f, l, tl, h1, _, _⟩ := updateTimelineRange_frame env w
    cases hset : (w.updateTimelineRange env).setCurrentFrame env
        ((w.updateTimelineRange env).passFirstFrame env)
        ((w.updateTimelineRange env).passLastFrame env) with
    | stop w2 =>
      obtain ⟨tl2, o, fwd, h2⟩ := setCurrentFrame_state_eq env _ _ _ w2 (by rw [hset]; rfl)
      refine ⟨w2, iterateOnce_stop env st w w2 hab hset, ?_⟩
      rw [h2, h1]
    | frame c w2 =>
      obtain ⟨tl2, o, fwd, h2⟩ := setCurrentFrame_state_eq env _ _ _ w2 (by rw [hset]; rfl)
      refine ⟨w2, iterateOnce_mustStop env st w w2 c hab hset ?_, ?_⟩
      · apply mustStop_of_count_zero
        rw [h2, h1]
        exact hcount
      · rw [h2, h1]

/-- The first pass of a run whose frame computation succeeds announces one
frame; the run arguments, the abort counter and the quit flag are as before. -/
theorem iterateOnce_first_pass (env : Env) (st : Bool) (w : VideoEngine)
    (hab : ¬ w.abortRequested > 0) (hauto : env.autoRunAborted = false)
    (hrec : w.currentRunArgs.recursiveCall = false)
    (hcount : w.currentRunArgs.frameRequestsCount ≠ 0)
    (hok : ∀ t w2, VideoEngine.frameSucceeds env st t w2) :
    ∃ c w3, frameRenderedEvents w3.trace = frameRenderedEvents w.trace ++ [c] ∧
      w3.currentRunArgs = w.currentRunArgs ∧ w3.abortRequested = w.abortRequested ∧
      w.iterateOnce env st =
        if (st && w.mustQuit) = true then .done w3 else .next w3.updateCounters := by
  obtain ⟨f, l, tl, h1, _, _⟩ := updateTimelineRange_frame env w
  obtain ⟨c, o, hset⟩ := setCurrentFrame_first_pass env
    ((w.updateTimelineRange env).passFirstFrame env)
    ((w.updateTimelineRange env).passLastFrame env) (w.updateTimelineRange env)
    (by rw [h1]; exact hrec)
  have hstop : ({ w.updateTimelineRange env with output := o } : VideoEngine).mustStop env
      ((w.updateTimelineRange env).passFirstFrame env)
      ((w.updateTimelineRange env).passLastFrame env) = false := by
    apply mustStop_eq_false _ _ _ _ (by rw [h1]; exact hab) hauto (by rw [h1]; exact hcount)
    rintro ⟨_, hr, _⟩
    rw [h1] at hr
    rw [hrec] at hr
    exact Bool.false_ne_true hr
  obtain ⟨es, n, hes, hrc⟩ := renderAndCount_ok env st c _ (hok c _)
  refine ⟨c, { ({ w.updateTimelineRange env with output := o } : VideoEngine) with
      trace := (w.updateTimelineRange env).trace ++ es, timerFrameCount := n }, ?_, ?_, ?_, ?_⟩
  · rw [h1]
    show frameRenderedEvents (w.trace ++ es) = _
    rw [frameRenderedEvents_append, hes]
  · rw [h1]
  · rw [h1]
  · rw [iterateOnce_render env st w _ c hab hset hstop, hrc, h1]

/-! ## Runs of one frame -/

/-- C3: a run started by `render` with `frameCount == 1` and `sameFrame == false`
(any seek, refresh, direction and preview flags, any playback mode and output
kind, on the worker or on the calling thread): when no abort is requested
(`startEngine` succeeded, and no global abort of a background auto-run was
raised) and the frame computation succeeds, `iterateKernel` returns after at
most two passes, having emitted exactly one `frameRendered` signal. -/
theorem iterateKernel_single_frame (env : Env) (singleThreaded : Bool)
    (w0 w : VideoEngine) (seekTimeline refreshTree forward forcePreview : Bool)
    (hstart : (w0.recordRunArgs env 1 seekTimeline refreshTree forward false
      forcePreview).startEngine env = some (true, w))
    (hauto : env.autoRunAborted = false)
    (hok : ∀ t w2, VideoEngine.frameSucceeds env singleThreaded t w2) :
    ∀ fuel, 2 ≤ fuel → ∃ w2 t, w.iterateKernel env singleThreaded fuel = some w2 ∧
      frameRenderedEvents w2.trace = frameRenderedEvents w.trace ++ [t] := by
  obtain ⟨ha0, t, f, l, o, tr, tm, hw⟩ := startEngine_true_frame env _ w hstart
  have hab : ¬ w.abortRequested > 0 := by rw [hw]; exact ha0
  have hrec : w.currentRunArgs.recursiveCall = false := by rw [hw]; rfl
  have hcount : w.currentRunArgs.frameRequestsCount = 1 := by rw [hw]; rfl
  have hindex : w.currentRunArgs.frameRequestIndex = 0 := by rw [hw]; rfl
  have hsame : w.currentRunArgs.sameFrame = false := by rw [hw]; rfl
  obtain ⟨c, w3, hfr, hargs, _, hpass⟩ := iterateOnce_first_pass env singleThreaded w hab hauto
    hrec (by rw [hcount]; decide) hok
  intro fuel hfuel
  obtain ⟨k, rfl⟩ : ∃ k, fuel = k + 2 := ⟨fuel - 2, by omega⟩
  rw [VideoEngine.iterateKernel, hpass]
  split_ifs
  · exact ⟨w3, c, rfl, hfr⟩
  · have hzero : w3.updateCounters.currentRunArgs.frameRequestsCount = 0 := by
      simp [VideoEngine.updateCounters, hargs, hcount, hindex, hsame]
    obtain ⟨w5, hdone, hfr5⟩ := iterateOnce_count_zero env singleThreaded _ hzero
    dsimp only
    rw [VideoEngine.iterateKernel, hdone]
    refine ⟨w5, c, rfl, ?_⟩
    rw [hfr5]
    exact hfr

theorem iterateKernel_single_frame_witness :
    (exampleEngine.recordRunArgs (exampleEnv true) 1 true false true false
        false).startEngine (exampleEnv true) = some (true, exampleStarted true 1 false) ∧
    (exampleEnv true).autoRunAborted = false ∧
    (∀ t w2, VideoEngine.frameSucceeds (exampleEnv true) false t w2) ∧
    2 ≤ 2 ∧
    ∃ w2 t, (exampleStarted true 1 false).iterateKernel (exampleEnv true) false 2 = some w2 ∧
      frameRenderedEvents w2.trace =
        frameRenderedEvents (exampleStarted true 1 false).trace ++ [t] :=
  ⟨by decide, by decide, exampleEnv_frameSucceeds true false, le_refl 2,
    iterateKernel_single_frame (exampleEnv true) false exampleEngine (exampleStarted true 1 false)
      true false true false (by decide) (by decide) (exampleEnv_frameSucceeds true false)
      2 (le_refl 2)⟩

theorem example_single_frame_run :
    ((exampleStarted true 1 false).iterateKernel (exampleEnv true) false 2).map
      (fun w => frameRenderedEvents w.trace) = some [10] := by
  decide

theorem updateCounters_frame (w : VideoEngine) :
    ∃ cnt, w.updateCounters =
      { w with currentRunArgs :=
          { w.currentRunArgs with frameRequestsCount := cnt,
                                  frameRequestIndex := w.currentRunArgs.frameRequestIndex + 1,
                                  recursiveCall := true } } := by
  unfold VideoEngine.updateCounters
  dsimp only
  split_ifs <;> exact ⟨_, rfl⟩

/-- A pass that has chosen frame `c`, is not stopped, and whose frame
computation succeeds announces `c`; apart from the trace, the frame count of
the timer and the counters of the run, it leaves the state as the advance step
left it. -/
theorem iterateOnce_frame_ok (env : Env) (st : Bool) (w w2 : VideoEngine) (c : Int)
    (hab : ¬ w.abortRequested > 0)
    (hset : (w.updateTimelineRange env).setCurrentFrame env
      ((w.updateTimelineRange env).passFirstFrame env)
      ((w.updateTimelineRange env).passLastFrame env) = .frame c w2)
    (hstop : w2.mustStop env ((w.updateTimelineRange env).passFirstFrame env)
      ((w.updateTimelineRange env).passLastFrame env) = false)
    (hok : w2.frameSucceeds env st c) :
    ∃ w3 tr n cnt idx rc,
      (w.iterateOnce env st = .done w3 ∨ w.iterateOnce env st = .next w3) ∧
      frameRenderedEvents w3.trace = frameRenderedEvents w2.trace ++ [c] ∧
      w3 = { w2 with trace := tr, timerFrameCount := n,
                     currentRunArgs :=
                      { w2.currentRunArgs with frameRequestsCount := cnt,
                                               frameRequestIndex := idx,
                                               recursiveCall := rc } } := by
  obtain ⟨es, n, hes, hrc⟩ := renderAndCount_ok env st c w2 hok
  rw [← iterateOnce_render env st w w2 c hab hset hstop] at hrc
  by_cases hq : (st && w2.mustQuit) = true
  · rw [if_pos hq] at hrc
    refine ⟨_, w2.trace ++ es, n, w2.currentRunArgs.frameRequestsCount,
      w2.currentRunArgs.frameRequestIndex, w2.currentRunArgs.recursiveCall, Or.inl hrc, ?_, rfl⟩
    show frameRenderedEvents (w2.trace ++ es) = _
    rw [frameRenderedEvents_append, hes]
  · rw [if_neg hq] at hrc
    obtain ⟨cnt, hu⟩ := updateCounters_frame
      ({ w2 with trace := w2.trace ++ es, timerFrameCount := n } : VideoEngine)
    refine ⟨_, w2.trace ++ es, n, cnt, w2.currentRunArgs.frameRequestIndex + 1, true,
      Or.inr hrc, ?_, ?_⟩
    · rw [hu]
      show frameRenderedEvents (w2.trace ++ es) = _
      rw [frameRenderedEvents_append, hes]
    · rw [hu]

theorem updateCounters_unbounded (w : VideoEngine)
    (h : w.currentRunArgs.frameRequestsCount = -1) :
    w.updateCounters =
      { w with currentRunArgs :=
          { w.currentRunArgs with frameRequestIndex := w.currentRunArgs.frameRequestIndex + 1,
                                  recursiveCall := true } } := by
  unfold VideoEngine.updateCounters
  simp [h]

/-- A pass that has chosen frame `c`, is not stopped, sees no quit on the
calling thread, and whose frame computation succeeds, announces `c` and goes on
to the next pass. -/
theorem iterateOnce_frame_next (env : Env) (st : Bool) (w w2 : VideoEngine) (c : Int)
    (hab : ¬ w.abortRequested > 0)
    (hset : (w.updateTimelineRange env).setCurrentFrame env
      ((w.updateTimelineRange env).passFirstFrame env)
      ((w.updateTimelineRange env).passLastFrame env) = .frame c w2)
    (hstop : w2.mustStop env ((w.updateTimelineRange env).passFirstFrame env)
      ((w.updateTimelineRange env).passLastFrame env) = false)
    (hq : (st && w2.mustQuit) = false)
    (hok : w2.frameSucceeds env st c) :
    ∃ es n, frameRenderedEvents es = [c] ∧
      w.iterateOnce env st =
        .next ({ w2 with trace := w2.trace ++ es, timerFrameCount := n } :
          VideoEngine).updateCounters := by
  obtain ⟨es, n, hes, hrc⟩ := renderAndCount_ok env st c w2 hok
  rw [← iterateOnce_render env st w w2 c hab hset hstop, hq] at hrc
  exact ⟨es, n, hes, hrc⟩

/-! ## The frame-advance policy of a viewer -/

theorem setCurrentFrame_forward_lt (env : Env) (f l : Int) (w : VideoEngine)
    (hv : env.outputIsViewer = true) (hadv : w.advances)
    (hfwd : w.currentRunArgs.forward = true) (hlt : w.timeline.currentFrame < l) :
    w.setCurrentFrame env f l = .frame (w.timeline.currentFrame + 1)
      { w with timeline := w.timeline.incrementCurrentFrame w.tree.output } := by
  obtain ⟨hrec, hsame, hseek⟩ := hadv
  simp [VideoEngine.setCurrentFrame, hv, hrec, hsame, hseek, hfwd, hlt]

theorem setCurrentFrame_forward_end (env : Env) (f l : Int) (w : VideoEngine)
    (hv : env.outputIsViewer = true) (hadv : w.advances)
    (hfwd : w.currentRunArgs.forward = true) (hge : ¬ w.timeline.currentFrame < l) :
    w.setCurrentFrame env f l =
      match w.playbackMode with
      | .PLAYBACK_LOOP =>
        .frame f { w with timeline := w.timeline.seekFrame f w.tree.output }
      | .PLAYBACK_BOUNCE =>
        .frame (w.timeline.currentFrame - 1)
          { w with timeline := w.timeline.seekFrame (w.timeline.currentFrame - 1) w.tree.output,
                   currentRunArgs := { w.currentRunArgs with forward := false } }
      | .PLAYBACK_ONCE => .stop w := by
  obtain ⟨hrec, hsame, hseek⟩ := hadv
  simp only [VideoEngine.setCurrentFrame, hv, hrec, hsame, hseek, hfwd, hge]
  cases w.playbackMode <;> simp

theorem setCurrentFrame_backward_gt (env : Env) (f l : Int) (w : VideoEngine)
    (hv : env.outputIsViewer = true) (hadv : w.advances)
    (hfwd : w.currentRunArgs.forward = false) (hgt : w.timeline.currentFrame > f) :
    w.setCurrentFrame env f l = .frame (w.timeline.currentFrame - 1)
      { w with timeline := w.timeline.decrementCurrentFrame w.tree.output } := by
  obtain ⟨hrec, hsame, hseek⟩ := hadv
  simp [VideoEngine.setCurrentFrame, hv, hrec, hsame, hseek, hfwd, hgt]

theorem setCurrentFrame_backward_end (env : Env) (f l : Int) (w : VideoEngine)
    (hv : env.outputIsViewer = true) (hadv : w.advances)
    (hfwd : w.currentRunArgs.forward = false) (hle : ¬ w.timeline.currentFrame > f) :
    w.setCurrentFrame env f l =
      match w.playbackMode with
      | .PLAYBACK_LOOP =>
        .frame l { w with timeline := w.timeline.seekFrame l w.tree.output }
      | .PLAYBACK_BOUNCE =>
        .frame (w.timeline.currentFrame + 1)
          { w with timeline := w.timeline.seekFrame (w.timeline.currentFrame + 1) w.tree.output,
                   currentRunArgs := { w.currentRunArgs with forward := true } }
      | .PLAYBACK_ONCE => .stop w := by
  obtain ⟨hrec, hsame, hseek⟩ := hadv
  simp only [VideoEngine.setCurrentFrame, hv, hrec, hsame, hseek, hfwd, hle]
  cases w.playbackMode <;> simp

/-- C6: viewer, playback mode ONCE, forward, `seekTimeline` set, `sameFrame`
unset, second or later pass, timeline cursor at the `lastFrame` of the pass:
`iterateKernel` returns in that pass, with no signal or call added to the trace
(so no further `frameRendered`) and the timeline cursor where it was. -/
theorem iterateKernel_once_at_end (env : Env) (singleThreaded : Bool) (w : VideoEngine)
    (hv : env.outputIsViewer = true) (hadv : w.advances)
    (hfwd : w.currentRunArgs.forward = true)
    (hmode : w.playbackMode = .PLAYBACK_ONCE)
    (hcur : w.timeline.currentFrame = (w.updateTimelineRange env).passLastFrame env) :
    ∀ fuel, ∃ w2, w.iterateKernel env singleThreaded (fuel + 1) = some w2 ∧
      w2.trace = w.trace ∧ frameRenderedEvents w2.trace = frameRenderedEvents w.trace ∧
      w2.timeline.currentFrame = w.timeline.currentFrame := by
  intro fuel
  by_cases hab : w.abortRequested > 0
  · refine ⟨w, ?_, rfl, rfl, rfl⟩
    rw [VideoEngine.iterateKernel, iterateOnce_aborted env singleThreaded w hab]
  · obtain ⟨f, l, tl, h1, hc, _⟩ := updateTimelineRange_frame env w
    have hadv1 : (w.updateTimelineRange env).advances := by rw [h1]; exact hadv
    have hfwd1 : (w.updateTimelineRange env).currentRunArgs.forward = true := by
      rw [h1]; exact hfwd
    have hmode1 : (w.updateTimelineRange env).playbackMode = .PLAYBACK_ONCE := by
      rw [h1]; exact hmode
    have hcur1 : (w.updateTimelineRange env).timeline.currentFrame = w.timeline.currentFrame := by
      rw [h1]; exact hc
    have hset := setCurrentFrame_forward_end env ((w.updateTimelineRange env).passFirstFrame env)
      ((w.updateTimelineRange env).passLastFrame env) (w.updateTimelineRange env) hv hadv1 hfwd1
      (by rw [hcur1, hcur]; exact lt_irrefl _)
    rw [hmode1] at hset
    refine ⟨w.updateTimelineRange env, ?_, ?_, ?_, hcur1⟩
    · rw [VideoEngine.iterateKernel, iterateOnce_stop env singleThreaded w _ hab hset]
    · rw [h1]
    · rw [h1]

theorem examplePass2_advances (mode : PlaybackMode) (forward : Bool) (cursor : Int) :
    (examplePass2 mode forward cursor).advances := by
  have h : ((exampleStarted true (-1) false).iterateUpTo (exampleEnv true) false 1).advances :=
    ⟨by decide, by decide, by decide⟩
  exact h

theorem iterateKernel_once_at_end_witness :
    (exampleEnv true).outputIsViewer = true ∧
    (examplePass2 .PLAYBACK_ONCE true 10).advances ∧
    (examplePass2 .PLAYBACK_ONCE true 10).timeline.currentFrame =
      ((examplePass2 .PLAYBACK_ONCE true 10).updateTimelineRange (exampleEnv true)).passLastFrame
        (exampleEnv true) ∧
    ∃ w2, (examplePass2 .PLAYBACK_ONCE true 10).iterateKernel (exampleEnv true) false 1 = some w2 ∧
      w2.trace = (examplePass2 .PLAYBACK_ONCE true 10).trace ∧
      frameRenderedEvents w2.trace =
        frameRenderedEvents (examplePass2 .PLAYBACK_ONCE true 10).trace ∧
      w2.timeline.currentFrame = (examplePass2 .PLAYBACK_ONCE true 10).timeline.currentFrame :=
  ⟨rfl, examplePass2_advances _ _ _, by decide,
    iterateKernel_once_at_end (exampleEnv true) false (examplePass2 .PLAYBACK_ONCE true 10)
      rfl (examplePass2_advances _ _ _) (by decide) (by decide) (by decide) 0⟩

/-- C7: the advance step of a pass of a viewer running backward (second or
later pass, `seekTimeline` set, `sameFrame` unset), with `firstFrame` and
`lastFrame` the bounds of the pass.  If the timeline cursor is above
`firstFrame` the cursor is decremented and the frame below it is chosen, the
direction staying backward.  Otherwise: LOOP seeks the timeline to `lastFrame`
and chooses it; BOUNCE seeks one frame forward, chooses that frame and sets the
direction to forward; ONCE stops the run: `iterateKernel` returns in that pass
with nothing added to the trace. -/
theorem viewer_backward_advance (env : Env) (w : VideoEngine)
    (hv : env.outputIsViewer = true) (hadv : w.advances)
    (hbwd : w.currentRunArgs.forward = false) :
    (w.timeline.currentFrame > (w.updateTimelineRange env).passFirstFrame env →
      ∃ w2, (w.updateTimelineRange env).setCurrentFrame env
            ((w.updateTimelineRange env).passFirstFrame env)
            ((w.updateTimelineRange env).passLastFrame env)
          = .frame (w.timeline.currentFrame - 1) w2 ∧
        w2.timeline.currentFrame = w.timeline.currentFrame - 1 ∧
        w2.currentRunArgs.forward = false) ∧
    (¬ w.timeline.currentFrame > (w.updateTimelineRange env).passFirstFrame env →
      (w.playbackMode = .PLAYBACK_LOOP →
        ∃ w2, (w.updateTimelineRange env).setCurrentFrame env
              ((w.updateTimelineRange env).passFirstFrame env)
              ((w.updateTimelineRange env).passLastFrame env)
            = .frame ((w.updateTimelineRange env).passLastFrame env) w2 ∧
          w2.timeline.currentFrame = (w.updateTimelineRange env).passLastFrame env ∧
          w2.currentRunArgs.forward = false) ∧
      (w.playbackMode = .PLAYBACK_BOUNCE →
        ∃ w2, (w.updateTimelineRange env).setCurrentFrame env
              ((w.updateTimelineRange env).passFirstFrame env)
              ((w.updateTimelineRange env).passLastFrame env)
            = .frame (w.timeline.currentFrame + 1) w2 ∧
          w2.timeline.currentFrame = w.timeline.currentFrame + 1 ∧
          w2.currentRunArgs.forward = true) ∧
      (w.playbackMode = .PLAYBACK_ONCE →
        (w.updateTimelineRange env).setCurrentFrame env
              ((w.updateTimelineRange env).passFirstFrame env)
              ((w.updateTimelineRange env).passLastFrame env)
            = .stop (w.updateTimelineRange env) ∧
          ∀ singleThreaded fuel, ∃ w2,
            w.iterateKernel env singleThreaded (fuel + 1) = some w2 ∧ w2.trace = w.trace)) := by
  obtain ⟨f, l, tl, h1, hc, _⟩ := updateTimelineRange_frame env w
  have hadv1 : (w.updateTimelineRange env).advances := by rw [h1]; exact hadv
  have hbwd1 : (w.updateTimelineRange env).currentRunArgs.forward = false := by
    rw [h1]; exact hbwd
  have hmode1 : (w.updateTimelineRange env).playbackMode = w.playbackMode := by rw [h1]
  have hcur1 : (w.updateTimelineRange env).timeline.currentFrame = w.timeline.currentFrame := by
    rw [h1]; exact hc
  refine ⟨fun hgt => ?_, fun hle => ⟨fun hm => ?_, fun hm => ?_, fun hm => ?_⟩⟩
  · have h := setCurrentFrame_backward_gt env _ ((w.updateTimelineRange env).passLastFrame env)
      (w.updateTimelineRange env) hv hadv1 hbwd1 (by rw [hcur1]; exact hgt)
    rw [hcur1] at h
    exact ⟨_, h, by show _ - 1 = _; rw [hcur1], hbwd1⟩
  · have h := setCurrentFrame_backward_end env _ ((w.updateTimelineRange env).passLastFrame env)
      (w.updateTimelineRange env) hv hadv1 hbwd1 (by rw [hcur1]; exact hle)
    rw [hmode1, hm] at h
    exact ⟨_, h, rfl, hbwd1⟩
  · have h := setCurrentFrame_backward_end env _ ((w.updateTimelineRange env).passLastFrame env)
      (w.updateTimelineRange env) hv hadv1 hbwd1 (by rw [hcur1]; exact hle)
    rw [hmode1, hm] at h
    dsimp only at h
    rw [hcur1] at h
    exact ⟨_, h, rfl, rfl⟩
  · have h := setCurrentFrame_backward_end env _ ((w.updateTimelineRange env).passLastFrame env)
      (w.updateTimelineRange env) hv hadv1 hbwd1 (by rw [hcur1]; exact hle)
    rw [hmode1, hm] at h
    refine ⟨h, fun st fuel => ?_⟩
    by_cases hab : w.abortRequested > 0
    · exact ⟨w, by rw [VideoEngine.iterateKernel, iterateOnce_aborted env st w hab], rfl⟩
    · exact ⟨_, by rw [VideoEngine.iterateKernel, iterateOnce_stop env st w _ hab h],
        by rw [h1]⟩

theorem viewer_backward_advance_witness :
    ((exampleEnv true).outputIsViewer = true ∧
      (examplePass2 .PLAYBACK_BOUNCE false 1).advances ∧
      (examplePass2 .PLAYBACK_BOUNCE false 1).currentRunArgs.forward = false ∧
      ¬ (examplePass2 .PLAYBACK_BOUNCE false 1).timeline.currentFrame > 1 ∧
      (examplePass2 .PLAYBACK_BOUNCE false 1).playbackMode = .PLAYBACK_BOUNCE) ∧
    ∃ w2, ((examplePass2 .PLAYBACK_BOUNCE false 1).updateTimelineRange
          (exampleEnv true)).setCurrentFrame (exampleEnv true) 1 10
        = .frame (1 + 1) w2 ∧
      w2.timeline.currentFrame = 1 + 1 ∧ w2.currentRunArgs.forward = true :=
  ⟨⟨rfl, examplePass2_advances _ _ _, by decide, by decide, by decide⟩,
    ((viewer_backward_advance (exampleEnv true) (examplePass2 .PLAYBACK_BOUNCE false 1)
      rfl (examplePass2_advances _ _ _) (by decide)).2 (by decide)).2.1 (by decide)⟩

/-- C5: viewer, playback mode BOUNCE, forward, `seekTimeline` set, `sameFrame`
unset, second or later pass, bounds of the pass with `firstFrame < lastFrame`
and the timeline cursor at `lastFrame`.  The advance step seeks the timeline to
`lastFrame - 1`, chooses that frame and sets the direction of the run to
backward; and when the run is not over (frames remain, no abort) and the frame
computation succeeds, the pass emits `frameRendered(lastFrame - 1)`, direction
backward. -/
theorem iterateOnce_bounce_at_end (env : Env) (singleThreaded : Bool) (w : VideoEngine)
    (hv : env.outputIsViewer = true) (hadv : w.advances)
    (hfwd : w.currentRunArgs.forward = true)
    (hmode : w.playbackMode = .PLAYBACK_BOUNCE)
    (hlt : (w.updateTimelineRange env).passFirstFrame env
      < (w.updateTimelineRange env).passLastFrame env)
    (hcur : w.timeline.currentFrame = (w.updateTimelineRange env).passLastFrame env) :
    (∃ w2, (w.updateTimelineRange env).setCurrentFrame env
          ((w.updateTimelineRange env).passFirstFrame env)
          ((w.updateTimelineRange env).passLastFrame env)
        = .frame ((w.updateTimelineRange env).passLastFrame env - 1) w2 ∧
      w2.currentRunArgs.forward = false ∧
      w2.timeline.currentFrame = (w.updateTimelineRange env).passLastFrame env - 1) ∧
    (¬ w.abortRequested > 0 → env.autoRunAborted = false →
      w.currentRunArgs.frameRequestsCount ≠ 0 →
      (∀ t w2, VideoEngine.frameSucceeds env singleThreaded t w2) →
      ∃ w3, (w.iterateOnce env singleThreaded = .done w3 ∨
          w.iterateOnce env singleThreaded = .next w3) ∧
        frameRenderedEvents w3.trace = frameRenderedEvents w.trace ++
          [(w.updateTimelineRange env).passLastFrame env - 1] ∧
        w3.currentRunArgs.forward = false ∧
        w3.timeline.currentFrame = (w.updateTimelineRange env).passLastFrame env - 1) := by
  obtain ⟨f, l, tl, h1, hc, _⟩ := updateTimelineRange_frame env w
  have hadv1 : (w.updateTimelineRange env).advances := by rw [h1]; exact hadv
  have hfwd1 : (w.updateTimelineRange env).currentRunArgs.forward = true := by
    rw [h1]; exact hfwd
  have hmode1 : (w.updateTimelineRange env).playbackMode = .PLAYBACK_BOUNCE := by
    rw [h1]; exact hmode
  have hcur1 : (w.updateTimelineRange env).timeline.currentFrame
      = (w.updateTimelineRange env).passLastFrame env := by
    rw [← hcur, h1]; exact hc
  have hset := setCurrentFrame_forward_end env ((w.updateTimelineRange env).passFirstFrame env)
    ((w.updateTimelineRange env).passLastFrame env) (w.updateTimelineRange env) hv hadv1 hfwd1
    (by rw [hcur1]; exact lt_irrefl _)
  rw [hmode1] at hset
  dsimp only at hset
  rw [hcur1] at hset
  refine ⟨⟨_, hset, rfl, rfl⟩, fun hab hauto hcount hok => ?_⟩
  have hstop := mustStop_eq_false env ((w.updateTimelineRange env).passFirstFrame env)
    ((w.updateTimelineRange env).passLastFrame env) _
    (show ¬ ({ w.updateTimelineRange env with
        timeline := (w.updateTimelineRange env).timeline.seekFrame
          ((w.updateTimelineRange env).passLastFrame env - 1) (w.updateTimelineRange env).tree.output,
        currentRunArgs := { (w.updateTimelineRange env).currentRunArgs with forward := false } } :
        VideoEngine).abortRequested > 0 by rw [h1]; exact hab)
    hauto (by rw [h1]; exact hcount) (fun h => absurd h.2.2.1 (ne_of_lt hlt))
  obtain ⟨w3, tr, n, cnt, idx, rc, hstep, hfr, hw3⟩ :=
    iterateOnce_frame_ok env singleThreaded w _ _ hab hset hstop (hok _ _)
  refine ⟨w3, hstep, ?_, ?_, ?_⟩
  · rw [hfr, h1]
  · rw [hw3]
  · rw [hw3]; rfl

theorem iterateOnce_bounce_at_end_witness :
    ((exampleEnv true).outputIsViewer = true ∧
      (examplePass2 .PLAYBACK_BOUNCE true 10).advances ∧
      (examplePass2 .PLAYBACK_BOUNCE true 10).currentRunArgs.forward = true ∧
      (examplePass2 .PLAYBACK_BOUNCE true 10).playbackMode = .PLAYBACK_BOUNCE ∧
      (1 : Int) < 10 ∧
      (examplePass2 .PLAYBACK_BOUNCE true 10).timeline.currentFrame = 10) ∧
    ∃ w3, ((examplePass2 .PLAYBACK_BOUNCE true 10).iterateOnce (exampleEnv true) false = .done w3 ∨
        (examplePass2 .PLAYBACK_BOUNCE true 10).iterateOnce (exampleEnv true) false = .next w3) ∧
      frameRenderedEvents w3.trace =
        frameRenderedEvents (examplePass2 .PLAYBACK_BOUNCE true 10).trace ++ [10 - 1] ∧
      w3.currentRunArgs.forward = false ∧ w3.timeline.currentFrame = 10 - 1 :=
  ⟨⟨rfl, examplePass2_advances _ _ _, by decide, by decide, by decide, by decide⟩,
    (iterateOnce_bounce_at_end (exampleEnv true) false (examplePass2 .PLAYBACK_BOUNCE true 10)
      rfl (examplePass2_advances _ _ _) (by decide) (by decide) (by decide) (by decide)).2
      (by decide) (by decide) (by decide) (exampleEnv_frameSucceeds true false)⟩

/-! ## Looping forward -/

theorem updateTimelineRange_seeked (env : Env) (w : VideoEngine)
    (h : w.timeline.lastSeekCaller = some w.tree.output) :
    (w.updateTimelineRange env).timeline = w.timeline := by
  obtain ⟨f, l, hg⟩ := getFrameRange_frame env w
  unfold VideoEngine.updateTimelineRange
  dsimp only
  rw [hg]
  simp [h]
  split_ifs <;> rfl

/-- The advance step of a viewer looping forward within `[first, last]` chooses
a frame within `[first, last]` and puts the timeline cursor on it. -/
theorem loopsForward_advance (env : Env) (first last : Int) (w1 : VideoEngine)
    (hv : env.outputIsViewer = true) (hadv : w1.advances)
    (hfwd : w1.currentRunArgs.forward = true) (hmode : w1.playbackMode = .PLAYBACK_LOOP)
    (hge : first ≤ w1.timeline.currentFrame) (hle : w1.timeline.currentFrame ≤ last) :
    ∃ c, first ≤ c ∧ c ≤ last ∧
      w1.setCurrentFrame env first last = .frame c
        { w1 with timeline := { w1.timeline with currentFrame := c,
                                                 lastSeekCaller := some w1.tree.output } } := by
  by_cases hlt : w1.timeline.currentFrame < last
  · refine ⟨w1.timeline.currentFrame + 1, by omega, by omega, ?_⟩
    rw [setCurrentFrame_forward_lt env first last w1 hv hadv hfwd hlt]
    rfl
  · refine ⟨first, le_refl _, by omega, ?_⟩
    rw [setCurrentFrame_forward_end env first last w1 hv hadv hfwd hlt, hmode]
    rfl

/-- One pass of a viewer looping forward within `[first, last]`: it announces
no frame or one frame within `[first, last]`, and if the loop goes on the next
pass starts in the same situation. -/
theorem loopsForward_pass (env : Env) (st : Bool) (first last : Int) (w : VideoEngine)
    (hv : env.outputIsViewer = true) (hK : w.loopsForwardWithin env first last) :
    ∃ w3, (w.iterateOnce env st = .done w3 ∨
        (w.iterateOnce env st = .next w3 ∧ w3.loopsForwardWithin env first last)) ∧
      (frameRenderedEvents w3.trace = frameRenderedEvents w.trace ∨
        ∃ t, frameRenderedEvents w3.trace = frameRenderedEvents w.trace ++ [t] ∧
          first ≤ t ∧ t ≤ last) := by
  obtain ⟨hadv, hfwd, hmode, hlb, hrb, hge, hle⟩ := hK
  by_cases hab : w.abortRequested > 0
  · exact ⟨w, Or.inl (iterateOnce_aborted env st w hab), Or.inl rfl⟩
  obtain ⟨f, l, tl, h1, hc, _⟩ := updateTimelineRange_frame env w
  have hpf : (w.updateTimelineRange env).passFirstFrame env = first := by
    simp [VideoEngine.passFirstFrame, hv, hlb]
  have hpl : (w.updateTimelineRange env).passLastFrame env = last := by
    simp [VideoEngine.passLastFrame, hv, hrb]
  have hcur1 : (w.updateTimelineRange env).timeline.currentFrame = w.timeline.currentFrame := by
    rw [h1]; exact hc
  obtain ⟨c, hc1, hc2, hset⟩ := loopsForward_advance env first last (w.updateTimelineRange env) hv
    (by rw [h1]; exact hadv) (by rw [h1]; exact hfwd) (by rw [h1]; exact hmode)
    (by rw [hcur1]; exact hge) (by rw [hcur1]; exact hle)
  rw [← hpf, ← hpl] at hset
  generalize hw2 : ({ w.updateTimelineRange env with
      timeline := { (w.updateTimelineRange env).timeline with
        currentFrame := c, lastSeekCaller := some (w.updateTimelineRange env).tree.output } } :
      VideoEngine) = w2 at hset
  have htr2 : w2.trace = w.trace := by rw [← hw2, h1]
  have hargs2 : w2.currentRunArgs = w.currentRunArgs := by rw [← hw2, h1]
  have hmode2 : w2.playbackMode = w.playbackMode := by rw [← hw2, h1]
  have htl2 : w2.timeline = { (w.updateTimelineRange env).timeline with
      currentFrame := c, lastSeekCaller := some w2.tree.output } := by rw [← hw2]
  cases hstop : w2.mustStop env ((w.updateTimelineRange env).passFirstFrame env)
      ((w.updateTimelineRange env).passLastFrame env) with
  | true =>
    exact ⟨w2, Or.inl (iterateOnce_mustStop env st w w2 c hab hset hstop),
      Or.inl (by rw [htr2])⟩
  | false =>
    obtain ⟨es, n, hes, hres⟩ := renderAndCount_any env st c w2
    rw [← iterateOnce_render env st w w2 c hab hset hstop] at hres
    have hframes : ∀ w3 : VideoEngine, w3.trace = w2.trace ++ es →
        (frameRenderedEvents w3.trace = frameRenderedEvents w.trace ∨
          ∃ t, frameRenderedEvents w3.trace = frameRenderedEvents w.trace ++ [t] ∧
            first ≤ t ∧ t ≤ last) := by
      intro w3 h3
      rw [h3, frameRenderedEvents_append, htr2]
      rcases hes with hnil | hone
      · left; rw [hnil, List.append_nil]
      · right; exact ⟨c, by rw [hone], hc1, hc2⟩
    rcases hres with hdone | ⟨_, hnext⟩
    · exact ⟨_, Or.inl hdone, hframes _ rfl⟩
    · obtain ⟨cnt, hu⟩ := updateCounters_frame
        ({ w2 with trace := w2.trace ++ es, timerFrameCount := n } : VideoEngine)
      refine ⟨_, Or.inr ⟨hnext, ?_⟩, hframes _ (by rw [hu])⟩
      have hseek : (({ w2 with trace := w2.trace ++ es, timerFrameCount := n } :
          VideoEngine).updateCounters.updateTimelineRange env).timeline = w2.timeline := by
        rw [updateTimelineRange_seeked, hu]
        rw [hu]
        show w2.timeline.lastSeekCaller = some w2.tree.output
        rw [htl2]
      refine ⟨?_, ?_, ?_, ?_, ?_, ?_, ?_⟩
      · rw [hu]
        exact ⟨rfl, by rw [← hadv.2.1, ← hargs2], by rw [← hadv.2.2, ← hargs2]⟩
      · rw [hu]; show w2.currentRunArgs.forward = true; rw [hargs2]; exact hfwd
      · rw [hu]; show w2.playbackMode = _; rw [hmode2]; exact hmode
      · rw [hseek, htl2]; exact hlb
      · rw [hseek, htl2]; exact hrb
      · rw [hu]; show first ≤ w2.timeline.currentFrame; rw [htl2]; exact hc1
      · rw [hu]; show w2.timeline.currentFrame ≤ last; rw [htl2]; exact hc2

/-- However many passes a viewer looping forward within `[first, last]` makes,
every frame it announces lies within `[first, last]`. -/
theorem loopsForward_frames (env : Env) (st : Bool) (first last : Int)
    (hv : env.outputIsViewer = true) :
    ∀ (n : Nat) (w : VideoEngine), w.loopsForwardWithin env first last →
      ∃ ts, frameRenderedEvents (w.iterateUpTo env st n).trace
          = frameRenderedEvents w.trace ++ ts ∧
        ∀ t ∈ ts, first ≤ t ∧ t ≤ last := by
  intro n
  induction n with
  | zero => intro w _; exact ⟨[], by simp [VideoEngine.iterateUpTo], by simp⟩
  | succ n ih =>
    intro w hK
    obtain ⟨w3, hstep, hfr⟩ := loopsForward_pass env st first last w hv hK
    have hone : ∃ ts, frameRenderedEvents w3.trace = frameRenderedEvents w.trace ++ ts ∧
        ∀ t ∈ ts, first ≤ t ∧ t ≤ last := by
      rcases hfr with h | ⟨t, h, h1, h2⟩
      · exact ⟨[], by rw [h, List.append_nil], by simp⟩
      · exact ⟨[t], h, by simpa using ⟨h1, h2⟩⟩
    rcases hstep with hdone | ⟨hnext, hK3⟩
    · rw [VideoEngine.iterateUpTo, hdone]
      exact hone
    · rw [VideoEngine.iterateUpTo, hnext]
      obtain ⟨ts1, h1, hin1⟩ := hone
      obtain ⟨ts2, h2, hin2⟩ := ih w3 hK3
      refine ⟨ts1 ++ ts2, ?_, ?_⟩
      · dsimp only
        rw [h2, h1, List.append_assoc]
      · intro t ht
        rcases List.mem_append.mp ht with h | h
        · exact hin1 t h
        · exact hin2 t h

/-- C4: viewer, playback mode LOOP, forward, `seekTimeline` set, `sameFrame`
unset, unbounded run (`frameRequestsCount == -1`), second or later pass, bounds
of the pass with `firstFrame < lastFrame` and the timeline cursor at
`lastFrame`.  The advance step seeks the timeline to `firstFrame` and chooses
that frame; with no abort and a successful frame computation the pass emits
`frameRendered(firstFrame)`; and however many passes follow, every frame
announced from this pass on lies within `[firstFrame, lastFrame]`, so that
`lastFrame + 1` is never announced. -/
theorem iterateKernel_loop_wraps (env : Env) (singleThreaded : Bool) (w : VideoEngine)
    (hv : env.outputIsViewer = true) (hadv : w.advances)
    (hfwd : w.currentRunArgs.forward = true)
    (hmode : w.playbackMode = .PLAYBACK_LOOP)
    (hcount : w.currentRunArgs.frameRequestsCount = -1)
    (hlt : (w.updateTimelineRange env).passFirstFrame env
      < (w.updateTimelineRange env).passLastFrame env)
    (hcur : w.timeline.currentFrame = (w.updateTimelineRange env).passLastFrame env) :
    (∃ w2, (w.updateTimelineRange env).setCurrentFrame env
          ((w.updateTimelineRange env).passFirstFrame env)
          ((w.updateTimelineRange env).passLastFrame env)
        = .frame ((w.updateTimelineRange env).passFirstFrame env) w2 ∧
      w2.timeline.currentFrame = (w.updateTimelineRange env).passFirstFrame env) ∧
    (¬ w.abortRequested > 0 → env.autoRunAborted = false →
      (∀ t w2, VideoEngine.frameSucceeds env singleThreaded t w2) →
      ∃ w3, (w.iterateOnce env singleThreaded = .done w3 ∨
          w.iterateOnce env singleThreaded = .next w3) ∧
        frameRenderedEvents w3.trace = frameRenderedEvents w.trace ++
          [(w.updateTimelineRange env).passFirstFrame env] ∧
        w3.timeline.currentFrame = (w.updateTimelineRange env).passFirstFrame env) ∧
    (∀ n, ∃ ts, frameRenderedEvents (w.iterateUpTo env singleThreaded n).trace
          = frameRenderedEvents w.trace ++ ts ∧
        ∀ t ∈ ts, (w.updateTimelineRange env).passFirstFrame env ≤ t ∧
          t ≤ (w.updateTimelineRange env).passLastFrame env ∧
          t ≠ (w.updateTimelineRange env).passLastFrame env + 1) := by
  obtain ⟨f, l, tl, h1, hc, _⟩ := updateTimelineRange_frame env w
  have hadv1 : (w.updateTimelineRange env).advances := by rw [h1]; exact hadv
  have hfwd1 : (w.updateTimelineRange env).currentRunArgs.forward = true := by
    rw [h1]; exact hfwd
  have hmode1 : (w.updateTimelineRange env).playbackMode = .PLAYBACK_LOOP := by
    rw [h1]; exact hmode
  have hcur1 : (w.updateTimelineRange env).timeline.currentFrame
      = (w.updateTimelineRange env).passLastFrame env := by
    rw [← hcur, h1]; exact hc
  have hset := setCurrentFrame_forward_end env ((w.updateTimelineRange env).passFirstFrame env)
    ((w.updateTimelineRange env).passLastFrame env) (w.updateTimelineRange env) hv hadv1 hfwd1
    (by rw [hcur1]; exact lt_irrefl _)
  rw [hmode1] at hset
  dsimp only at hset
  refine ⟨⟨_, hset, rfl⟩, fun hab hauto hok => ?_, fun n => ?_⟩
  · have hstop := mustStop_eq_false env ((w.updateTimelineRange env).passFirstFrame env)
      ((w.updateTimelineRange env).passLastFrame env) _
      (show ¬ ({ w.updateTimelineRange env with
          timeline := (w.updateTimelineRange env).timeline.seekFrame
            ((w.updateTimelineRange env).passFirstFrame env)
            (w.updateTimelineRange env).tree.output } : VideoEngine).abortRequested > 0 by
        rw [h1]; exact hab)
      hauto (by rw [h1]; show w.currentRunArgs.frameRequestsCount ≠ 0; rw [hcount]; decide)
      (fun h => absurd h.2.2.1 (ne_of_lt hlt))
    obtain ⟨w3, tr, n, cnt, idx, rc, hstep, hfr, hw3⟩ :=
      iterateOnce_frame_ok env singleThreaded w _ _ hab hset hstop (hok _ _)
    refine ⟨w3, hstep, ?_, ?_⟩
    · rw [hfr, h1]
    · rw [hw3]; rfl
  · have hK : w.loopsForwardWithin env ((w.updateTimelineRange env).passFirstFrame env)
        ((w.updateTimelineRange env).passLastFrame env) := by
      refine ⟨hadv, hfwd, hmode, ?_, ?_, ?_, ?_⟩
      · simp [VideoEngine.passFirstFrame, hv]
      · simp [VideoEngine.passLastFrame, hv]
      · rw [hcur]; exact le_of_lt hlt
      · rw [hcur]
    obtain ⟨ts, hts, hin⟩ := loopsForward_frames env singleThreaded _ _ hv n w hK
    exact ⟨ts, hts, fun t ht => ⟨(hin t ht).1, (hin t ht).2, by have := (hin t ht).2; omega⟩⟩

theorem iterateKernel_loop_wraps_witness :
    ((exampleEnv true).outputIsViewer = true ∧
      (examplePass2 .PLAYBACK_LOOP true 10).advances ∧
      (examplePass2 .PLAYBACK_LOOP true 10).currentRunArgs.forward = true ∧
      (examplePass2 .PLAYBACK_LOOP true 10).playbackMode = .PLAYBACK_LOOP ∧
      (examplePass2 .PLAYBACK_LOOP true 10).currentRunArgs.frameRequestsCount = -1 ∧
      (1 : Int) < 10 ∧
      (examplePass2 .PLAYBACK_LOOP true 10).timeline.currentFrame = 10) ∧
    ∃ w3, ((examplePass2 .PLAYBACK_LOOP true 10).iterateOnce (exampleEnv true) false = .done w3 ∨
        (examplePass2 .PLAYBACK_LOOP true 10).iterateOnce (exampleEnv true) false = .next w3) ∧
      frameRenderedEvents w3.trace =
        frameRenderedEvents (examplePass2 .PLAYBACK_LOOP true 10).trace ++ [1] ∧
      w3.timeline.currentFrame = 1 :=
  ⟨⟨rfl, examplePass2_advances _ _ _, by decide, by decide, by decide, by decide, by decide⟩,
    (iterateKernel_loop_wraps (exampleEnv true) false (examplePass2 .PLAYBACK_LOOP true 10)
      rfl (examplePass2_advances _ _ _) (by decide) (by decide) (by decide) (by decide)
      (by decide)).2.1 (by decide) (by decide) (exampleEnv_frameSucceeds true false)⟩

theorem example_loop_frames :
    frameRenderedEvents ((examplePass2 .PLAYBACK_LOOP true 10).iterateUpTo (exampleEnv true)
      false 3).trace = [10, 1, 2, 3] := by
  decide

/-! ## Rendering a sequence on a writer -/

theorem framesFrom_eq_map (first : Int) (n : Nat) :
    framesFrom first n = (List.range n).map fun (i : Nat) => first + (i : Int) := by
  induction n generalizing first with
  | zero => rfl
  | succ n ih =>
    rw [framesFrom, ih, List.range_succ_eq_map, List.map_cons, List.map_map]
    simp only [Nat.cast_zero, add_zero, List.cons.injEq, true_and]
    apply List.map_congr_left
    intro i _
    simp only [Function.comp, Nat.cast_succ]
    ring

/-- After its first pass an unbounded run on a writer announces the frames
after the current one up to the last one, in order, and returns. -/
theorem writesSequence_run (env : Env) (st : Bool) (last : Int)
    (hauto : env.autoRunAborted = false)
    (hok : ∀ t w2, VideoEngine.frameSucceeds env st t w2) :
    ∀ (k : Nat) (c : Int) (w : VideoEngine), w.writesSequence env st c last →
      c ≤ last → (last - c).toNat = k →
      ∀ fuel, k + 1 ≤ fuel → ∃ w2, w.iterateKernel env st fuel = some w2 ∧
        frameRenderedEvents w2.trace = frameRenderedEvents w.trace ++ framesFrom (c + 1) k := by
  intro k
  induction k with
  | zero =>
    intro c w hW hle hk fuel hfuel
    obtain ⟨hout, htree, hadv, hcount, hab, hq, hcur, hlast⟩ := hW
    obtain ⟨fuel, rfl⟩ : ∃ j, fuel = j + 1 := ⟨fuel - 1, by omega⟩
    have hu := updateTimelineRange_writer env w hout
    have hset : (w.updateTimelineRange env).setCurrentFrame env
        ((w.updateTimelineRange env).passFirstFrame env)
        ((w.updateTimelineRange env).passLastFrame env)
        = .stop { w with output := { w.output with currentFrame := w.output.currentFrame + 1 } } := by
      rw [hu]
      obtain ⟨hrec, hsame, hseek⟩ := hadv
      have hgt : last < c + 1 := by omega
      simp [VideoEngine.setCurrentFrame, VideoEngine.passLastFrame, hout, hrec, hsame, hseek,
        hcur, hlast, hgt]
    refine ⟨{ w with output := { w.output with currentFrame := w.output.currentFrame + 1 } },
      ?_, ?_⟩
    · rw [VideoEngine.iterateKernel, iterateOnce_stop env st w _ hab hset]
    · simp [framesFrom]
  | succ k ih =>
    intro c w hW hle hk fuel hfuel
    obtain ⟨hout, htree, hadv, hcount, hab, hq, hcur, hlast⟩ := hW
    obtain ⟨fuel, rfl⟩ : ∃ j, fuel = j + 1 := ⟨fuel - 1, by omega⟩
    have hu := updateTimelineRange_writer env w hout
    have hset : (w.updateTimelineRange env).setCurrentFrame env
        ((w.updateTimelineRange env).passFirstFrame env)
        ((w.updateTimelineRange env).passLastFrame env)
        = .frame (c + 1)
          { w with output := { w.output with currentFrame := w.output.currentFrame + 1 } } := by
      rw [hu]
      obtain ⟨hrec, hsame, hseek⟩ := hadv
      have hgt : ¬ last < c + 1 := by omega
      simp [VideoEngine.setCurrentFrame, VideoEngine.passLastFrame, hout, hrec, hsame, hseek,
        hcur, hlast, hgt]
    have hstop := mustStop_eq_false env ((w.updateTimelineRange env).passFirstFrame env)
      ((w.updateTimelineRange env).passLastFrame env)
      ({ w with output := { w.output with currentFrame := w.output.currentFrame + 1 } } :
        VideoEngine) hab hauto
      (by show w.currentRunArgs.frameRequestsCount ≠ 0; rw [hcount]; decide)
      (fun h => by
        have h1 : w.tree.isViewer = true := h.1
        rw [htree] at h1
        exact Bool.false_ne_true h1)
    obtain ⟨es, n, hes, hnext⟩ := iterateOnce_frame_next env st w _ (c + 1) hab hset hstop hq
      (hok _ _)
    rw [updateCounters_unbounded _ (by exact hcount)] at hnext
    obtain ⟨w3, hw3, hnext3⟩ : ∃ w3, w3 = _ ∧ w.iterateOnce env st = .next w3 :=
      ⟨_, rfl, hnext⟩
    have hW3 : w3.writesSequence env st (c + 1) last := by
      subst hw3
      exact ⟨hout, htree, ⟨rfl, hadv.2.1, hadv.2.2⟩, hcount, hab, hq,
        by show w.output.currentFrame + 1 = c + 1; rw [hcur], hlast⟩
    have hfr3 : frameRenderedEvents w3.trace = frameRenderedEvents w.trace ++ [c + 1] := by
      subst hw3
      show frameRenderedEvents (w.trace ++ es) = _
      rw [frameRenderedEvents_append, hes]
    rw [VideoEngine.iterateKernel, hnext3]
    dsimp only
    obtain ⟨w2, hrun, hfr⟩ := ih (c + 1) w3 hW3 (by omega) (by omega) fuel (by omega)
    refine ⟨w2, hrun, ?_⟩
    rw [hfr, hfr3, framesFrom, List.append_assoc]
    rfl

/-- C8 (amended): non-viewer output whose range `getFrameRange` resolves to
`[first, last]` with `first <= last`; a run started by `render` with
`frameCount == -1`, `seekTimeline` set and `sameFrame` unset; no abort or quit
requested and no failing frame.  `iterateKernel` then emits `frameRendered` for
exactly `first, first + 1, ..., last`, in that order, and returns. -/
theorem iterateKernel_writer_sequence (env : Env) (singleThreaded : Bool)
    (w0 w : VideoEngine) (refreshTree forward forcePreview : Bool) (first last : Int)
    (hout : env.outputIsViewer = false) (htree : w0.tree.isViewer = false)
    (hstart : (w0.recordRunArgs env (-1) true refreshTree forward false
      forcePreview).startEngine env = some (true, w))
    (hfirst : (w0.getFrameRange env).firstFrame = first)
    (hlast : (w0.getFrameRange env).lastFrame = last)
    (hle : first ≤ last)
    (hauto : env.autoRunAborted = false)
    (hquit : (singleThreaded && w0.mustQuit) = false)
    (hok : ∀ t w2, VideoEngine.frameSucceeds env singleThreaded t w2) :
    ∀ fuel, (last - first).toNat + 2 ≤ fuel →
      ∃ w2, w.iterateKernel env singleThreaded fuel = some w2 ∧
        frameRenderedEvents w2.trace = frameRenderedEvents w.trace ++
          (List.range ((last - first).toNat + 1)).map fun (i : Nat) => first + (i : Int) := by
  obtain ⟨ha0, t, f, l, o, tr, tm, hw⟩ := startEngine_true_frame env _ w hstart
  obtain ⟨hisv, hof, hol⟩ := startEngine_true_writer env _ w hstart hout htree
  have hr0 := getFrameRange_resolved env w0 ha0
  have hr1 := getFrameRange_resolved env _ ha0
  have hof1 : w.output.firstFrame = first := by rw [hof, hr1.1, ← hfirst, hr0.1]; rfl
  have hol1 : w.output.lastFrame = last := by rw [hol, hr1.2, ← hlast, hr0.2]; rfl
  have hab : ¬ w.abortRequested > 0 := by rw [hw]; exact ha0
  have hrec : w.currentRunArgs.recursiveCall = false := by rw [hw]; rfl
  have hcount : w.currentRunArgs.frameRequestsCount = -1 := by rw [hw]; rfl
  have hsame : w.currentRunArgs.sameFrame = false := by rw [hw]; rfl
  have hseek : w.currentRunArgs.seekTimeline = true := by rw [hw]; rfl
  have hq : (singleThreaded && w.mustQuit) = false := by rw [hw]; exact hquit
  have hu := updateTimelineRange_writer env w hout
  have hset : (w.updateTimelineRange env).setCurrentFrame env
      ((w.updateTimelineRange env).passFirstFrame env)
      ((w.updateTimelineRange env).passLastFrame env)
      = .frame first { w with output := { w.output with currentFrame := first } } := by
    rw [hu]
    simp [VideoEngine.setCurrentFrame, VideoEngine.passFirstFrame, hout, hrec, hof1]
  have hstop := mustStop_eq_false env ((w.updateTimelineRange env).passFirstFrame env)
    ((w.updateTimelineRange env).passLastFrame env)
    ({ w with output := { w.output with currentFrame := first } } : VideoEngine) hab hauto
    (by show w.currentRunArgs.frameRequestsCount ≠ 0; rw [hcount]; decide)
    (fun h => by
      have h1 : w.tree.isViewer = true := h.1
      rw [hisv] at h1
      exact Bool.false_ne_true h1)
  obtain ⟨es, n, hes, hnext⟩ := iterateOnce_frame_next env singleThreaded w _ first hab hset
    hstop hq (hok _ _)
  rw [updateCounters_unbounded _ (by exact hcount)] at hnext
  obtain ⟨w3, hw3, hnext3⟩ : ∃ w3, w3 = _ ∧ w.iterateOnce env singleThreaded = .next w3 :=
    ⟨_, rfl, hnext⟩
  have hW3 : w3.writesSequence env singleThreaded first last := by
    subst hw3
    exact ⟨hout, hisv, ⟨rfl, hsame, hseek⟩, hcount, hab, hq, rfl, hol1⟩
  have hfr3 : frameRenderedEvents w3.trace = frameRenderedEvents w.trace ++ [first] := by
    subst hw3
    show frameRenderedEvents (w.trace ++ es) = _
    rw [frameRenderedEvents_append, hes]
  intro fuel hfuel
  obtain ⟨fuel, rfl⟩ : ∃ j, fuel = j + 1 := ⟨fuel - 1, by omega⟩
  obtain ⟨w2, hrun, hfr⟩ := writesSequence_run env singleThreaded last hauto hok
    (last - first).toNat first w3 hW3 hle rfl fuel (by omega)
  refine ⟨w2, ?_, ?_⟩
  · rw [VideoEngine.iterateKernel, hnext3]
    exact hrun
  · rw [hfr, hfr3, ← framesFrom_eq_map, framesFrom, List.append_assoc]
    rfl

theorem iterateKernel_writer_sequence_witness :
    ((exampleEnv false).outputIsViewer = false ∧ exampleEngine.tree.isViewer = false ∧
      (exampleEngine.recordRunArgs (exampleEnv false) (-1) true false true false
        false).startEngine (exampleEnv false) = some (true, exampleStarted false (-1) false) ∧
      (exampleEngine.getFrameRange (exampleEnv false)).firstFrame = 1 ∧
      (exampleEngine.getFrameRange (exampleEnv false)).lastFrame = 8 ∧
      (1 : Int) ≤ 8 ∧ (exampleEnv false).autoRunAborted = false ∧
      (false && exampleEngine.mustQuit) = false ∧
      (∀ t w2, VideoEngine.frameSucceeds (exampleEnv false) false t w2) ∧
      ((8 : Int) - 1).toNat + 2 ≤ 9) ∧
    ∃ w2, (exampleStarted false (-1) false).iterateKernel (exampleEnv false) false 9 = some w2 ∧
      frameRenderedEvents w2.trace = frameRenderedEvents (exampleStarted false (-1) false).trace ++
        (List.range (((8 : Int) - 1).toNat + 1)).map fun (i : Nat) => (1 : Int) + (i : Int) :=
  ⟨⟨rfl, rfl, by decide, by decide, by decide, by decide, by decide, rfl,
      exampleEnv_frameSucceeds false false, by decide⟩,
    iterateKernel_writer_sequence (exampleEnv false) false exampleEngine
      (exampleStarted false (-1) false) false true false 1 8 rfl rfl (by decide) (by decide)
      (by decide) (by decide) (by decide) rfl (exampleEnv_frameSucceeds false false) 9
      (by decide)⟩

theorem example_writer_frames :
    ((exampleStarted false (-1) false).iterateKernel (exampleEnv false) false 9).map
      (fun w => frameRenderedEvents w.trace) = some [1, 2, 3, 4, 5, 6, 7, 8] := by
  decide

theorem setCurrentFrame_sameFrame_writer (env : Env) (f l : Int) (w : VideoEngine)
    (hout : env.outputIsViewer = false) (hsame : w.currentRunArgs.sameFrame = true) :
    ∃ c o, w.setCurrentFrame env f l = .frame c { w with output := o } := by
  cases hrec : w.currentRunArgs.recursiveCall with
  | false =>
    refine ⟨f, { w.output with currentFrame := f }, ?_⟩
    simp [VideoEngine.setCurrentFrame, hout, hrec]
  | true =>
    refine ⟨0, w.output, ?_⟩
    simp [VideoEngine.setCurrentFrame, hsame, hrec]

theorem repeatsSameFrame_pass (env : Env) (st : Bool) (w : VideoEngine)
    (hauto : env.autoRunAborted = false)
    (hok : ∀ t w2, VideoEngine.frameSucceeds env st t w2)
    (hS : w.repeatsSameFrame env st) :
    ∃ w3, w.iterateOnce env st = .next w3 ∧ w3.repeatsSameFrame env st := by
  obtain ⟨hout, htree, hsame, hcount, hab, hq⟩ := hS
  have hu := updateTimelineRange_writer env w hout
  obtain ⟨c, o, hset⟩ := setCurrentFrame_sameFrame_writer env
    ((w.updateTimelineRange env).passFirstFrame env)
    ((w.updateTimelineRange env).passLastFrame env) (w.updateTimelineRange env) hout
    (by rw [hu]; exact hsame)
  rw [hu] at hset
  have hset' : (w.updateTimelineRange env).setCurrentFrame env
      ((w.updateTimelineRange env).passFirstFrame env)
      ((w.updateTimelineRange env).passLastFrame env) = .frame c { w with output := o } := by
    rw [hu]; exact hset
  have hstop := mustStop_eq_false env ((w.updateTimelineRange env).passFirstFrame env)
    ((w.updateTimelineRange env).passLastFrame env)
    ({ w with output := o } : VideoEngine) hab hauto
    (by show w.currentRunArgs.frameRequestsCount ≠ 0; rw [hcount]; decide)
    (fun h => by
      have h1 : w.tree.isViewer = true := h.1
      rw [htree] at h1
      exact Bool.false_ne_true h1)
  obtain ⟨es, n, _, hnext⟩ := iterateOnce_frame_next env st w _ c hab hset' hstop hq (hok _ _)
  rw [updateCounters_unbounded _ (by exact hcount)] at hnext
  exact ⟨_, hnext, hout, htree, hsame, hcount, hab, hq⟩

/-- An unbounded same-frame run on a writer whose frames all succeed never
leaves the loop of `iterateKernel`. -/
theorem repeatsSameFrame_never_returns (env : Env) (st : Bool)
    (hauto : env.autoRunAborted = false)
    (hok : ∀ t w2, VideoEngine.frameSucceeds env st t w2) :
    ∀ (fuel : Nat) (w : VideoEngine), w.repeatsSameFrame env st →
      w.iterateKernel env st fuel = none := by
  intro fuel
  induction fuel with
  | zero => intro w _; rfl
  | succ fuel ih =>
    intro w hS
    obtain ⟨w3, hnext, hS3⟩ := repeatsSameFrame_pass env st w hauto hok hS
    rw [VideoEngine.iterateKernel, hnext]
    exact ih w3 hS3

/-- C8 as stated fails when `sameFrame` is set: on a writer whose range
resolves to `[1, 8]`, the unbounded run started by `render(-1, seekTimeline =
true, ..., sameFrame = true)` with no abort and no failing frame announces
frame 1 and then frame 0 again and again; `iterateKernel` never returns, let
alone after the frames 1 to 8. -/
theorem iterateKernel_writer_sameFrame_counterexample :
    ((exampleEnv false).outputIsViewer = false ∧
      (exampleEngine.recordRunArgs (exampleEnv false) (-1) true false true true
        false).startEngine (exampleEnv false) = some (true, exampleStarted false (-1) true) ∧
      (exampleEngine.getFrameRange (exampleEnv false)).firstFrame = 1 ∧
      (exampleEngine.getFrameRange (exampleEnv false)).lastFrame = 8 ∧
      (exampleStarted false (-1) true).abortRequested = 0 ∧
      (∀ t w2, VideoEngine.frameSucceeds (exampleEnv false) false t w2)) ∧
    frameRenderedEvents ((exampleStarted false (-1) true).iterateUpTo (exampleEnv false)
      false 4).trace = [1, 0, 0, 0] ∧
    ¬ ∃ fuel w2,
      (exampleStarted false (-1) true).iterateKernel (exampleEnv false) false fuel = some w2 ∧
      frameRenderedEvents w2.trace = frameRenderedEvents (exampleStarted false (-1) true).trace ++
        [1, 2, 3, 4, 5, 6, 7, 8] := by
  refine ⟨⟨rfl, by decide, by decide, by decide, by decide,
    exampleEnv_frameSucceeds false false⟩, by decide, ?_⟩
  rintro ⟨fuel, w2, hrun, _⟩
  have hnone := repeatsSameFrame_never_returns (exampleEnv false) false (by decide)
    (exampleEnv_frameSucceeds false false) fuel (exampleStarted false (-1) true)
    ⟨rfl, by decide, by decide, by decide, by decide, rfl⟩
  rw [hnone] at hrun
  exact Option.noConfusion hrun

/-! ## Abort and stop -/

/-- C9: when `isWorking()` is false, `abortRendering`, blocking or not and from
any thread, returns without waiting and leaves the whole state as it was: the
abort counter keeps its value and no `setAborted` call is made. -/
theorem abortRendering_idle (blocking callerIsWorker : Bool) (w : VideoEngine)
    (h : w.isWorking = false) :
    w.abortRendering blocking callerIsWorker = (false, w) := by
  simp [VideoEngine.abortRendering, h]

theorem abortRendering_idle_witness :
    exampleEngine.isWorking = false ∧
    exampleEngine.abortRendering true false = (false, exampleEngine) :=
  ⟨by decide, abortRendering_idle true false exampleEngine (by decide)⟩

theorem releaseOutput_frame (env : Env) (w : VideoEngine) :
    ∃ o tr, w.releaseOutput env = { w with output := o, trace := tr } := by
  unfold VideoEngine.releaseOutput VideoEngine.setNodesKnobsFrozen VideoEngine.emit
  dsimp only
  split_ifs <;> exact ⟨_, _, rfl⟩

theorem completeQuit_frame (w : VideoEngine) :
    ∃ q h s, w.completeQuit.2 = { w with mustQuit := q, hasQuit := h, threadStarted := s } := by
  unfold VideoEngine.completeQuit
  split_ifs <;> exact ⟨_, _, _, rfl⟩

/-- C10: whatever the state in which `stopEngine` is called (quit requested or
not, abort pending or not), it returns with the working flag false and the abort
counter at 0. -/
theorem stopEngine_resets (env : Env) (w : VideoEngine) :
    (w.stopEngine env).2.working = false ∧ (w.stopEngine env).2.abortRequested = 0 := by
  obtain ⟨o, tr, h1⟩ := releaseOutput_frame env (w.drainAbort env)
  obtain ⟨q, h, s, h2⟩ := completeQuit_frame ((w.drainAbort env).releaseOutput env)
  rw [VideoEngine.stopEngine, h2, h1]
  exact ⟨rfl, rfl⟩

/-! ## Resolving the frame range -/

/-- C11: when no abort is pending, `getFrameRange` sets `_firstFrame` and
`_lastFrame` to the range declared by the output node, a declared first of
`INT_MIN` being replaced by the left bound of the timeline and a declared last
of `INT_MAX` by its right bound; with no output node it sets them to the bounds
of the timeline.  Nothing else changes. -/
theorem getFrameRange_resolves (env : Env) (output : Option Nat) (w : VideoEngine)
    (h : ¬ w.abortRequested > 0) :
    (output.isSome = true → w.getFrameRangeOf env output =
      { w with
        firstFrame := if env.declaredFrameRange.1 = INT_MIN then w.timeline.leftBound
          else env.declaredFrameRange.1
        lastFrame := if env.declaredFrameRange.2 = INT_MAX then w.timeline.rightBound
          else env.declaredFrameRange.2 }) ∧
    (output = none → w.getFrameRangeOf env output =
      { w with firstFrame := w.timeline.leftBound, lastFrame := w.timeline.rightBound }) := by
  constructor
  · intro ho
    obtain ⟨n, rfl⟩ := Option.isSome_iff_exists.mp ho
    unfold VideoEngine.getFrameRangeOf
    rw [if_neg h]
  · rintro rfl
    unfold VideoEngine.getFrameRangeOf
    rw [if_neg h]

theorem getFrameRange_resolves_witness :
    ¬ exampleEngine.abortRequested > 0 ∧
    (exampleEngine.getFrameRangeOf (exampleEnv false) (some 3)).firstFrame = 1 ∧
    (exampleEngine.getFrameRangeOf (exampleEnv false) (some 3)).lastFrame = 8 ∧
    (exampleEngine.getFrameRangeOf (exampleEnv false) none).lastFrame = 10 :=
  ⟨by decide,
    by rw [(getFrameRange_resolves (exampleEnv false) (some 3) exampleEngine (by decide)).1 rfl]
       decide,
    by rw [(getFrameRange_resolves (exampleEnv false) (some 3) exampleEngine (by decide)).1 rfl]
       decide,
    by rw [(getFrameRange_resolves (exampleEnv false) none exampleEngine (by decide)).2 rfl]
       decide⟩

/-! ## Starting the engine -/

/-- C13: if the abort counter is greater than 0 when `startEngine` is entered,
`startEngine` returns `false` and the state is exactly as before: the current
run arguments are not replaced by the last requested ones, the tree is not
rebuilt, the working flag keeps its value. -/
theorem startEngine_abort_pending (env : Env) (w : VideoEngine)
    (h : w.abortRequested > 0) : w.startEngine env = some (false, w) := by
  unfold VideoEngine.startEngine
  rw [if_pos h]

theorem startEngine_abort_pending_witness :
    ({ exampleEngine with abortRequested := 1 } : VideoEngine).abortRequested > 0 ∧
    ({ exampleEngine with abortRequested := 1 } : VideoEngine).startEngine (exampleEnv true)
      = some (false, { exampleEngine with abortRequested := 1 }) :=
  ⟨by decide, startEngine_abort_pending (exampleEnv true) _ (by decide)⟩

theorem frameRenderedEvents_map_nil {α : Type} (f : α → Event) (l : List α)
    (h : ∀ a t, f a ≠ .frameRendered t) : frameRenderedEvents (l.map f) = [] := by
  induction l with
  | nil => rfl
  | cons a rest ih =>
    rw [List.map_cons, ← List.singleton_append, frameRenderedEvents_append, ih,
      List.append_nil]
    cases hfa : f a <;> first | rfl | exact absurd hfa (h a _)

theorem beginSequentialRender_trace (env : Env) (f l v : Int) :
    ∀ (nodes : List Nat) (tr : List Event),
      ∃ es, (RenderTree.beginSequentialRender env f l v nodes tr).2 = tr ++ es ∧
        frameRenderedEvents es = [] := by
  intro nodes
  induction nodes with
  | nil => intro tr; exact ⟨[], by simp [RenderTree.beginSequentialRender], rfl⟩
  | cons n rest ih =>
    intro tr
    unfold RenderTree.beginSequentialRender
    split_ifs
    · exact ⟨[.beginSequenceRender n f l v], rfl, rfl⟩
    · obtain ⟨es, hes, hnil⟩ := ih (tr ++ [.beginSequenceRender n f l v])
      refine ⟨[.beginSequenceRender n f l v] ++ es, by rw [hes, List.append_assoc], ?_⟩
      rw [frameRenderedEvents_append, hnil]
      rfl

theorem endSequentialRender_trace (env : Env) (f l v : Int) :
    ∀ (nodes : List Nat) (tr : List Event),
      ∃ es, (RenderTree.endSequentialRender env f l v nodes tr).2 = tr ++ es ∧
        frameRenderedEvents es = [] := by
  intro nodes
  induction nodes with
  | nil => intro tr; exact ⟨[], by simp [RenderTree.endSequentialRender], rfl⟩
  | cons n rest ih =>
    intro tr
    unfold RenderTree.endSequentialRender
    split_ifs
    · exact ⟨[.endSequenceRender n f l v], rfl, rfl⟩
    · obtain ⟨es, hes, hnil⟩ := ih (tr ++ [.endSequenceRender n f l v])
      refine ⟨[.endSequenceRender n f l v] ++ es, by rw [hes, List.append_assoc], ?_⟩
      rw [frameRenderedEvents_append, hnil]
      rfl

theorem setNodesKnobsFrozen_frames (frozen : Bool) (w : VideoEngine) :
    frameRenderedEvents (w.setNodesKnobsFrozen frozen).trace = frameRenderedEvents w.trace := by
  unfold VideoEngine.setNodesKnobsFrozen VideoEngine.emit
  show frameRenderedEvents (w.trace ++ _) = _
  rw [frameRenderedEvents_append, frameRenderedEvents_map_nil _ _ (by intro a t h; cases h),
    List.append_nil]

/-- The preparation of a non-viewer output in `startEngine` emits no
`frameRendered`. -/
theorem beginOutput_frames (env : Env) (w : VideoEngine) :
    frameRenderedEvents (w.beginOutput env).2.trace = frameRenderedEvents w.trace := by
  obtain ⟨f, l, hg⟩ := getFrameRange_frame env w
  obtain ⟨es, hes, hnil⟩ := beginSequentialRender_trace env (w.getFrameRange env).firstFrame
    (w.getFrameRange env).lastFrame env.mainView (w.getFrameRange env).tree.sorted
    (w.getFrameRange env).trace
  have htr : (w.getFrameRange env).trace = w.trace := by rw [hg]
  unfold VideoEngine.beginOutput
  by_cases hv : (!w.tree.isViewer) = true
  · rw [if_pos hv]
    dsimp only
    by_cases hseq : (w.getFrameRange env).currentRunArgs.forceSequential = true
    · rw [if_pos hseq]
      split_ifs
      · show frameRenderedEvents (RenderTree.beginSequentialRender _ _ _ _ _ _).2 = _
        rw [hes, frameRenderedEvents_append, hnil, List.append_nil, htr]
      · rw [setNodesKnobsFrozen_frames]
        show frameRenderedEvents (RenderTree.beginSequentialRender _ _ _ _ _ _).2 = _
        rw [hes, frameRenderedEvents_append, hnil, List.append_nil, htr]
      · show frameRenderedEvents (RenderTree.beginSequentialRender _ _ _ _ _ _).2 = _
        rw [hes, frameRenderedEvents_append, hnil, List.append_nil, htr]
    · rw [if_neg hseq]
      split_ifs
      all_goals first
        | contradiction
        | (rw [setNodesKnobsFrozen_frames]
           show frameRenderedEvents (w.getFrameRange env).trace = _
           rw [htr])
        | (show frameRenderedEvents (w.getFrameRange env).trace = _
           rw [htr])
  · rw [if_neg hv]

theorem renderTree_refreshTree_built (g : Graph) (v o : Bool) (t t2 : RenderTree)
    (h : t.refreshTree g v o = some t2) : t2.wasEverBuilt = true := by
  unfold RenderTree.refreshTree at h
  dsimp only at h
  split at h
  · simp at h
  · have := Option.some.inj h
    rw [← this]

theorem startEngine_of_prepared_none (env : Env) (w : VideoEngine)
    (h : ¬ w.abortRequested > 0) (hp : w.prepared env = none) : w.startEngine env = none := by
  unfold VideoEngine.startEngine
  rw [if_neg h]
  dsimp only
  have hp2 : (if w.lastRequestedRunArgs.refreshTree = true then
      ({ w with restart := false, currentRunArgs := w.lastRequestedRunArgs } :
        VideoEngine).refreshTree env
      else some { w with restart := false, currentRunArgs := w.lastRequestedRunArgs }) = none := hp
  rw [hp2]

/-- Once no abort is pending, the result of `startEngine` is decided by the
preparation of the output: failure there is the failure of `startEngine`,
otherwise the start is announced. -/
theorem startEngine_of_prepared (env : Env) (w w2 : VideoEngine)
    (h : ¬ w.abortRequested > 0) (hp : w.prepared env = some w2) :
    w.startEngine env = some ((w2.beginOutput env).1,
      if (w2.beginOutput env).1 = true then (w2.beginOutput env).2.announceStart env
      else (w2.beginOutput env).2) := by
  unfold VideoEngine.startEngine
  rw [if_neg h]
  dsimp only
  have hp2 : (if w.lastRequestedRunArgs.refreshTree = true then
      ({ w with restart := false, currentRunArgs := w.lastRequestedRunArgs } :
        VideoEngine).refreshTree env
      else some { w with restart := false, currentRunArgs := w.lastRequestedRunArgs })
      = some w2 := hp
  rw [hp2]
  dsimp only
  cases hb : w2.beginOutput env with
  | mk b w3 => cases b <;> simp

theorem prepared_frame (env : Env) (w w2 : VideoEngine) (hp : w.prepared env = some w2) :
    ∃ t, w2 = { w with restart := false, currentRunArgs := w.lastRequestedRunArgs, tree := t } ∧
      (w.lastRequestedRunArgs.refreshTree = true → t.wasEverBuilt = true) ∧
      (w.lastRequestedRunArgs.refreshTree = true → t.isViewer = env.outputIsViewer) ∧
      (w.lastRequestedRunArgs.refreshTree = false → t = w.tree) := by
  unfold VideoEngine.prepared at hp
  split_ifs at hp with hr
  · obtain ⟨t, ht, hrt⟩ := refreshTree_frame env _ w2 hp
    exact ⟨t, ht, fun _ => renderTree_refreshTree_built _ _ _ _ _ hrt,
      fun _ => renderTree_refreshTree_isViewer _ _ _ _ _ hrt,
      fun hf => absurd hr (by rw [hf]; decide)⟩
  · refine ⟨w.tree, (Option.some.inj hp).symm, fun ht => absurd ht hr,
      fun ht => absurd ht hr, fun _ => rfl⟩

theorem prepared_isSome_of_acyclic (env : Env) (w : VideoEngine) (hg : Acyclic env.graph) :
    ∃ w2, w.prepared env = some w2 := by
  unfold VideoEngine.prepared
  split_ifs
  · obtain ⟨sorted, heq, _⟩ := refreshTree_spec hg env.outputIsViewer env.outputIsOpenFX
      ({ w with restart := false, currentRunArgs := w.lastRequestedRunArgs } : VideoEngine).tree
    unfold VideoEngine.refreshTree
    rw [heq]
    exact ⟨_, rfl⟩
  · exact ⟨_, rfl⟩

/-- `startEngine` emits no `frameRendered`, whatever it returns. -/
theorem startEngine_frames (env : Env) (w w2 : VideoEngine) (b : Bool)
    (h : w.startEngine env = some (b, w2)) :
    frameRenderedEvents w2.trace = frameRenderedEvents w.trace := by
  by_cases ha : w.abortRequested > 0
  · rw [startEngine_abort_pending env w ha] at h
    have := (Prod.mk.inj (Option.some.inj h)).2
    rw [← this]
  · cases hp : w.prepared env with
    | none => rw [startEngine_of_prepared_none env w ha hp] at h; exact absurd h (by simp)
    | some p =>
      obtain ⟨t, hpf, _⟩ := prepared_frame env w p hp
      rw [startEngine_of_prepared env w p ha hp] at h
      have h2 := (Prod.mk.inj (Option.some.inj h)).2
      have hb := beginOutput_frames env p
      have hpt : p.trace = w.trace := by rw [hpf]
      rw [← h2]
      split_ifs
      · show frameRenderedEvents ((p.beginOutput env).2.trace ++ _ ++ _) = _
        rw [frameRenderedEvents_append, frameRenderedEvents_append, hb, hpt]
        have e1 : frameRenderedEvents
            (if (p.beginOutput env).2.currentRunArgs.sameFrame = true then []
              else [Event.engineStarted (p.beginOutput env).2.currentRunArgs.forward
                (p.beginOutput env).2.currentRunArgs.frameRequestsCount]) = [] := by
          split_ifs <;> rfl
        have e2 : frameRenderedEvents
            (if env.isBackground = true then [Event.writeRenderingStarted] else []) = [] := by
          split_ifs <;> rfl
        rw [e1, e2, List.append_nil, List.append_nil]
      · rw [hb, hpt]

/-! ## Fields that the worker leaves alone -/

/-- A pass of `iterateKernel` writes only the resolved range, the timeline, the
output effect, the current run arguments, the trace and the frame count of the
timer. -/
theorem iterateOnce_frame (env : Env) (st : Bool) (w : VideoEngine) :
    ∃ f l tl o a tr n, (w.iterateOnce env st).state =
      { w with firstFrame := f, lastFrame := l, timeline := tl, output := o,
               currentRunArgs := a, trace := tr, timerFrameCount := n } := by
  by_cases hab : w.abortRequested > 0
  · rw [iterateOnce_aborted env st w hab]
    exact ⟨_, _, _, _, _, _, _, rfl⟩
  obtain ⟨f, l, tl, h1, _, _⟩ := updateTimelineRange_frame env w
  cases hset : (w.updateTimelineRange env).setCurrentFrame env
      ((w.updateTimelineRange env).passFirstFrame env)
      ((w.updateTimelineRange env).passLastFrame env) with
  | stop w2 =>
    obtain ⟨tl2, o, fwd, h2⟩ := setCurrentFrame_state_eq env _ _ _ w2 (by rw [hset]; rfl)
    rw [iterateOnce_stop env st w w2 hab hset, h2, h1]
    exact ⟨_, _, _, _, _, _, _, rfl⟩
  | frame c w2 =>
    obtain ⟨tl2, o, fwd, h2⟩ := setCurrentFrame_state_eq env _ _ _ w2 (by rw [hset]; rfl)
    cases hstop : w2.mustStop env ((w.updateTimelineRange env).passFirstFrame env)
        ((w.updateTimelineRange env).passLastFrame env) with
    | true =>
      rw [iterateOnce_mustStop env st w w2 c hab hset hstop, h2, h1]
      exact ⟨_, _, _, _, _, _, _, rfl⟩
    | false =>
      rw [iterateOnce_render env st w w2 c hab hset hstop]
      obtain ⟨es, n, _, hres⟩ := renderAndCount_any env st c w2
      rcases hres with hdone | ⟨_, hnext⟩
      · rw [hdone, h2, h1]
        exact ⟨_, _, _, _, _, _, _, rfl⟩
      · obtain ⟨cnt, hu⟩ := updateCounters_frame
          ({ w2 with trace := w2.trace ++ es, timerFrameCount := n } : VideoEngine)
        rw [hnext, hu, h2, h1]
        exact ⟨_, _, _, _, _, _, _, rfl⟩

theorem iterateKernel_frame (env : Env) (st : Bool) :
    ∀ (fuel : Nat) (w w2 : VideoEngine), w.iterateKernel env st fuel = some w2 →
      ∃ f l tl o a tr n, w2 =
        { w with firstFrame := f, lastFrame := l, timeline := tl, output := o,
                 currentRunArgs := a, trace := tr, timerFrameCount := n } := by
  intro fuel
  induction fuel with
  | zero => intro w w2 h; simp [VideoEngine.iterateKernel] at h
  | succ fuel ih =>
    intro w w2 h
    obtain ⟨f, l, tl, o, a, tr, n, h1⟩ := iterateOnce_frame env st w
    rw [VideoEngine.iterateKernel] at h
    cases hstep : w.iterateOnce env st with
    | done w3 =>
      rw [hstep] at h h1
      have h3 : w3 = w2 := Option.some.inj h
      rw [← h3]
      exact ⟨f, l, tl, o, a, tr, n, h1⟩
    | next w3 =>
      rw [hstep] at h h1
      obtain ⟨f2, l2, tl2, o2, a2, tr2, n2, h2⟩ := ih w3 w2 h
      have h3 : w3 = _ := h1
      rw [h2, h3]
      exact ⟨_, _, _, _, _, _, _, rfl⟩

/-- What `stopEngine` writes: the abort counter and its guard, the trace, the
remaining count, the restart flag, the timer, the working flag, the output
effect; and the quit transition: `_mustQuit` is unset, `_hasQuit` is set when a
quit was requested and kept otherwise, and the result tells which. -/
theorem stopEngine_frame (env : Env) (w : VideoEngine) :
    (w.stopEngine env).1 = w.mustQuit ∧
    ∃ tr o, (w.stopEngine env).2 =
      { w with abortBeingProcessed := false, abortRequested := 0, trace := tr,
               currentRunArgs := { w.currentRunArgs with frameRequestsCount := 0 },
               restart := true, timerRunning := false, working := false, output := o,
               mustQuit := false, hasQuit := w.mustQuit || w.hasQuit,
               threadStarted := !w.mustQuit && w.threadStarted } := by
  obtain ⟨o, tr, h1⟩ := releaseOutput_frame env (w.drainAbort env)
  unfold VideoEngine.stopEngine VideoEngine.completeQuit
  rw [h1]
  cases hq : w.mustQuit with
  | true =>
    have : ({ w.drainAbort env with output := o, trace := tr } : VideoEngine).mustQuit = true := hq
    rw [if_pos this]
    refine ⟨rfl, tr, o, ?_⟩
    simp [VideoEngine.drainAbort, hq]
  | false =>
    have : ¬ ({ w.drainAbort env with output := o, trace := tr } : VideoEngine).mustQuit = true := by
      show ¬ w.mustQuit = true
      rw [hq]; decide
    rw [if_neg this]
    refine ⟨rfl, tr, o, ?_⟩
    simp [VideoEngine.drainAbort, hq]

/-- What `startEngine` writes, whatever it returns. -/
theorem startEngine_frame (env : Env) (w w2 : VideoEngine) (b : Bool)
    (h : w.startEngine env = some (b, w2)) :
    ∃ r a t f l o tr wk tm, w2 =
      { w with restart := r, currentRunArgs := a, tree := t, firstFrame := f, lastFrame := l,
               output := o, trace := tr, working := wk, timerRunning := tm } := by
  by_cases ha : w.abortRequested > 0
  · rw [startEngine_abort_pending env w ha] at h
    have := (Prod.mk.inj (Option.some.inj h)).2
    rw [← this]
    exact ⟨_, _, _, _, _, _, _, _, _, rfl⟩
  · cases hp : w.prepared env with
    | none => rw [startEngine_of_prepared_none env w ha hp] at h; exact absurd h (by simp)
    | some p =>
      obtain ⟨t, hpf, _⟩ := prepared_frame env w p hp
      obtain ⟨f, l, o, tr, hb⟩ := beginOutput_frame env p
      rw [startEngine_of_prepared env w p ha hp] at h
      have h2 := (Prod.mk.inj (Option.some.inj h)).2
      rw [← h2, hb, hpf]
      split_ifs <;> exact ⟨_, _, _, _, _, _, _, _, _, rfl⟩

/-- A run on the calling thread leaves the last requested arguments, the wake
counter and the state of the worker thread alone, and does not unset
`_hasQuit`. -/
theorem runSameThread_frame (env : Env) (fuel : Nat) (w w2 : VideoEngine)
    (h : w.runSameThread env fuel = some w2) :
    w2.lastRequestedRunArgs = w.lastRequestedRunArgs ∧ w2.startCount = w.startCount ∧
      w2.threadRunning = w.threadRunning ∧ (w.hasQuit = true → w2.hasQuit = true) := by
  unfold VideoEngine.runSameThread at h
  split_ifs at h with hd
  · rw [← Option.some.inj h]
    exact ⟨rfl, rfl, rfl, id⟩
  · dsimp only at h
    cases hs : ({ w with doingARenderSingleThreaded := true } : VideoEngine).startEngine env with
    | none => rw [hs] at h; simp at h
    | some r =>
      obtain ⟨b, w1⟩ := r
      obtain ⟨_, _, _, _, _, _, _, _, _, h1⟩ := startEngine_frame env _ w1 b hs
      rw [hs] at h
      cases b with
      | false =>
        dsimp only at h
        obtain ⟨_, tr, o, h3⟩ := stopEngine_frame env w1
        rw [← Option.some.inj h, h3, h1]
        refine ⟨rfl, rfl, rfl, fun hq => ?_⟩
        show (w.mustQuit || w.hasQuit) = true
        rw [hq, Bool.or_true]
      | true =>
        dsimp only at h
        split_ifs at h with hq1
        · rw [← Option.some.inj h, h1]
          exact ⟨rfl, rfl, rfl, fun _ => rfl⟩
        · cases hk : w1.iterateKernel env true fuel with
          | none => rw [hk] at h; simp at h
          | some w3 =>
            obtain ⟨_, _, _, _, _, _, _, h2⟩ := iterateKernel_frame env true fuel w1 w3 hk
            rw [hk] at h
            dsimp only at h
            split_ifs at h with hq2
            · rw [← Option.some.inj h, h2, h1]
              exact ⟨rfl, rfl, rfl, fun _ => rfl⟩
            · obtain ⟨_, tr, o, h3⟩ := stopEngine_frame env w3
              rw [← Option.some.inj h, h3, h2, h1]
              refine ⟨rfl, rfl, rfl, fun hq => ?_⟩
              show (w.mustQuit || w.hasQuit) = true
              rw [hq, Bool.or_true]

/-- Whatever path `render` takes, the last requested arguments it leaves are
the ones it recorded. -/
theorem render_lastRequestedRunArgs (env : Env) (fuel : Nat) (frameCount : Int)
    (s r f sf fp : Bool) (w w2 : VideoEngine)
    (h : w.render env fuel frameCount s r f sf fp = some w2) :
    w2.lastRequestedRunArgs = (w.recordRunArgs env frameCount s r f sf fp).lastRequestedRunArgs := by
  unfold VideoEngine.render at h
  dsimp only at h
  split_ifs at h
  · exact (runSameThread_frame env fuel _ w2 h).1
  · rw [← Option.some.inj h]
  · rw [← Option.some.inj h]
  · rw [← Option.some.inj h]

/-- C12: a `render` call made while the tree was never built, whatever
`refreshTree` value is passed: the run arguments it records have `refreshTree`
set; so in any state in which the run is started with these arguments, a
successful `startEngine` leaves a built tree (`wasEverBuilt`) and has emitted no
`frameRendered` yet, and on an acyclic graph with no abort pending
`startEngine` does return, with the tree built. -/
theorem render_on_unbuilt_tree_rebuilds (env : Env) (fuel : Nat) (frameCount : Int)
    (seekTimeline refreshTree forward sameFrame forcePreview : Bool) (w : VideoEngine)
    (hnever : w.tree.wasEverBuilt = false) :
    (w.recordRunArgs env frameCount seekTimeline refreshTree forward sameFrame
      forcePreview).lastRequestedRunArgs.refreshTree = true ∧
    (∀ w1, w.render env fuel frameCount seekTimeline refreshTree forward sameFrame forcePreview
        = some w1 → w1.lastRequestedRunArgs.refreshTree = true) ∧
    (∀ ws : VideoEngine, ws.lastRequestedRunArgs.refreshTree = true →
      (∀ w2, ws.startEngine env = some (true, w2) →
        w2.tree.wasEverBuilt = true ∧
          frameRenderedEvents w2.trace = frameRenderedEvents ws.trace) ∧
      (Acyclic env.graph → ¬ ws.abortRequested > 0 →
        ∃ b w2, ws.startEngine env = some (b, w2) ∧ w2.tree.wasEverBuilt = true)) := by
  have hrec : (w.recordRunArgs env frameCount seekTimeline refreshTree forward sameFrame
      forcePreview).lastRequestedRunArgs.refreshTree = true := by
    simp [VideoEngine.recordRunArgs, hnever]
  refine ⟨hrec, fun w1 h1 => ?_, fun ws hws => ⟨fun w2 h2 => ?_, fun hg hab => ?_⟩⟩
  · rw [render_lastRequestedRunArgs env fuel _ _ _ _ _ _ w w1 h1]
    exact hrec
  · refine ⟨?_, startEngine_frames env ws w2 true h2⟩
    have hab : ¬ ws.abortRequested > 0 := (startEngine_true_frame env ws w2 h2).1
    cases hp : ws.prepared env with
    | none => rw [startEngine_of_prepared_none env ws hab hp] at h2; exact absurd h2 (by simp)
    | some p =>
      obtain ⟨t, hpf, hbuilt, _⟩ := prepared_frame env ws p hp
      obtain ⟨f, l, o, tr, hb⟩ := beginOutput_frame env p
      rw [startEngine_of_prepared env ws p hab hp] at h2
      have h3 := (Prod.mk.inj (Option.some.inj h2)).2
      rw [← h3, hb, hpf]
      split_ifs <;> exact hbuilt hws
  · obtain ⟨p, hp⟩ := prepared_isSome_of_acyclic env ws hg
    obtain ⟨t, hpf, hbuilt, _⟩ := prepared_frame env ws p hp
    obtain ⟨f, l, o, tr, hb⟩ := beginOutput_frame env p
    refine ⟨_, _, startEngine_of_prepared env ws p hab hp, ?_⟩
    rw [hb, hpf]
    split_ifs <;> exact hbuilt hws

theorem render_on_unbuilt_tree_rebuilds_witness :
    exampleEngine.tree.wasEverBuilt = false ∧
    (exampleEngine.recordRunArgs (exampleEnv true) 3 true false true false
      false).lastRequestedRunArgs.refreshTree = true :=
  ⟨rfl, (render_on_unbuilt_tree_rebuilds (exampleEnv true) 0 3 true false true false false
    exampleEngine rfl).1⟩

theorem example_render_unbuilt :
    (exampleStarted true 3 false).tree.wasEverBuilt = true ∧
    (exampleStarted true 3 false).tree.sorted = [0, 1, 2, 3] ∧
    frameRenderedEvents (exampleStarted true 3 false).trace = [] := by
  decide

/-! ## A node that rejects the sequential pass -/

theorem beginSequentialRender_rejected (env : Env) (f l v : Int) (n : Nat) (post : List Nat)
    (hreject : env.beginSequenceRender n f l v = .StatFailed) :
    ∀ (pre : List Nat) (tr : List Event),
      (∀ m ∈ pre, env.beginSequenceRender m f l v ≠ .StatFailed) →
      RenderTree.beginSequentialRender env f l v (pre ++ n :: post) tr =
        (.StatFailed, tr ++ (pre ++ [n]).map fun m => Event.beginSequenceRender m f l v) := by
  intro pre
  induction pre with
  | nil =>
    intro tr _
    simp [RenderTree.beginSequentialRender, hreject]
  | cons a rest ih =>
    intro tr hacc
    have ha : env.beginSequenceRender a f l v ≠ .StatFailed := hacc a (List.mem_cons_self _ _)
    rw [List.cons_append, RenderTree.beginSequentialRender, if_neg ha,
      ih _ (fun m hm => hacc m (List.mem_cons_of_mem _ hm))]
    simp [List.append_assoc]

theorem frameRenderedEvents_flatten_nil (ls : List (List Event))
    (h : ∀ l ∈ ls, frameRenderedEvents l = []) : frameRenderedEvents ls.flatten = [] := by
  induction ls with
  | nil => rfl
  | cons a rest ih =>
    rw [List.flatten_cons, frameRenderedEvents_append, h a (List.mem_cons_self _ _),
      ih (fun l hl => h l (List.mem_cons_of_mem _ hl))]
    rfl

theorem stopNode_frames (env : Env) (w : VideoEngine) (b : Bool) (n : Nat) :
    frameRenderedEvents (w.stopNode env b n) = [] := by
  unfold VideoEngine.stopNode
  split_ifs <;> rfl

theorem drainAbort_frames (env : Env) (w : VideoEngine) :
    frameRenderedEvents (w.drainAbort env).trace = frameRenderedEvents w.trace := by
  show frameRenderedEvents (w.trace ++ _ ++ _) = _
  rw [frameRenderedEvents_append, frameRenderedEvents_append]
  have h1 : frameRenderedEvents (if w.mustQuit = true then []
      else (w.tree.sorted.map (w.stopNode env ((env.shouldRefreshPreview &&
        !w.currentRunArgs.sameFrame) || w.currentRunArgs.forcePreview))).flatten) = [] := by
    split_ifs
    · rfl
    · apply frameRenderedEvents_flatten_nil
      intro l hl
      obtain ⟨n, _, rfl⟩ := List.mem_map.mp hl
      exact stopNode_frames env w _ n
  have h2 : frameRenderedEvents
      [Event.engineStopped (if w.abortRequested > 0 then 1 else 0)] = [] := rfl
  rw [h1, h2, List.append_nil, List.append_nil]

theorem releaseOutput_frames (env : Env) (w : VideoEngine) :
    frameRenderedEvents (w.releaseOutput env).trace = frameRenderedEvents w.trace := by
  have hk : ∀ (c : Bool) (x : VideoEngine), frameRenderedEvents
      (if c = true then x.setNodesKnobsFrozen false else x).trace
        = frameRenderedEvents x.trace := by
    intro c x
    split_ifs
    · exact setNodesKnobsFrozen_frames false x
    · rfl
  have he : ∀ (c : Bool) (x : VideoEngine) (f l v : Int) (nodes : List Nat),
      frameRenderedEvents
        (if c = true then
          ({ x with trace := (RenderTree.endSequentialRender env f l v nodes x.trace).2 } :
            VideoEngine)
          else x).trace = frameRenderedEvents x.trace := by
    intro c x f l v nodes
    split_ifs
    · obtain ⟨es, hes, hnil⟩ := endSequentialRender_trace env f l v nodes x.trace
      show frameRenderedEvents (RenderTree.endSequentialRender _ _ _ _ _ _).2 = _
      rw [hes, frameRenderedEvents_append, hnil, List.append_nil]
    · rfl
  unfold VideoEngine.releaseOutput
  dsimp only
  by_cases hbg : env.isBackground = true
  · rw [if_pos hbg]
    show frameRenderedEvents (_ ++ [Event.notifyRenderFinished]) = _
    rw [frameRenderedEvents_append, he, hk]
    have h2 : frameRenderedEvents [Event.notifyRenderFinished] = [] := rfl
    rw [h2, List.append_nil]
  · rw [if_neg hbg, he, hk]

/-- `stopEngine` emits no `frameRendered`. -/
theorem stopEngine_frames (env : Env) (w : VideoEngine) :
    frameRenderedEvents (w.stopEngine env).2.trace = frameRenderedEvents w.trace := by
  obtain ⟨q, h, s2, hc⟩ := completeQuit_frame ((w.drainAbort env).releaseOutput env)
  unfold VideoEngine.stopEngine
  rw [hc]
  show frameRenderedEvents ((w.drainAbort env).releaseOutput env).trace = _
  rw [releaseOutput_frames, drainAbort_frames]

theorem stopAndPark_state (env : Env) (w : VideoEngine) :
    ∃ r, (w.stopAndPark env).state = { (w.stopEngine env).2 with threadRunning := r } := by
  unfold VideoEngine.stopAndPark
  cases hs : w.stopEngine env with
  | mk b w2 => cases b <;> exact ⟨_, rfl⟩

theorem getFrameRange_trace (env : Env) (w : VideoEngine) :
    (w.getFrameRange env).trace = w.trace ∧ (w.getFrameRange env).tree = w.tree ∧
    (w.getFrameRange env).currentRunArgs = w.currentRunArgs ∧
    (w.getFrameRange env).working = w.working := by
  obtain ⟨f, l, h⟩ := getFrameRange_frame env w
  rw [h]
  exact ⟨rfl, rfl, rfl, rfl⟩

theorem beginOutput_rejected (env : Env) (p : VideoEngine) (n : Nat) (pre post : List Nat)
    (hwriter : p.tree.isViewer = false)
    (hseq : p.currentRunArgs.forceSequential = true)
    (horder : p.tree.sorted = pre ++ n :: post)
    (haccept : ∀ m ∈ pre, env.beginSequenceRender m (p.getFrameRange env).firstFrame
      (p.getFrameRange env).lastFrame env.mainView ≠ .StatFailed)
    (hreject : env.beginSequenceRender n (p.getFrameRange env).firstFrame
      (p.getFrameRange env).lastFrame env.mainView = .StatFailed) :
    (p.beginOutput env).1 = false ∧
    (p.beginOutput env).2.working = p.working ∧
    (p.beginOutput env).2.trace = p.trace ++ (pre ++ [n]).map fun m =>
      Event.beginSequenceRender m (p.getFrameRange env).firstFrame
        (p.getFrameRange env).lastFrame env.mainView := by
  obtain ⟨htr, htree, hargs, hwk⟩ := getFrameRange_trace env p
  have hb := beginSequentialRender_rejected env _ _ _ n post hreject pre p.trace haccept
  unfold VideoEngine.beginOutput
  rw [if_pos (by rw [hwriter]; rfl)]
  dsimp only
  rw [hargs, if_pos hseq, htree, horder, htr, hb]
  dsimp only
  rw [if_pos rfl]
  exact ⟨rfl, hwk, rfl⟩

/-- C14: for a non-display output in a forced-sequential run, when the node `n`
of the render order rejects begin-sequence-render (the nodes `pre` before it
accepted), `startEngine` returns failure, exactly the nodes up to `n` have been
notified (none of the nodes `post` after it), the working flag is as it was,
the pass of the worker goes from `startEngine` straight to `stopEngine`, and no
frame-rendered event is emitted in it. -/
theorem startEngine_sequential_rejected (env : Env) (fuel : Nat) (w p : VideoEngine)
    (n : Nat) (pre post : List Nat)
    (hab : ¬ w.abortRequested > 0)
    (hp : w.prepared env = some p)
    (hwriter : p.tree.isViewer = false)
    (hseq : w.lastRequestedRunArgs.forceSequential = true)
    (horder : p.tree.sorted = pre ++ n :: post)
    (haccept : ∀ m ∈ pre, env.beginSequenceRender m (p.getFrameRange env).firstFrame
      (p.getFrameRange env).lastFrame env.mainView ≠ .StatFailed)
    (hreject : env.beginSequenceRender n (p.getFrameRange env).firstFrame
      (p.getFrameRange env).lastFrame env.mainView = .StatFailed) :
    ∃ w3, w.startEngine env = some (false, w3) ∧
      w3.working = w.working ∧
      w3.trace = w.trace ++ (pre ++ [n]).map (fun m =>
        Event.beginSequenceRender m (p.getFrameRange env).firstFrame
          (p.getFrameRange env).lastFrame env.mainView) ∧
      (w.mustQuit = false → w.restart = true →
        w.runPass env fuel = some (w3.stopAndPark env)) ∧
      frameRenderedEvents (w3.stopAndPark env).state.trace = frameRenderedEvents w.trace := by
  obtain ⟨t, hpeq, -, -, -⟩ := prepared_frame env w p hp
  have hpargs : p.currentRunArgs.forceSequential = true := by rw [hpeq]; exact hseq
  have hptr : p.trace = w.trace := by rw [hpeq]
  have hpwk : p.working = w.working := by rw [hpeq]
  obtain ⟨h1, h2, h3⟩ := beginOutput_rejected env p n pre post hwriter hpargs horder
    haccept hreject
  have hstart : w.startEngine env = some (false, (p.beginOutput env).2) := by
    rw [startEngine_of_prepared env w p hab hp, h1]
    rfl
  refine ⟨(p.beginOutput env).2, hstart, ?_, ?_, ?_, ?_⟩
  · rw [h2, hpwk]
  · rw [h3, hptr]
  · intro hq hr
    unfold VideoEngine.runPass
    rw [if_neg (by rw [hq]; decide), if_pos hr, hstart]
  · obtain ⟨r, hr⟩ := stopAndPark_state env (p.beginOutput env).2
    rw [hr]
    show frameRenderedEvents ((p.beginOutput env).2.stopEngine env).2.trace = _
    rw [stopEngine_frames, h3, frameRenderedEvents_append, hptr,
      frameRenderedEvents_map_nil _ _ (by intro a t h; cases h), List.append_nil]

theorem startEngine_sequential_rejected_witness :
    (¬ exampleRequested.abortRequested > 0 ∧
      exampleRequested.prepared rejectingEnv = some examplePrepared ∧
      examplePrepared.tree.isViewer = false ∧
      exampleRequested.lastRequestedRunArgs.forceSequential = true ∧
      examplePrepared.tree.sorted = [0, 1] ++ 2 :: [3]) ∧
    ∃ w3, exampleRequested.startEngine rejectingEnv = some (false, w3) ∧
      w3.working = exampleRequested.working ∧
      w3.trace = exampleRequested.trace ++ ([0, 1] ++ [2]).map (fun m =>
        Event.beginSequenceRender m (examplePrepared.getFrameRange rejectingEnv).firstFrame
          (examplePrepared.getFrameRange rejectingEnv).lastFrame rejectingEnv.mainView) ∧
      (exampleRequested.mustQuit = false → exampleRequested.restart = true →
        exampleRequested.runPass rejectingEnv 5 = some (w3.stopAndPark rejectingEnv)) ∧
      frameRenderedEvents (w3.stopAndPark rejectingEnv).state.trace
        = frameRenderedEvents exampleRequested.trace :=
  ⟨⟨by decide, by decide, by decide, by decide, by decide⟩,
    startEngine_sequential_rejected rejectingEnv 5 exampleRequested examplePrepared 2 [0, 1] [3]
      (by decide) (by decide) (by decide) (by decide) (by decide) (by decide) (by decide)⟩

theorem example_sequential_rejected :
    (exampleRequested.startEngine rejectingEnv).map (fun r => (r.1, r.2.working, r.2.trace))
      = some (false, false, [.beginSequenceRender 0 1 8 0, .beginSequenceRender 1 1 8 0,
          .beginSequenceRender 2 1 8 0]) ∧
    (exampleRequested.runPass rejectingEnv 5).map
      (fun r => frameRenderedEvents r.state.trace) = some [] := by
  decide

/-! ## The order in which an abort reaches the nodes -/

theorem indexOf_reverse_add (l : List Nat) (hl : l.Nodup) :
    ∀ x ∈ l, l.reverse.indexOf x + l.indexOf x + 1 = l.length := by
  induction l with
  | nil => intro x hx; cases hx
  | cons a rest ih =>
    intro x hx
    rw [List.reverse_cons]
    have hnd := List.nodup_cons.mp hl
    by_cases hxa : x = a
    · subst hxa
      have hnot : x ∉ rest.reverse := fun h => hnd.1 (List.mem_reverse.mp h)
      rw [List.indexOf_append_of_not_mem hnot, List.indexOf_cons_self, List.indexOf_cons_self,
        List.length_reverse, List.length_cons]
    · have hmem : x ∈ rest := by
        rcases List.mem_cons.mp hx with h | h
        · exact absurd h hxa
        · exact h
      have := ih hnd.2 x hmem
      rw [List.indexOf_append_of_mem (List.mem_reverse.mpr hmem),
        List.indexOf_cons_ne _ (Ne.symm hxa), List.length_cons]
      omega

theorem topoOrdered_reverse {g : Graph} {l : List Nat} (hl : TopoOrdered g l)
    {m n : Nat} (h : IsTransitiveInput g m n) (hn : n ∈ l) :
    m ∈ l.reverse ∧ l.reverse.indexOf n < l.reverse.indexOf m := by
  obtain ⟨hm, hlt⟩ := topoOrdered_transitive hl h hn
  have h1 := indexOf_reverse_add l hl.1 m hm
  have h2 := indexOf_reverse_add l hl.1 n hn
  exact ⟨List.mem_reverse.mpr hm, by omega⟩

theorem topoOrdered_reverse_head {g : Graph} {l : List Nat} (hl : TopoOrdered g l)
    {out : Nat} (hout : out ∈ l) (hall : ∀ x ∈ l, Reachable g x out) :
    l.reverse.head? = some out := by
  cases hrev : l.reverse with
  | nil =>
    have : out ∈ l.reverse := List.mem_reverse.mpr hout
    rw [hrev] at this
    cases this
  | cons x rest =>
    have hx : x ∈ l := List.mem_reverse.mp (by rw [hrev]; exact List.mem_cons_self _ _)
    rcases Relation.reflTransGen_iff_eq_or_transGen.mp (hall x hx) with h | h
    · rw [h]; rfl
    · have := (topoOrdered_reverse hl h hout).2
      rw [hrev, List.indexOf_cons_self] at this
      exact absurd this (Nat.not_lt_zero _)

theorem abortRendering_trace (blocking callerIsWorker : Bool) (w : VideoEngine)
    (hwork : w.isWorking = true) :
    (w.abortRendering blocking callerIsWorker).2.trace =
      w.trace ++ w.tree.sorted.reverse.map fun n => Event.setAborted n true := by
  unfold VideoEngine.abortRendering
  rw [if_neg (by rw [hwork]; decide)]
  dsimp only
  split_ifs <;> rfl

/-- C15: when `abortRendering` is called while the engine is working on a tree
that `refreshTree` built from an acyclic graph, the calls `setAborted(true)` it
makes go to the nodes of the tree in the reverse of the render order: every
node of the tree (every node reachable from the output) is called once, the
output node first, and every node before each of its transitive inputs. -/
theorem abortRendering_reverse_order (env : Env) (t0 : RenderTree)
    (blocking callerIsWorker : Bool) (w : VideoEngine)
    (hg : Acyclic env.graph)
    (htree : t0.refreshTree env.graph env.outputIsViewer env.outputIsOpenFX = some w.tree)
    (hwork : w.isWorking = true) :
    ∃ order, (w.abortRendering blocking callerIsWorker).2.trace =
        w.trace ++ order.map (fun n => Event.setAborted n true) ∧
      order = w.tree.sorted.reverse ∧
      order.Nodup ∧
      (∀ n, n ∈ order ↔ Reachable env.graph n w.tree.output) ∧
      order.head? = some w.tree.output ∧
      ∀ n ∈ order, ∀ m, IsTransitiveInput env.graph m n →
        m ∈ order ∧ order.indexOf n < order.indexOf m := by
  obtain ⟨sorted, hres, htopo, hout, hall⟩ := refreshTree_spec hg env.outputIsViewer
    env.outputIsOpenFX t0
  rw [hres] at htree
  have htr := Option.some.inj htree
  have hs : w.tree.sorted = sorted := by rw [← htr]
  have ho : w.tree.output = t0.output := by rw [← htr]
  refine ⟨w.tree.sorted.reverse, abortRendering_trace blocking callerIsWorker w hwork, rfl,
    ?_, ?_, ?_, ?_⟩
  · rw [hs]; exact List.nodup_reverse.mpr htopo.1
  · intro n
    rw [hs, ho, List.mem_reverse]
    exact ⟨hall n, fun h => topoOrdered_reachable htopo h hout⟩
  · rw [hs, ho]; exact topoOrdered_reverse_head htopo hout hall
  · intro n hn m hmn
    rw [hs] at hn ⊢
    exact topoOrdered_reverse htopo hmn (List.mem_reverse.mp hn)

theorem abortRendering_reverse_order_witness :
    (Acyclic (exampleEnv true).graph ∧
      exampleEngine.tree.refreshTree (exampleEnv true).graph (exampleEnv true).outputIsViewer
        (exampleEnv true).outputIsOpenFX = some (exampleStarted true 3 false).tree ∧
      (exampleStarted true 3 false).isWorking = true) ∧
    ∃ order, ((exampleStarted true 3 false).abortRendering false false).2.trace =
        (exampleStarted true 3 false).trace ++ order.map (fun n => Event.setAborted n true) ∧
      order = (exampleStarted true 3 false).tree.sorted.reverse ∧
      order.Nodup ∧
      (∀ n, n ∈ order ↔ Reachable (exampleEnv true).graph n
        (exampleStarted true 3 false).tree.output) ∧
      order.head? = some (exampleStarted true 3 false).tree.output ∧
      ∀ n ∈ order, ∀ m, IsTransitiveInput (exampleEnv true).graph m n →
        m ∈ order ∧ order.indexOf n < order.indexOf m :=
  ⟨⟨exampleGraph_acyclic, by decide, by decide⟩,
    abortRendering_reverse_order (exampleEnv true) exampleEngine.tree false false
      (exampleStarted true 3 false) exampleGraph_acyclic (by decide) (by decide)⟩

theorem example_abort_order :
    ((exampleStarted true 3 false).abortRendering false false).2.trace =
      (exampleStarted true 3 false).trace ++
        [.setAborted 3 true, .setAborted 2 true, .setAborted 1 true, .setAborted 0 true] := by
  decide

/-! ## Render calls made during a run -/

theorem recordRunArgs_frame (env : Env) (frameCount : Int) (s r f sf fp : Bool)
    (w : VideoEngine) :
    w.recordRunArgs env frameCount s r f sf fp =
      { w with lastRequestedRunArgs :=
        (w.recordRunArgs env frameCount s r f sf fp).lastRequestedRunArgs } := rfl

theorem recordRunArgs_of_tree (env : Env) (frameCount : Int) (s r f sf fp : Bool)
    (w w2 : VideoEngine) (h : w2.tree = w.tree) :
    (w2.recordRunArgs env frameCount s r f sf fp).lastRequestedRunArgs =
      (w.recordRunArgs env frameCount s r f sf fp).lastRequestedRunArgs := by
  unfold VideoEngine.recordRunArgs
  rw [h]

/-- A render call in multi-threaded mode, once the worker thread is started
and has not quit: the arguments are recorded and the wake counter is
incremented; nothing else changes. -/
theorem renderCall_started (env : Env) (fuel : Nat) (c : RenderCall) (w : VideoEngine)
    (hmt : env.numberOfThreads ≠ -1) (hstarted : w.threadStarted = true)
    (hhas : w.hasQuit = false) :
    w.renderCall env fuel c = some
      { w with
        lastRequestedRunArgs := (w.recordRunArgs env c.frameCount c.seekTimeline c.refreshTree
          c.forward c.sameFrame c.forcePreview).lastRequestedRunArgs
        startCount := w.startCount + 1 } := by
  unfold VideoEngine.renderCall VideoEngine.render
  dsimp only
  rw [if_neg hmt, recordRunArgs_frame]
  dsimp only
  rw [if_neg (by rw [hhas]; decide), if_neg (by rw [hstarted]; simp)]

theorem workerPass_frame (env : Env) (s : Step) :
    ∃ f l tl o a tr n, (VideoEngine.workerPass env s).state =
      { s.state with firstFrame := f, lastFrame := l, timeline := tl, output := o,
                     currentRunArgs := a, trace := tr, timerFrameCount := n } := by
  cases s with
  | next w => exact iterateOnce_frame env false w
  | done w => exact ⟨_, _, _, _, _, _, _, rfl⟩

theorem clientCall_started (env : Env) (fuel : Nat) (c : RenderCall) (s : Step)
    (hmt : env.numberOfThreads ≠ -1) (hstarted : s.state.threadStarted = true)
    (hhas : s.state.hasQuit = false) :
    ∃ s1, VideoEngine.clientCall env fuel c s = some s1 ∧
      s1.state = { s.state with
        lastRequestedRunArgs := (s.state.recordRunArgs env c.frameCount c.seekTimeline
          c.refreshTree c.forward c.sameFrame c.forcePreview).lastRequestedRunArgs
        startCount := s.state.startCount + 1 } ∧
      ((∃ w, s = .done w) ↔ ∃ w, s1 = .done w) := by
  have hr : ∀ w : VideoEngine, w.threadStarted = true → w.hasQuit = false →
      w.renderCall env fuel c = some
        { w with
          lastRequestedRunArgs := (w.recordRunArgs env c.frameCount c.seekTimeline
            c.refreshTree c.forward c.sameFrame c.forcePreview).lastRequestedRunArgs
          startCount := w.startCount + 1 } :=
    fun w h1 h2 => renderCall_started env fuel c w hmt h1 h2
  cases s with
  | next w =>
    refine ⟨.next { w with
      lastRequestedRunArgs := (w.recordRunArgs env c.frameCount c.seekTimeline
        c.refreshTree c.forward c.sameFrame c.forcePreview).lastRequestedRunArgs
      startCount := w.startCount + 1 }, ?_, rfl, ?_⟩
    · show (w.renderCall env fuel c).map Step.next = _
      rw [hr w hstarted hhas]
      rfl
    · constructor <;> (rintro ⟨x, hx⟩; cases hx)
  | done w =>
    refine ⟨.done { w with
      lastRequestedRunArgs := (w.recordRunArgs env c.frameCount c.seekTimeline
        c.refreshTree c.forward c.sameFrame c.forcePreview).lastRequestedRunArgs
      startCount := w.startCount + 1 }, ?_, rfl, ?_⟩
    · show (w.renderCall env fuel c).map Step.done = _
      rw [hr w hstarted hhas]
      rfl
    · constructor <;> (rintro ⟨x, hx⟩; exact ⟨_, rfl⟩)

/-- What a run interleaved with render calls leaves behind: the wake counter
has been incremented once per call and the last requested arguments are those
of the last call; the thread flags and the tree are untouched. -/
theorem duringRun_spec (env : Env) (fuel : Nat) (hmt : env.numberOfThreads ≠ -1) :
    ∀ (actions : List RunAction) (s s2 : Step),
      s.state.threadStarted = true → s.state.hasQuit = false →
      VideoEngine.duringRun env fuel actions s = some s2 →
      s2.state.threadStarted = true ∧ s2.state.hasQuit = false ∧
      s2.state.mustQuit = s.state.mustQuit ∧ s2.state.tree = s.state.tree ∧
      s2.state.startCount = s.state.startCount + ((renderCalls actions).length : Int) ∧
      (renderCalls actions = [] → s2.state.lastRequestedRunArgs = s.state.lastRequestedRunArgs) ∧
      (∀ c, (renderCalls actions).getLast? = some c →
        s2.state.lastRequestedRunArgs =
          (s.state.recordRunArgs env c.frameCount c.seekTimeline c.refreshTree c.forward
            c.sameFrame c.forcePreview).lastRequestedRunArgs) := by
  intro actions
  induction actions with
  | nil =>
    intro s s2 hst hhq h
    have : s = s2 := Option.some.inj h
    subst this
    refine ⟨hst, hhq, rfl, rfl, by simp [renderCalls], fun _ => rfl, ?_⟩
    intro c hc
    simp [renderCalls] at hc
  | cons a rest ih =>
    intro s s2 hst hhq h
    cases a with
    | pass =>
      obtain ⟨f, l, tl, o, ar, tr, n, hp⟩ := workerPass_frame env s
      have h1 : VideoEngine.duringRun env fuel rest (VideoEngine.workerPass env s) = some s2 := h
      have e1 : (VideoEngine.workerPass env s).state.threadStarted = s.state.threadStarted := by
        rw [hp]
      have e2 : (VideoEngine.workerPass env s).state.hasQuit = s.state.hasQuit := by rw [hp]
      have e3 : (VideoEngine.workerPass env s).state.mustQuit = s.state.mustQuit := by rw [hp]
      have e4 : (VideoEngine.workerPass env s).state.tree = s.state.tree := by rw [hp]
      have e5 : (VideoEngine.workerPass env s).state.startCount = s.state.startCount := by
        rw [hp]
      have e6 : (VideoEngine.workerPass env s).state.lastRequestedRunArgs
          = s.state.lastRequestedRunArgs := by rw [hp]
      obtain ⟨i1, i2, i3, i4, i5, i6, i7⟩ := ih _ s2 (by rw [e1]; exact hst)
        (by rw [e2]; exact hhq) h1
      refine ⟨i1, i2, by rw [i3, e3], by rw [i4, e4], by rw [i5, e5]; rfl, ?_, ?_⟩
      · intro hnil
        rw [i6 hnil, e6]
      · intro c hc
        rw [i7 c hc]
        exact recordRunArgs_of_tree env _ _ _ _ _ _ _ _ e4
    | call c0 =>
      obtain ⟨s1, hs1, hst1, -⟩ := clientCall_started env fuel c0 s hmt hst hhq
      have h1 : VideoEngine.duringRun env fuel rest s1 = some s2 := by
        have h0 : (match VideoEngine.clientCall env fuel c0 s with
          | none => none
          | some s1 => VideoEngine.duringRun env fuel rest s1) = some s2 := h
        rw [hs1] at h0
        exact h0
      have e1 : s1.state.threadStarted = s.state.threadStarted := by rw [hst1]
      have e2 : s1.state.hasQuit = s.state.hasQuit := by rw [hst1]
      have e3 : s1.state.mustQuit = s.state.mustQuit := by rw [hst1]
      have e4 : s1.state.tree = s.state.tree := by rw [hst1]
      have e5 : s1.state.startCount = s.state.startCount + 1 := by rw [hst1]
      have e6 : s1.state.lastRequestedRunArgs =
          (s.state.recordRunArgs env c0.frameCount c0.seekTimeline c0.refreshTree c0.forward
            c0.sameFrame c0.forcePreview).lastRequestedRunArgs := by rw [hst1]
      obtain ⟨i1, i2, i3, i4, i5, i6, i7⟩ := ih s1 s2 (by rw [e1]; exact hst)
        (by rw [e2]; exact hhq) h1
      have hrc : renderCalls (RunAction.call c0 :: rest) = c0 :: renderCalls rest := rfl
      refine ⟨i1, i2, by rw [i3, e3], by rw [i4, e4], ?_, ?_, ?_⟩
      · rw [i5, e5, hrc, List.length_cons]
        push_cast
        ring
      · intro hnil
        rw [hrc] at hnil
        cases hnil
      · intro c hc
        rw [hrc] at hc
        cases hrest : renderCalls rest with
        | nil =>
          rw [hrest] at hc
          have : c0 = c := by simpa using hc
          subst this
          rw [i6 hrest, e6]
        | cons c1 tl =>
          rw [hrest, List.getLast?_cons_cons] at hc
          rw [← hrest] at hc
          rw [i7 c hc]
          exact recordRunArgs_of_tree env _ _ _ _ _ _ _ _ e4

theorem startEngine_currentRunArgs (env : Env) (w s : VideoEngine) (b : Bool)
    (hab : ¬ w.abortRequested > 0) (h : w.startEngine env = some (b, s)) :
    s.currentRunArgs = w.lastRequestedRunArgs := by
  cases hp : w.prepared env with
  | none => rw [startEngine_of_prepared_none env w hab hp] at h; exact absurd h (by simp)
  | some p =>
    obtain ⟨t, hpf, _⟩ := prepared_frame env w p hp
    obtain ⟨f, l, o, tr, hb⟩ := beginOutput_frame env p
    rw [startEngine_of_prepared env w p hab hp] at h
    have h2 := (Prod.mk.inj (Option.some.inj h)).2
    rw [← h2]
    have hargs : (p.beginOutput env).2.currentRunArgs = w.lastRequestedRunArgs := by
      rw [hb, hpf]
    split_ifs
    · exact hargs
    · exact hargs

theorem stopAndPark_parked (env : Env) (w : VideoEngine) (hq : w.mustQuit = false) :
    w.stopAndPark env = .parked (w.stopEngine env).2 := by
  have h1 := (stopEngine_frame env w).1
  unfold VideoEngine.stopAndPark
  cases hs : w.stopEngine env with
  | mk b w2 =>
    rw [hs, hq] at h1
    have hb : b = false := h1
    subst hb
    rfl

/-- A pass of `run` with no quit requested ends parked and leaves the wake
counter and the last requested arguments as they were. -/
theorem runPass_parked (env : Env) (fuel : Nat) (w : VideoEngine) (out : RunOutcome)
    (hq : w.mustQuit = false) (h : w.runPass env fuel = some out) :
    ∃ p, out = .parked p ∧ p.startCount = w.startCount ∧
      p.lastRequestedRunArgs = w.lastRequestedRunArgs ∧ p.mustQuit = false := by
  have hstop : ∀ x : VideoEngine, x.mustQuit = false → x.startCount = w.startCount →
      x.lastRequestedRunArgs = w.lastRequestedRunArgs →
      ∃ p, x.stopAndPark env = .parked p ∧ p.startCount = w.startCount ∧
        p.lastRequestedRunArgs = w.lastRequestedRunArgs ∧ p.mustQuit = false := by
    intro x hx hc hl
    obtain ⟨_, tr, o, hs⟩ := stopEngine_frame env x
    refine ⟨_, stopAndPark_parked env x hx, ?_, ?_, ?_⟩
    · rw [hs]; exact hc
    · rw [hs]; exact hl
    · rw [hs]
  have hiter : ∀ x x2 : VideoEngine, x.mustQuit = false → x.startCount = w.startCount →
      x.lastRequestedRunArgs = w.lastRequestedRunArgs →
      x.iterateKernel env false fuel = some x2 →
      x2.mustQuit = false ∧ x2.startCount = w.startCount ∧
        x2.lastRequestedRunArgs = w.lastRequestedRunArgs := by
    intro x x2 hx hc hl hi
    obtain ⟨f, l, tl, o, a, tr, n, he⟩ := iterateKernel_frame env false fuel x x2 hi
    rw [he]
    exact ⟨hx, hc, hl⟩
  unfold VideoEngine.runPass at h
  rw [if_neg (by rw [hq]; decide)] at h
  by_cases hr : w.restart = true
  · rw [if_pos hr] at h
    cases hs : w.startEngine env with
    | none => rw [hs] at h; exact absurd h (by simp)
    | some r =>
      obtain ⟨b, w1⟩ := r
      obtain ⟨r1, a1, t1, f1, l1, o1, tr1, wk1, tm1, he⟩ := startEngine_frame env w w1 b hs
      have e1 : w1.mustQuit = false := by rw [he]; exact hq
      have e2 : w1.startCount = w.startCount := by rw [he]
      have e3 : w1.lastRequestedRunArgs = w.lastRequestedRunArgs := by rw [he]
      rw [hs] at h
      cases b with
      | false =>
        obtain ⟨p, hp, hrest⟩ := hstop w1 e1 e2 e3
        have h0 : some (w1.stopAndPark env) = some out := h
        rw [hp] at h0
        exact ⟨p, (Option.some.inj h0).symm, hrest⟩
      | true =>
        cases hi : w1.iterateKernel env false fuel with
        | none =>
          have h0 : (match w1.iterateKernel env false fuel with
            | none => none
            | some w2 => some (w2.stopAndPark env)) = some out := h
          rw [hi] at h0
          exact absurd h0 (by simp)
        | some w2 =>
          have h0 : (match w1.iterateKernel env false fuel with
            | none => none
            | some w2 => some (w2.stopAndPark env)) = some out := h
          rw [hi] at h0
          obtain ⟨i1, i2, i3⟩ := hiter w1 w2 e1 e2 e3 hi
          obtain ⟨p, hp, hrest⟩ := hstop w2 i1 i2 i3
          have h1 : some (w2.stopAndPark env) = some out := h0
          rw [hp] at h1
          exact ⟨p, (Option.some.inj h1).symm, hrest⟩
  · rw [if_neg hr] at h
    cases hi : w.iterateKernel env false fuel with
    | none => rw [hi] at h; exact absurd h (by simp)
    | some w2 =>
      rw [hi] at h
      obtain ⟨i1, i2, i3⟩ := hiter w w2 hq rfl rfl hi
      obtain ⟨p, hp, hrest⟩ := hstop w2 i1 i2 i3
      have h1 : some (w2.stopAndPark env) = some out := h
      rw [hp] at h1
      exact ⟨p, (Option.some.inj h1).symm, hrest⟩

/-- C16: let `k >= 1` render calls be made, in multi-threaded mode, while the
worker is in a run (between passes of `iterateKernel`, or after the last one
and before `stopEngine`), the last of them being `c`.  When the run stops the
worker parks with the wake counter at `k` more than before, is woken, and does
one further pass of the loop of `run`.  That pass is `startEngine`, which
returns on an acyclic graph and promotes the arguments recorded for `c` to the
current run arguments, followed, when `startEngine` succeeded, by
`iterateKernel` on the state it left, and by `stopEngine`.  When that run stops
the worker parks with no wake-up pending, so that `run` does exactly that one
pass. -/
theorem render_calls_coalesce (env : Env) (fuel : Nat) (actions : List RunAction)
    (w wEnd : VideoEngine) (c : RenderCall)
    (hmt : env.numberOfThreads ≠ -1)
    (hstarted : w.threadStarted = true) (hhas : w.hasQuit = false)
    (hquit : w.mustQuit = false) (hcount : 0 ≤ w.startCount)
    (hrun : VideoEngine.duringRun env fuel actions (.next w) = some (.done wEnd))
    (hlast : (renderCalls actions).getLast? = some c) :
    ∃ p p0, wEnd.stopAndPark env = .parked p ∧
      p.startCount = w.startCount + ((renderCalls actions).length : Int) ∧
      1 ≤ (renderCalls actions).length ∧
      p.wakeUp = some p0 ∧ p0.restart = true ∧ p0.mustQuit = false ∧
      p0.lastRequestedRunArgs = (w.recordRunArgs env c.frameCount c.seekTimeline
        c.refreshTree c.forward c.sameFrame c.forcePreview).lastRequestedRunArgs ∧
      (Acyclic env.graph → ∃ b s, p0.startEngine env = some (b, s)) ∧
      (p0.startEngine env = none → p0.runPass env fuel = none) ∧
      (∀ b s, p0.startEngine env = some (b, s) →
        s.currentRunArgs = (w.recordRunArgs env c.frameCount c.seekTimeline
          c.refreshTree c.forward c.sameFrame c.forcePreview).lastRequestedRunArgs ∧
        p0.runPass env fuel =
          if b = true then (s.iterateKernel env false fuel).map (fun x => x.stopAndPark env)
          else some (s.stopAndPark env)) ∧
      (∀ out, p0.runPass env fuel = some out → ∃ p1, out = .parked p1 ∧ p1.wakeUp = none) ∧
      ∀ passes, p0.run env fuel (passes + 1) = p0.runPass env fuel := by
  obtain ⟨i1, i2, i3, i4, i5, i6, i7⟩ := duringRun_spec env fuel hmt actions (.next w)
    (.done wEnd) hstarted hhas hrun
  have hq : wEnd.mustQuit = false := by rw [← hquit]; exact i3
  have hk : 1 ≤ (renderCalls actions).length := by
    cases hrc : renderCalls actions with
    | nil => rw [hrc] at hlast; simp at hlast
    | cons a l => simp
  obtain ⟨_, tr, o, hs⟩ := stopEngine_frame env wEnd
  have hsc : (wEnd.stopEngine env).2.startCount
      = w.startCount + ((renderCalls actions).length : Int) := by
    rw [hs]; exact i5
  have hpos : ¬ (wEnd.stopEngine env).2.startCount ≤ 0 := by
    rw [hsc]
    have : (1 : Int) ≤ ((renderCalls actions).length : Int) := by exact_mod_cast hk
    omega
  have hargs : (wEnd.stopEngine env).2.lastRequestedRunArgs = (w.recordRunArgs env c.frameCount
      c.seekTimeline c.refreshTree c.forward c.sameFrame c.forcePreview).lastRequestedRunArgs := by
    rw [hs]; exact i7 c hlast
  have hab : ¬ ({ (wEnd.stopEngine env).2 with startCount := 0 } : VideoEngine).abortRequested
      > 0 := by
    rw [hs]
    show ¬ (0 : Int) > 0
    decide
  have hq0 : ({ (wEnd.stopEngine env).2 with startCount := 0 } : VideoEngine).mustQuit = false := by
    rw [hs]
  have hr0 : ({ (wEnd.stopEngine env).2 with startCount := 0 } : VideoEngine).restart = true := by
    rw [hs]
  have hpark : ∀ out, ({ (wEnd.stopEngine env).2 with startCount := 0 } : VideoEngine).runPass
      env fuel = some out → ∃ p1, out = .parked p1 ∧ p1.wakeUp = none := by
    intro out hout
    obtain ⟨p1, hp1, hc1, -, -⟩ := runPass_parked env fuel _ out hq0 hout
    refine ⟨p1, hp1, ?_⟩
    unfold VideoEngine.wakeUp
    rw [if_pos (by rw [hc1])]
  refine ⟨(wEnd.stopEngine env).2, { (wEnd.stopEngine env).2 with startCount := 0 },
    stopAndPark_parked env wEnd hq, hsc, hk, ?_, hr0, hq0, hargs, ?_, ?_, ?_, hpark, ?_⟩
  · unfold VideoEngine.wakeUp
    rw [if_neg hpos]
  · intro hg
    obtain ⟨x, hx⟩ := prepared_isSome_of_acyclic env
      ({ (wEnd.stopEngine env).2 with startCount := 0 } : VideoEngine) hg
    exact ⟨_, _, startEngine_of_prepared env _ x hab hx⟩
  · intro hnone
    unfold VideoEngine.runPass
    rw [if_neg (by rw [hq0]; decide), if_pos hr0, hnone]
  · intro b s hstart
    refine ⟨?_, ?_⟩
    · rw [startEngine_currentRunArgs env _ s b hab hstart]
      exact hargs
    · unfold VideoEngine.runPass
      rw [if_neg (by rw [hq0]; decide), if_pos hr0, hstart]
      cases b with
      | false => rfl
      | true =>
        dsimp only
        rw [if_pos rfl]
        cases s.iterateKernel env false fuel <;> rfl
  · intro passes
    rw [VideoEngine.run]
    cases hrp : ({ (wEnd.stopEngine env).2 with startCount := 0 } : VideoEngine).runPass
        env fuel with
    | none => rfl
    | some out =>
      obtain ⟨p1, hp1, hw1⟩ := hpark out hrp
      subst hp1
      show (match p1.wakeUp with
        | none => some (RunOutcome.parked p1)
        | some w2 => VideoEngine.run env fuel passes w2) = _
      rw [hw1]

theorem render_calls_coalesce_witness :
    ((exampleEnv true).numberOfThreads ≠ -1 ∧ exampleRunning.threadStarted = true ∧
      exampleRunning.hasQuit = false ∧ exampleRunning.mustQuit = false ∧
      0 ≤ exampleRunning.startCount ∧
      VideoEngine.duringRun (exampleEnv true) 5 exampleActions (.next exampleRunning)
        = some (.done exampleRunEnd) ∧
      (renderCalls exampleActions).getLast? = some ⟨2, true, false, false, false, false⟩) ∧
    ∃ p p0, exampleRunEnd.stopAndPark (exampleEnv true) = .parked p ∧
      p.startCount = exampleRunning.startCount + ((renderCalls exampleActions).length : Int) ∧
      1 ≤ (renderCalls exampleActions).length ∧
      p.wakeUp = some p0 ∧ p0.restart = true ∧ p0.mustQuit = false ∧
      p0.lastRequestedRunArgs = (exampleRunning.recordRunArgs (exampleEnv true) 2 true
        false false false false).lastRequestedRunArgs ∧
      (Acyclic (exampleEnv true).graph → ∃ b s, p0.startEngine (exampleEnv true) = some (b, s)) ∧
      (p0.startEngine (exampleEnv true) = none → p0.runPass (exampleEnv true) 5 = none) ∧
      (∀ b s, p0.startEngine (exampleEnv true) = some (b, s) →
        s.currentRunArgs = (exampleRunning.recordRunArgs (exampleEnv true) 2 true
          false false false false).lastRequestedRunArgs ∧
        p0.runPass (exampleEnv true) 5 =
          if b = true then
            (s.iterateKernel (exampleEnv true) false 5).map
              (fun x => x.stopAndPark (exampleEnv true))
          else some (s.stopAndPark (exampleEnv true))) ∧
      (∀ out, p0.runPass (exampleEnv true) 5 = some out →
        ∃ p1, out = .parked p1 ∧ p1.wakeUp = none) ∧
      ∀ passes, p0.run (exampleEnv true) 5 (passes + 1) = p0.runPass (exampleEnv true) 5 :=
  ⟨⟨by decide, by decide, by decide, by decide, by decide, by decide, by decide⟩,
    render_calls_coalesce (exampleEnv true) 5 exampleActions exampleRunning exampleRunEnd
      ⟨2, true, false, false, false, false⟩ (by decide) (by decide) (by decide) (by decide)
      (by decide) (by decide) (by decide)⟩

theorem example_coalesced_run :
    frameRenderedEvents exampleRunEnd.trace = [10, 1, 2] ∧ exampleRunEnd.startCount = 2 ∧
    (((exampleRunEnd.stopEngine (exampleEnv true)).2.wakeUp).bind fun p0 =>
        p0.run (exampleEnv true) 5 3).map
      (fun r => (frameRenderedEvents r.state.trace, r.state.startCount))
      = some ([10, 1, 2, 3, 2], 0) := by
  decide

/-! ## After the quit transition -/

theorem abortRendering_frame (blocking callerIsWorker : Bool) (w : VideoEngine) :
    ∃ tr a, (w.abortRendering blocking callerIsWorker).2 =
      { w with trace := tr, abortRequested := a } := by
  unfold VideoEngine.abortRendering
  dsimp only
  split_ifs <;> exact ⟨_, _, rfl⟩

theorem render_hasQuit (env : Env) (fuel : Nat) (frameCount : Int) (s r f sf fp : Bool)
    (w w2 : VideoEngine) (h : w.render env fuel frameCount s r f sf fp = some w2)
    (hq : w.hasQuit = true) : w2.hasQuit = true := by
  unfold VideoEngine.render at h
  dsimp only at h
  by_cases hmt : env.numberOfThreads = -1
  · rw [if_pos hmt] at h
    exact (runSameThread_frame env fuel _ w2 h).2.2.2 hq
  · rw [if_neg hmt] at h
    split_ifs at h <;> (rw [← Option.some.inj h]; exact hq)

/-- A render call in multi-threaded mode after the quit transition: the
arguments are recorded and the function returns. -/
theorem renderCall_hasQuit (env : Env) (fuel : Nat) (c : RenderCall) (w : VideoEngine)
    (hmt : env.numberOfThreads ≠ -1) (hq : w.hasQuit = true) :
    w.renderCall env fuel c = some
      (w.recordRunArgs env c.frameCount c.seekTimeline c.refreshTree c.forward c.sameFrame
        c.forcePreview) := by
  unfold VideoEngine.renderCall VideoEngine.render
  dsimp only
  have hq2 : (w.recordRunArgs env c.frameCount c.seekTimeline c.refreshTree c.forward
      c.sameFrame c.forcePreview).hasQuit = true := hq
  rw [if_neg hmt, if_pos hq2]

theorem stopAndPark_hasQuit (env : Env) (w : VideoEngine) (hq : w.hasQuit = true) :
    (w.stopAndPark env).state.hasQuit = true := by
  obtain ⟨r, hr⟩ := stopAndPark_state env w
  obtain ⟨_, tr, o, hs⟩ := stopEngine_frame env w
  rw [hr, hs]
  show (w.mustQuit || w.hasQuit) = true
  rw [hq, Bool.or_true]

theorem runPass_hasQuit (env : Env) (fuel : Nat) (w : VideoEngine) (out : RunOutcome)
    (h : w.runPass env fuel = some out) (hq : w.hasQuit = true) :
    out.state.hasQuit = true := by
  have hiter : ∀ x x2 : VideoEngine, x.hasQuit = true →
      x.iterateKernel env false fuel = some x2 → x2.hasQuit = true := by
    intro x x2 hx hi
    obtain ⟨f, l, tl, o, a, tr, n, he⟩ := iterateKernel_frame env false fuel x x2 hi
    rw [he]
    exact hx
  unfold VideoEngine.runPass at h
  by_cases hm : w.mustQuit = true
  · rw [if_pos hm] at h
    rw [← Option.some.inj h]
    rfl
  · rw [if_neg hm] at h
    by_cases hr : w.restart = true
    · rw [if_pos hr] at h
      cases hs : w.startEngine env with
      | none => rw [hs] at h; exact absurd h (by simp)
      | some r =>
        obtain ⟨b, w1⟩ := r
        obtain ⟨r1, a1, t1, f1, l1, o1, tr1, wk1, tm1, he⟩ := startEngine_frame env w w1 b hs
        have e1 : w1.hasQuit = true := by rw [he]; exact hq
        rw [hs] at h
        cases b with
        | false =>
          have h0 : some (w1.stopAndPark env) = some out := h
          rw [← Option.some.inj h0]
          exact stopAndPark_hasQuit env w1 e1
        | true =>
          have h0 : (match w1.iterateKernel env false fuel with
            | none => none
            | some w2 => some (w2.stopAndPark env)) = some out := h
          cases hi : w1.iterateKernel env false fuel with
          | none => rw [hi] at h0; exact absurd h0 (by simp)
          | some w2 =>
            rw [hi] at h0
            have h1 : some (w2.stopAndPark env) = some out := h0
            rw [← Option.some.inj h1]
            exact stopAndPark_hasQuit env w2 (hiter w1 w2 e1 hi)
    · rw [if_neg hr] at h
      cases hi : w.iterateKernel env false fuel with
      | none => rw [hi] at h; exact absurd h (by simp)
      | some w2 =>
        rw [hi] at h
        have h1 : some (w2.stopAndPark env) = some out := h
        rw [← Option.some.inj h1]
        exact stopAndPark_hasQuit env w2 (hiter w w2 hq hi)

theorem operation_hasQuit (env : Env) (w w2 : VideoEngine) (hop : Operation env w w2)
    (hq : w.hasQuit = true) : w2.hasQuit = true := by
  cases hop with
  | render fuel c _ _ h => exact render_hasQuit env fuel _ _ _ _ _ _ w w2 h hq
  | startEngine _ _ b h =>
    obtain ⟨r1, a1, t1, f1, l1, o1, tr1, wk1, tm1, he⟩ := startEngine_frame env w w2 b h
    rw [he]; exact hq
  | iteratePass st _ =>
    obtain ⟨f, l, tl, o, a, tr, n, he⟩ := iterateOnce_frame env st w
    rw [he]; exact hq
  | iterateKernel st fuel _ _ h =>
    obtain ⟨f, l, tl, o, a, tr, n, he⟩ := iterateKernel_frame env st fuel w w2 h
    rw [he]; exact hq
  | stopEngine _ =>
    obtain ⟨_, tr, o, hs⟩ := stopEngine_frame env w
    rw [hs]
    show (w.mustQuit || w.hasQuit) = true
    rw [hq, Bool.or_true]
  | runSameThread fuel _ _ h => exact (runSameThread_frame env fuel w w2 h).2.2.2 hq
  | runPass fuel _ out h => exact runPass_hasQuit env fuel w out h hq
  | wakeUp _ _ h =>
    unfold VideoEngine.wakeUp at h
    split_ifs at h
    rw [← Option.some.inj h]; exact hq
  | abortRendering blocking callerIsWorker _ =>
    obtain ⟨tr, a, he⟩ := abortRendering_frame blocking callerIsWorker w
    rw [he]; exact hq
  | refreshTree _ _ h =>
    obtain ⟨t, he, _⟩ := refreshTree_frame env w w2 h
    rw [he]; exact hq
  | getFrameRange _ =>
    obtain ⟨f, l, he⟩ := getFrameRange_frame env w
    rw [he]; exact hq
  | setPlaybackMode mode _ => exact hq
  | refreshAndContinueRender fuel fp ab cw _ _ h =>
    unfold VideoEngine.refreshAndContinueRender at h
    dsimp only at h
    by_cases hp : (!w.isPlaybackRunning) = true
    · rw [if_pos hp] at h
      refine render_hasQuit env fuel _ _ _ _ _ _ _ w2 h ?_
      by_cases hab : ab = true
      · rw [if_pos hab]
        obtain ⟨tr, a, he⟩ := abortRendering_frame false cw w
        rw [he]; exact hq
      · rw [if_neg hab]; exact hq
    · rw [if_neg hp] at h
      rw [← Option.some.inj h]; exact hq

theorem operations_hasQuit (env : Env) (w w2 : VideoEngine)
    (h : Relation.ReflTransGen (Operation env) w w2) (hq : w.hasQuit = true) :
    w2.hasQuit = true := by
  induction h with
  | refl => exact hq
  | tail _ hstep ih => exact operation_hasQuit env _ _ hstep ih

theorem quitEngineThread_hasQuit (callerIsWorker : Bool)
    (afterAbort afterQuit : VideoEngine → VideoEngine) (w : VideoEngine)
    (hA : ∀ x : VideoEngine, x.hasQuit = true → (afterAbort x).hasQuit = true)
    (hB : ∀ x : VideoEngine, x.hasQuit = true → (afterQuit x).hasQuit = true)
    (hq : w.hasQuit = true) :
    (w.quitEngineThread callerIsWorker afterAbort afterQuit).hasQuit = true := by
  unfold VideoEngine.quitEngineThread
  by_cases hts : w.threadStarted = true
  · rw [if_pos hts]
    lift_lets
    intro w1 r w2 w3 w4
    have h1 : w1.hasQuit = true := hq
    have hr : r.2.hasQuit = true := by
      obtain ⟨tr, a, he⟩ := abortRendering_frame true callerIsWorker w1
      show (w1.abortRendering true callerIsWorker).2.hasQuit = true
      rw [he]; exact h1
    have h2 : w2.hasQuit = true := by
      show (if w1.isWorking = true then (if r.1 = true then afterAbort r.2 else r.2)
        else w1).hasQuit = true
      split_ifs
      · exact hA _ hr
      · exact hr
      · exact h1
    have h3 : w3.hasQuit = true := h2
    have h4 : w4.hasQuit = true := by
      show (if w3.mustQuit = true then afterQuit w3 else w3).hasQuit = true
      split_ifs
      · exact hB _ h3
      · exact h3
    exact h4
  · rw [if_neg hts]
    exact hq

theorem transition_hasQuit (env : Env) (w w2 : VideoEngine) (ht : Transition env w w2)
    (hq : w.hasQuit = true) : w2.hasQuit = true := by
  cases ht with
  | operation _ _ hop => exact operation_hasQuit env w w2 hop hq
  | updateTreeAndContinueRender fuel cw afterWait _ _ hwait h =>
    unfold VideoEngine.updateTreeAndContinueRender at h
    dsimp only at h
    by_cases hp : w.isPlaybackRunning = true
    · rw [if_pos hp] at h
      refine render_hasQuit env fuel _ _ _ _ _ _ _ w2 h ?_
      have hab : (w.abortRendering true cw).2.hasQuit = true := by
        obtain ⟨tr, a, he⟩ := abortRendering_frame true cw w
        rw [he]; exact hq
      split_ifs
      · exact operations_hasQuit env _ _ (hwait _) hab
      · exact hab
    · rw [if_neg hp] at h
      exact render_hasQuit env fuel _ _ _ _ _ _ w w2 h hq
  | quitEngineThread cw afterAbort afterQuit _ ha hb =>
    exact quitEngineThread_hasQuit cw afterAbort afterQuit w
      (fun x hx => operations_hasQuit env _ _ (ha x) hx)
      (fun x hx => operations_hasQuit env _ _ (hb x) hx) hq

/-- C17: the quit transition of `stopEngine` and of `run` sets `_hasQuit`; from
a state in which `_hasQuit` is set, whatever operations of the scheduler follow
(`render`, `startEngine`, `iterateKernel`, `stopEngine`, passes of `run`,
aborts, tree rebuilds, `quitEngineThread`, ...), `_hasQuit` is still set, and
a render call in multi-threaded mode returns having recorded its arguments
only: the thread is not started and the wake counter is not incremented. -/
theorem hasQuit_never_cleared (env : Env) (w w2 : VideoEngine)
    (hq : w.hasQuit = true)
    (hreach : Relation.ReflTransGen (Transition env) w w2) :
    (∀ x : VideoEngine, x.mustQuit = true →
      (x.stopEngine env).2.hasQuit = true ∧ (x.runQuit env).hasQuit = true) ∧
    w2.hasQuit = true ∧
    (env.numberOfThreads ≠ -1 → ∀ (fuel : Nat) (c : RenderCall),
      ∃ w3, w2.renderCall env fuel c = some w3 ∧
        w3 = { w2 with lastRequestedRunArgs := w3.lastRequestedRunArgs } ∧
        w3.threadStarted = w2.threadStarted ∧ w3.threadRunning = w2.threadRunning ∧
        w3.startCount = w2.startCount ∧ w3.hasQuit = true) := by
  have h2 : w2.hasQuit = true := by
    induction hreach with
    | refl => exact hq
    | tail _ hstep ih => exact transition_hasQuit env _ _ hstep ih
  refine ⟨?_, h2, ?_⟩
  · intro x hx
    obtain ⟨_, tr, o, hs⟩ := stopEngine_frame env x
    refine ⟨?_, rfl⟩
    rw [hs]
    show (x.mustQuit || x.hasQuit) = true
    rw [hx, Bool.true_or]
  · intro hmt fuel c
    exact ⟨_, renderCall_hasQuit env fuel c w2 hmt h2, rfl, rfl, rfl, rfl, h2⟩

theorem hasQuit_never_cleared_witness :
    (exampleQuit.hasQuit = true ∧
      Relation.ReflTransGen (Transition (exampleEnv true)) exampleQuit
        ((exampleQuit.setPlaybackMode .PLAYBACK_ONCE).stopEngine (exampleEnv true)).2) ∧
    (∀ x : VideoEngine, x.mustQuit = true →
      (x.stopEngine (exampleEnv true)).2.hasQuit = true ∧
        (x.runQuit (exampleEnv true)).hasQuit = true) ∧
    ((exampleQuit.setPlaybackMode .PLAYBACK_ONCE).stopEngine (exampleEnv true)).2.hasQuit
      = true ∧
    ((exampleEnv true).numberOfThreads ≠ -1 → ∀ (fuel : Nat) (c : RenderCall),
      ∃ w3, ((exampleQuit.setPlaybackMode .PLAYBACK_ONCE).stopEngine
          (exampleEnv true)).2.renderCall (exampleEnv true) fuel c = some w3 ∧
        w3 = { ((exampleQuit.setPlaybackMode .PLAYBACK_ONCE).stopEngine (exampleEnv true)).2
          with lastRequestedRunArgs := w3.lastRequestedRunArgs } ∧
        w3.threadStarted = ((exampleQuit.setPlaybackMode .PLAYBACK_ONCE).stopEngine
          (exampleEnv true)).2.threadStarted ∧
        w3.threadRunning = ((exampleQuit.setPlaybackMode .PLAYBACK_ONCE).stopEngine
          (exampleEnv true)).2.threadRunning ∧
        w3.startCount = ((exampleQuit.setPlaybackMode .PLAYBACK_ONCE).stopEngine
          (exampleEnv true)).2.startCount ∧
        w3.hasQuit = true) :=
  ⟨⟨by decide,
      Relation.ReflTransGen.tail
        (Relation.ReflTransGen.single
          (Transition.operation _ _ (Operation.setPlaybackMode .PLAYBACK_ONCE exampleQuit)))
        (Transition.operation _ _ (Operation.stopEngine _))⟩,
    hasQuit_never_cleared (exampleEnv true) exampleQuit _ (by decide)
      (Relation.ReflTransGen.tail
        (Relation.ReflTransGen.single
          (Transition.operation _ _ (Operation.setPlaybackMode .PLAYBACK_ONCE exampleQuit)))
        (Transition.operation _ _ (Operation.stopEngine _)))⟩

theorem example_render_after_quit :
    exampleQuit.hasQuit = true ∧ exampleQuit.threadStarted = false ∧
    (exampleQuit.renderCall (exampleEnv true) 5 ⟨3, true, false, true, false, false⟩).map
      (fun w => (w.threadStarted, w.threadRunning, w.startCount, w.hasQuit))
      = some (false, false, 0, true) := by
  decide

/-! ## Requests made while a bounded run is under way -/

theorem isPlaybackRunning_eq (w : VideoEngine) :
    w.isPlaybackRunning = true ↔
      w.isWorking = true ∧ (w.currentRunArgs.frameRequestsCount = -1 ∨
        (w.currentRunArgs.frameRequestsCount > 1 ∧
          w.currentRunArgs.frameRequestIndex < w.currentRunArgs.frameRequestsCount - 1)) := by
  unfold VideoEngine.isPlaybackRunning
  simp only [Bool.and_eq_true, Bool.or_eq_true, decide_eq_true_eq]

/-- C18 (the code diverges from the claim): `refreshAndContinueRender` decides
with `isPlaybackRunning`, which compares the index of the frames produced with
the remaining count minus one (`_frameRequestsCount` is decremented after each
frame).  In a bounded run with `r > 1` frames still to produce of which at
least `r - 1` have been produced, `isPlaybackRunning` is false and the request
`render(1, false, false, forward, true, forcePreview)` is issued: the last
requested arguments are overwritten and the wake counter is incremented, where
the claim has no request and an unchanged state.  The rest of the claim holds:
the same request is issued when the engine is idle, and none, with the state
unchanged, when `isPlaybackRunning` is true. -/
theorem refreshAndContinueRender_mid_run (env : Env) (fuel : Nat)
    (forcePreview abortPreviousRender callerIsWorker : Bool) (w : VideoEngine)
    (hmt : env.numberOfThreads ≠ -1) (hstarted : w.threadStarted = true)
    (hhas : w.hasQuit = false) :
    (w.isWorking = true → w.currentRunArgs.frameRequestsCount > 1 →
      w.currentRunArgs.frameRequestsCount - 1 ≤ w.currentRunArgs.frameRequestIndex →
      w.isPlaybackRunning = false ∧
      w.refreshAndContinueRender env fuel forcePreview false callerIsWorker = some
        { w with
          lastRequestedRunArgs := (w.recordRunArgs env 1 false false w.currentRunArgs.forward
            true forcePreview).lastRequestedRunArgs
          startCount := w.startCount + 1 } ∧
      ((w.abortRendering false callerIsWorker).2.abortRequested = w.abortRequested + 1 ∧
        ∀ w2, w.refreshAndContinueRender env fuel forcePreview true callerIsWorker = some w2 →
          w2.abortRequested = w.abortRequested + 1)) ∧
    (w.isWorking = false →
      w.refreshAndContinueRender env fuel forcePreview abortPreviousRender callerIsWorker = some
        { w with
          lastRequestedRunArgs := (w.recordRunArgs env 1 false false w.currentRunArgs.forward
            true forcePreview).lastRequestedRunArgs
          startCount := w.startCount + 1 }) ∧
    (w.isPlaybackRunning = true →
      w.refreshAndContinueRender env fuel forcePreview abortPreviousRender callerIsWorker
        = some w) := by
  have hrender : ∀ x : VideoEngine, x.threadStarted = true → x.hasQuit = false →
      x.render env fuel 1 false false x.currentRunArgs.forward true forcePreview = some
        { x with
          lastRequestedRunArgs := (x.recordRunArgs env 1 false false x.currentRunArgs.forward
            true forcePreview).lastRequestedRunArgs
          startCount := x.startCount + 1 } :=
    fun x h1 h2 => renderCall_started env fuel ⟨1, false, false, x.currentRunArgs.forward, true,
      forcePreview⟩ x hmt h1 h2
  refine ⟨?_, ?_, ?_⟩
  · intro hwork hrem hidx
    have hnot : w.isPlaybackRunning = false := by
      rw [← Bool.not_eq_true, isPlaybackRunning_eq]
      rintro ⟨_, h | ⟨_, h⟩⟩
      · omega
      · omega
    have hab : (w.abortRendering false callerIsWorker).2.abortRequested
        = w.abortRequested + 1 := by
      unfold VideoEngine.abortRendering
      rw [if_neg (by rw [hwork]; decide)]
      dsimp only
      split_ifs <;> rfl
    refine ⟨hnot, ?_, hab, ?_⟩
    · unfold VideoEngine.refreshAndContinueRender
      rw [if_pos (by rw [hnot]; rfl)]
      exact hrender w hstarted hhas
    · intro w2 h2
      unfold VideoEngine.refreshAndContinueRender at h2
      rw [if_pos (by rw [hnot]; rfl)] at h2
      dsimp only at h2
      rw [if_pos rfl] at h2
      obtain ⟨tr, a, he⟩ := abortRendering_frame false callerIsWorker w
      rw [hrender _ (by rw [he]; exact hstarted) (by rw [he]; exact hhas)] at h2
      rw [← Option.some.inj h2]
      exact hab
  · intro hidle
    have hnot : w.isPlaybackRunning = false := by
      unfold VideoEngine.isPlaybackRunning
      rw [hidle, Bool.false_and]
    unfold VideoEngine.refreshAndContinueRender
    rw [if_pos (by rw [hnot]; rfl)]
    dsimp only
    rw [abortRendering_idle false callerIsWorker w hidle]
    have : (if abortPreviousRender = true then w else w) = w := by split_ifs <;> rfl
    rw [this]
    exact hrender w hstarted hhas
  · intro hrun
    unfold VideoEngine.refreshAndContinueRender
    rw [if_neg (by rw [hrun]; decide)]

theorem refreshAndContinueRender_mid_run_witness :
    ((exampleEnv true).numberOfThreads ≠ -1 ∧ (exampleMidRun 3 1).threadStarted = true ∧
      (exampleMidRun 3 1).hasQuit = false ∧ (exampleMidRun 3 1).isWorking = true ∧
      (exampleMidRun 3 1).currentRunArgs.frameRequestsCount = 2 ∧
      (exampleMidRun 3 1).currentRunArgs.frameRequestIndex = 1 ∧
      frameRenderedEvents (exampleMidRun 3 1).trace = [10] ∧
      frameRenderedEvents (exampleMidRun 3 5).trace = [10, 1, 2]) ∧
    (exampleMidRun 3 1).isPlaybackRunning = false ∧
    (exampleMidRun 3 1).refreshAndContinueRender (exampleEnv true) 5 false false false = some
      { exampleMidRun 3 1 with
        lastRequestedRunArgs := ((exampleMidRun 3 1).recordRunArgs (exampleEnv true) 1 false
          false (exampleMidRun 3 1).currentRunArgs.forward true false).lastRequestedRunArgs
        startCount := (exampleMidRun 3 1).startCount + 1 } ∧
    (((exampleMidRun 3 1).abortRendering false false).2.abortRequested
        = (exampleMidRun 3 1).abortRequested + 1 ∧
      ∀ w2, (exampleMidRun 3 1).refreshAndContinueRender (exampleEnv true) 5 false true false
        = some w2 → w2.abortRequested = (exampleMidRun 3 1).abortRequested + 1) :=
  ⟨⟨by decide, by decide, by decide, by decide, by decide, by decide, by decide, by decide⟩,
    (refreshAndContinueRender_mid_run (exampleEnv true) 5 false false false (exampleMidRun 3 1)
      (by decide) (by decide) (by decide)).1 (by decide) (by decide) (by decide)⟩

theorem example_refresh_mid_run :
    ((exampleMidRun 3 1).refreshAndContinueRender (exampleEnv true) 5 false false false).map
      (fun w => (w.lastRequestedRunArgs.frameRequestsCount, w.lastRequestedRunArgs.sameFrame,
        w.startCount, w.abortRequested)) = some (1, true, 1, 0) ∧
    ((exampleMidRun 3 1).refreshAndContinueRender (exampleEnv true) 5 false true false).map
      (fun w => (w.lastRequestedRunArgs.frameRequestsCount, w.startCount, w.abortRequested,
        frameRenderedEvents (w.iterateUpTo (exampleEnv true) false 5).trace))
      = some (1, 1, 1, [10]) := by
  decide

/-- C19 (the code diverges from the claim): when `updateTreeAndContinueRender`
interrupts a run (`isPlaybackRunning`), the render it reissues has
`refreshTree` and `seekTimeline` set, `sameFrame` unset and the direction of
the run; for an unbounded run its frame count is -1; for a bounded run it is
`_frameRequestsCount - _frameRequestIndex`, the remaining count minus the
number of frames produced.  In a run of `N` requested frames of which `k` have
been produced (remaining count `N - k`, index `k`) that is `N - 2 * k`, not the
`N - k` frames that remain. -/
theorem updateTreeAndContinueRender_reissued_count (env : Env) (fuel : Nat)
    (callerIsWorker : Bool) (afterWait : VideoEngine → VideoEngine) (w w2 : VideoEngine)
    (hrun : w.isPlaybackRunning = true)
    (h : w.updateTreeAndContinueRender env fuel callerIsWorker afterWait = some w2) :
    w2.lastRequestedRunArgs.refreshTree = true ∧
    w2.lastRequestedRunArgs.seekTimeline = true ∧
    w2.lastRequestedRunArgs.sameFrame = false ∧
    w2.lastRequestedRunArgs.forward =
      (if (w.abortRendering true callerIsWorker).1 = true
        then afterWait (w.abortRendering true callerIsWorker).2
        else (w.abortRendering true callerIsWorker).2).currentRunArgs.forward ∧
    (w.currentRunArgs.frameRequestsCount = -1 →
      w2.lastRequestedRunArgs.frameRequestsCount = -1) ∧
    (w.currentRunArgs.frameRequestsCount ≠ -1 →
      w2.lastRequestedRunArgs.frameRequestsCount =
        w.currentRunArgs.frameRequestsCount - w.currentRunArgs.frameRequestIndex) ∧
    ∀ N k : Int, w.currentRunArgs.frameRequestsCount = N - k →
      w.currentRunArgs.frameRequestIndex = k → 1 ≤ k → k ≤ N →
      w2.lastRequestedRunArgs.frameRequestsCount = N - 2 * k ∧
        w2.lastRequestedRunArgs.frameRequestsCount ≠ N - k := by
  unfold VideoEngine.updateTreeAndContinueRender at h
  rw [if_pos hrun] at h
  dsimp only at h
  have hl := render_lastRequestedRunArgs env fuel _ _ _ _ _ _ _ w2 h
  have hcount : w2.lastRequestedRunArgs.frameRequestsCount =
      (if w.currentRunArgs.frameRequestsCount = -1 then -1
        else w.currentRunArgs.frameRequestsCount - w.currentRunArgs.frameRequestIndex) := by
    rw [hl]; rfl
  have hwork : w.currentRunArgs.frameRequestsCount = -1 ∨
      (w.currentRunArgs.frameRequestsCount > 1 ∧
        w.currentRunArgs.frameRequestIndex < w.currentRunArgs.frameRequestsCount - 1) :=
    ((isPlaybackRunning_eq w).mp hrun).2
  refine ⟨?_, ?_, ?_, ?_, ?_, ?_, ?_⟩
  · rw [hl]; unfold VideoEngine.recordRunArgs; simp
  · rw [hl]; rfl
  · rw [hl]; rfl
  · rw [hl]; rfl
  · intro hu
    rw [hcount, if_pos hu]
  · intro hb
    rw [hcount, if_neg hb]
  · intro N k hN hk hk1 hkN
    have hb : w.currentRunArgs.frameRequestsCount ≠ -1 := by
      rcases hwork with h1 | ⟨h1, h2⟩
      · omega
      · omega
    rw [hcount, if_neg hb, hN, hk]
    constructor <;> omega

theorem updateTreeAndContinueRender_reissued_count_witness :
    ((exampleMidRun 5 1).isPlaybackRunning = true ∧
      (exampleMidRun 5 1).currentRunArgs.frameRequestsCount = 5 - 1 ∧
      (exampleMidRun 5 1).currentRunArgs.frameRequestIndex = 1 ∧
      frameRenderedEvents (exampleMidRun 5 1).trace = [10] ∧
      (exampleMidRun 5 1).updateTreeAndContinueRender (exampleEnv true) 5 false
          (fun x => (x.stopEngine (exampleEnv true)).2)
        = some (((exampleMidRun 5 1).updateTreeAndContinueRender (exampleEnv true) 5 false
          (fun x => (x.stopEngine (exampleEnv true)).2)).getD exampleEngine)) ∧
    (((exampleMidRun 5 1).updateTreeAndContinueRender (exampleEnv true) 5 false
        (fun x => (x.stopEngine (exampleEnv true)).2)).getD
          exampleEngine).lastRequestedRunArgs.frameRequestsCount = 5 - 2 * 1 ∧
    (((exampleMidRun 5 1).updateTreeAndContinueRender (exampleEnv true) 5 false
        (fun x => (x.stopEngine (exampleEnv true)).2)).getD
          exampleEngine).lastRequestedRunArgs.frameRequestsCount ≠ 5 - 1 :=
  ⟨⟨by decide, by decide, by decide, by decide, by decide⟩,
    (updateTreeAndContinueRender_reissued_count (exampleEnv true) 5 false
      (fun x => (x.stopEngine (exampleEnv true)).2) (exampleMidRun 5 1) _ (by decide)
      (by decide)).2.2.2.2.2.2 5 1 (by decide) (by decide) (by decide) (by decide)⟩

theorem example_update_tree_mid_run :
    ((exampleMidRun 5 1).updateTreeAndContinueRender (exampleEnv true) 5 false
        (fun x => (x.stopEngine (exampleEnv true)).2)).map
      (fun w => (w.lastRequestedRunArgs.frameRequestsCount, w.lastRequestedRunArgs.refreshTree,
        w.lastRequestedRunArgs.seekTimeline, w.lastRequestedRunArgs.sameFrame,
        w.lastRequestedRunArgs.forward)) = some (3, true, true, false, true) := by
  decide

/-! ## Same-frame runs on a viewer -/

theorem iterateKernel_eq_iterateUpTo (env : Env) (st : Bool) :
    ∀ (fuel : Nat) (w w2 : VideoEngine), w.iterateKernel env st fuel = some w2 →
      w.iterateUpTo env st fuel = w2 := by
  intro fuel
  induction fuel with
  | zero => intro w w2 h; simp [VideoEngine.iterateKernel] at h
  | succ fuel ih =>
    intro w w2 h
    rw [VideoEngine.iterateKernel] at h
    rw [VideoEngine.iterateUpTo]
    cases hstep : w.iterateOnce env st with
    | done w3 =>
      rw [hstep] at h
      exact Option.some.inj h
    | next w3 =>
      rw [hstep] at h
      exact ih w3 w2 h

theorem setCurrentFrame_sameFrame_viewer (env : Env) (f l : Int) (w : VideoEngine)
    (hv : env.outputIsViewer = true) (hsame : w.currentRunArgs.sameFrame = true) :
    w.setCurrentFrame env f l =
      .frame (if w.currentRunArgs.recursiveCall = true then 0 else w.timeline.currentFrame) w := by
  unfold VideoEngine.setCurrentFrame
  cases hrec : w.currentRunArgs.recursiveCall <;> simp [hv, hsame]

/-- A pass of a same-frame run on a viewer: the frame chosen is the timeline's
current frame in the first pass and frame 0 in the later ones, and the cursor
of the timeline is not moved. -/
theorem sameFrame_pass (env : Env) (st : Bool) (w : VideoEngine)
    (hv : env.outputIsViewer = true) (hsame : w.currentRunArgs.sameFrame = true) :
    ∃ w3, w3.timeline.currentFrame = w.timeline.currentFrame ∧
      w3.currentRunArgs.sameFrame = true ∧
      ((w.iterateOnce env st = .done w3 ∧
          (frameRenderedEvents w3.trace = frameRenderedEvents w.trace ∨
            frameRenderedEvents w3.trace = frameRenderedEvents w.trace ++
              [if w.currentRunArgs.recursiveCall = true then 0 else w.timeline.currentFrame])) ∨
        (w.iterateOnce env st = .next w3 ∧ w3.currentRunArgs.recursiveCall = true ∧
          frameRenderedEvents w3.trace = frameRenderedEvents w.trace ++
            [if w.currentRunArgs.recursiveCall = true then 0 else w.timeline.currentFrame])) := by
  by_cases hab : w.abortRequested > 0
  · exact ⟨w, rfl, hsame, Or.inl ⟨iterateOnce_aborted env st w hab, Or.inl rfl⟩⟩
  · obtain ⟨f, l, tl, h1, htl, _⟩ := updateTimelineRange_frame env w
    have hargs : (w.updateTimelineRange env).currentRunArgs = w.currentRunArgs := by rw [h1]
    have hcur : (w.updateTimelineRange env).timeline.currentFrame = w.timeline.currentFrame := by
      rw [h1]; exact htl
    have htr : (w.updateTimelineRange env).trace = w.trace := by rw [h1]
    have hset := setCurrentFrame_sameFrame_viewer env
      ((w.updateTimelineRange env).passFirstFrame env)
      ((w.updateTimelineRange env).passLastFrame env) (w.updateTimelineRange env) hv
      (by rw [hargs]; exact hsame)
    rw [hargs, hcur] at hset
    cases hstop : (w.updateTimelineRange env).mustStop env
        ((w.updateTimelineRange env).passFirstFrame env)
        ((w.updateTimelineRange env).passLastFrame env) with
    | true =>
      refine ⟨w.updateTimelineRange env, hcur, by rw [hargs]; exact hsame, Or.inl ⟨?_, Or.inl ?_⟩⟩
      · exact iterateOnce_mustStop env st w _ _ hab hset hstop
      · rw [htr]
    | false =>
      have hit := iterateOnce_render env st w _ _ hab hset hstop
      obtain ⟨es, n, hes, hres⟩ := renderAndCount_any env st
        (if w.currentRunArgs.recursiveCall = true then 0 else w.timeline.currentFrame)
        (w.updateTimelineRange env)
      rcases hres with hdone | ⟨hes1, hnext⟩
      · refine ⟨_, ?_, ?_, Or.inl ⟨by rw [hit, hdone], ?_⟩⟩
        · exact hcur
        · show (w.updateTimelineRange env).currentRunArgs.sameFrame = true
          rw [hargs]; exact hsame
        · show frameRenderedEvents ((w.updateTimelineRange env).trace ++ es) = _ ∨
            frameRenderedEvents ((w.updateTimelineRange env).trace ++ es) = _
          rw [frameRenderedEvents_append, htr]
          rcases hes with h | h
          · left; rw [h, List.append_nil]
          · right; rw [h]
      · obtain ⟨cnt, hu⟩ := updateCounters_frame
          ({ w.updateTimelineRange env with
              trace := (w.updateTimelineRange env).trace ++ es, timerFrameCount := n } :
            VideoEngine)
        refine ⟨_, ?_, ?_, Or.inr ⟨by rw [hit, hnext], ?_, ?_⟩⟩
        · rw [hu]; exact hcur
        · rw [hu]
          show (w.updateTimelineRange env).currentRunArgs.sameFrame = true
          rw [hargs]; exact hsame
        · rw [hu]
        · rw [hu]
          show frameRenderedEvents ((w.updateTimelineRange env).trace ++ es) = _
          rw [frameRenderedEvents_append, htr, hes1]

/-- The frames of a same-frame run on a viewer: the timeline's current frame
first, then frame 0 in every later pass; the cursor stays where it was. -/
theorem sameFrame_frames (env : Env) (st : Bool) (hv : env.outputIsViewer = true) :
    ∀ (n : Nat) (w : VideoEngine), w.currentRunArgs.sameFrame = true →
      (w.iterateUpTo env st n).timeline.currentFrame = w.timeline.currentFrame ∧
      ∃ ts, frameRenderedEvents (w.iterateUpTo env st n).trace
          = frameRenderedEvents w.trace ++ ts ∧
        (w.currentRunArgs.recursiveCall = true → ∃ k, ts = List.replicate k 0) ∧
        (w.currentRunArgs.recursiveCall = false →
          ts = [] ∨ ∃ k, ts = w.timeline.currentFrame :: List.replicate k 0) := by
  intro n
  induction n with
  | zero =>
    intro w _
    exact ⟨rfl, [], by simp [VideoEngine.iterateUpTo], fun _ => ⟨0, rfl⟩, fun _ => Or.inl rfl⟩
  | succ n ih =>
    intro w hsame
    obtain ⟨w3, hcur, hsame3, hstep⟩ := sameFrame_pass env st w hv hsame
    rcases hstep with ⟨hdone, hfr⟩ | ⟨hnext, hrec3, hfr⟩
    · rw [VideoEngine.iterateUpTo, hdone]
      refine ⟨hcur, ?_⟩
      rcases hfr with h | h
      · exact ⟨[], by rw [h, List.append_nil], fun _ => ⟨0, rfl⟩, fun _ => Or.inl rfl⟩
      · refine ⟨_, h, ?_, ?_⟩
        · intro hr
          rw [if_pos hr]
          exact ⟨1, rfl⟩
        · intro hr
          rw [if_neg (by rw [hr]; decide)]
          exact Or.inr ⟨0, rfl⟩
    · rw [VideoEngine.iterateUpTo, hnext]
      obtain ⟨hcur2, ts2, h2, hk2, -⟩ := ih w3 hsame3
      obtain ⟨k, hk⟩ := hk2 hrec3
      refine ⟨by dsimp only; rw [hcur2, hcur],
        (if w.currentRunArgs.recursiveCall = true then 0 else w.timeline.currentFrame) :: ts2,
        ?_, ?_, ?_⟩
      · dsimp only
        rw [h2, hfr, List.append_assoc]
        rfl
      · intro hr
        rw [if_pos hr, hk]
        exact ⟨k + 1, rfl⟩
      · intro hr
        rw [if_neg (by rw [hr]; decide), hk]
        exact Or.inr ⟨k, rfl⟩

/-- C21: a run on a viewer started by `render` with `sameFrame` set.  Whatever
the frame count, the cursor of the timeline is never moved, as claimed.  The
frame announced by the first pass is the timeline's current frame, as claimed;
every later pass announces frame 0 instead, because with `_recursiveCall` and
`_sameFrame` both set no branch of "set the current frame" assigns the local
`currentFrame`, which keeps its initialiser 0.  With `frameCount == 1`, no
abort and a frame computation that succeeds, `iterateKernel` returns having
announced exactly one frame, the timeline's current frame. -/
theorem sameFrame_run_keeps_cursor (env : Env) (singleThreaded : Bool) (w0 w : VideoEngine)
    (frameCount : Int) (seekTimeline refreshTree forward forcePreview : Bool)
    (hv : env.outputIsViewer = true)
    (hstart : (w0.recordRunArgs env frameCount seekTimeline refreshTree forward true
      forcePreview).startEngine env = some (true, w)) :
    (∀ n, (w.iterateUpTo env singleThreaded n).timeline.currentFrame
      = w.timeline.currentFrame) ∧
    (∀ fuel w2, w.iterateKernel env singleThreaded fuel = some w2 →
      w2.timeline.currentFrame = w.timeline.currentFrame) ∧
    (∀ n, ∃ ts, frameRenderedEvents (w.iterateUpTo env singleThreaded n).trace
        = frameRenderedEvents w.trace ++ ts ∧
      (ts = [] ∨ ∃ k, ts = w.timeline.currentFrame :: List.replicate k 0)) ∧
    (frameCount = 1 → env.autoRunAborted = false →
      (∀ t w2, VideoEngine.frameSucceeds env singleThreaded t w2) →
      ∀ fuel, 2 ≤ fuel → ∃ w2, w.iterateKernel env singleThreaded fuel = some w2 ∧
        frameRenderedEvents w2.trace = frameRenderedEvents w.trace ++ [w.timeline.currentFrame] ∧
        w2.timeline.currentFrame = w.timeline.currentFrame) := by
  obtain ⟨ha0, t, f, l, o, tr, tm, hw⟩ := startEngine_true_frame env _ w hstart
  have hab : ¬ w.abortRequested > 0 := by rw [hw]; exact ha0
  have hrec : w.currentRunArgs.recursiveCall = false := by rw [hw]; rfl
  have hcount : w.currentRunArgs.frameRequestsCount = frameCount := by rw [hw]; rfl
  have hindex : w.currentRunArgs.frameRequestIndex = 0 := by rw [hw]; rfl
  have hsame : w.currentRunArgs.sameFrame = true := by rw [hw]; rfl
  have hcursor : ∀ fuel w2, w.iterateKernel env singleThreaded fuel = some w2 →
      w2.timeline.currentFrame = w.timeline.currentFrame := by
    intro fuel w2 h
    rw [← iterateKernel_eq_iterateUpTo env singleThreaded fuel w w2 h]
    exact (sameFrame_frames env singleThreaded hv fuel w hsame).1
  refine ⟨fun n => (sameFrame_frames env singleThreaded hv n w hsame).1, hcursor, ?_, ?_⟩
  · intro n
    obtain ⟨_, ts, h1, _, h2⟩ := sameFrame_frames env singleThreaded hv n w hsame
    exact ⟨ts, h1, h2 hrec⟩
  · intro hone hauto hok fuel hfuel
    rw [hone] at hcount
    obtain ⟨f1, l1, tl, h1, htl, _⟩ := updateTimelineRange_frame env w
    have hargs : (w.updateTimelineRange env).currentRunArgs = w.currentRunArgs := by rw [h1]
    have hcur : (w.updateTimelineRange env).timeline.currentFrame = w.timeline.currentFrame := by
      rw [h1]; exact htl
    have htr : (w.updateTimelineRange env).trace = w.trace := by rw [h1]
    have hset := setCurrentFrame_sameFrame_viewer env
      ((w.updateTimelineRange env).passFirstFrame env)
      ((w.updateTimelineRange env).passLastFrame env) (w.updateTimelineRange env) hv
      (by rw [hargs]; exact hsame)
    rw [hargs, hcur, if_neg (by rw [hrec]; decide)] at hset
    have hstop : (w.updateTimelineRange env).mustStop env
        ((w.updateTimelineRange env).passFirstFrame env)
        ((w.updateTimelineRange env).passLastFrame env) = false := by
      apply mustStop_eq_false _ _ _ _ (by rw [h1]; exact hab) hauto
        (by rw [hargs, hcount]; decide)
      rintro ⟨_, hr, _⟩
      rw [hargs, hrec] at hr
      exact Bool.false_ne_true hr
    have hit := iterateOnce_render env singleThreaded w _ _ hab hset hstop
    obtain ⟨es, n, hes, hrc⟩ := renderAndCount_ok env singleThreaded w.timeline.currentFrame
      (w.updateTimelineRange env) (hok _ _)
    obtain ⟨k, rfl⟩ : ∃ k, fuel = k + 2 := ⟨fuel - 2, by omega⟩
    have hfr : frameRenderedEvents ((w.updateTimelineRange env).trace ++ es)
        = frameRenderedEvents w.trace ++ [w.timeline.currentFrame] := by
      rw [frameRenderedEvents_append, htr, hes]
    have hret : ∃ w2, w.iterateKernel env singleThreaded (k + 2) = some w2 ∧
        frameRenderedEvents w2.trace
          = frameRenderedEvents w.trace ++ [w.timeline.currentFrame] := by
      rw [VideoEngine.iterateKernel, hit, hrc]
      split_ifs
      · exact ⟨_, rfl, hfr⟩
      · have hzero : (({ w.updateTimelineRange env with
            trace := (w.updateTimelineRange env).trace ++ es, timerFrameCount := n } :
            VideoEngine).updateCounters).currentRunArgs.frameRequestsCount = 0 := by
          simp [VideoEngine.updateCounters, hargs, hcount, hindex, hsame]
        obtain ⟨w5, hdone, hfr5⟩ := iterateOnce_count_zero env singleThreaded _ hzero
        obtain ⟨cnt, hu⟩ := updateCounters_frame
          ({ w.updateTimelineRange env with
              trace := (w.updateTimelineRange env).trace ++ es, timerFrameCount := n } :
            VideoEngine)
        dsimp only
        rw [VideoEngine.iterateKernel, hdone]
        refine ⟨w5, rfl, ?_⟩
        rw [hfr5, hu]
        exact hfr
    obtain ⟨w2, hk, hfr2⟩ := hret
    exact ⟨w2, hk, hfr2, hcursor _ w2 hk⟩

theorem sameFrame_run_keeps_cursor_witness :
    ((exampleEnv true).outputIsViewer = true ∧
      (exampleEngine.recordRunArgs (exampleEnv true) 1 true false true true
        false).startEngine (exampleEnv true) = some (true, exampleStarted true 1 true) ∧
      (exampleEnv true).autoRunAborted = false ∧
      (∀ t w2, VideoEngine.frameSucceeds (exampleEnv true) false t w2) ∧ 2 ≤ 2) ∧
    ∃ w2, (exampleStarted true 1 true).iterateKernel (exampleEnv true) false 2 = some w2 ∧
      frameRenderedEvents w2.trace = frameRenderedEvents (exampleStarted true 1 true).trace ++
        [(exampleStarted true 1 true).timeline.currentFrame] ∧
      w2.timeline.currentFrame = (exampleStarted true 1 true).timeline.currentFrame :=
  ⟨⟨by decide, by decide, by decide, exampleEnv_frameSucceeds true false, by decide⟩,
    (sameFrame_run_keeps_cursor (exampleEnv true) false exampleEngine (exampleStarted true 1 true)
      1 true false true false (by decide) (by decide)).2.2.2 rfl (by decide)
      (exampleEnv_frameSucceeds true false) 2 (by decide)⟩

/-- C21 as stated fails for a frame count of 2: the second frame handed to the
frame computation and announced is frame 0, not the timeline's current frame
10. -/
theorem sameFrame_run_frame_zero_counterexample :
    ((exampleEnv true).outputIsViewer = true ∧
      (exampleEngine.recordRunArgs (exampleEnv true) 2 true false true true
        false).startEngine (exampleEnv true) = some (true, exampleStarted true 2 true) ∧
      (exampleStarted true 2 true).timeline.currentFrame = 10 ∧
      (exampleStarted true 2 true).trace = []) ∧
    ((exampleStarted true 2 true).iterateKernel (exampleEnv true) false 3).map
      (fun w => (w.trace, w.timeline.currentFrame))
      = some ([.renderViewer 10 false true, .frameRendered 10,
          .renderViewer 0 false false, .frameRendered 0], 10) ∧
    ¬ ∀ t ∈ frameRenderedEvents (((exampleStarted true 2 true).iterateKernel (exampleEnv true)
        false 3).getD exampleEngine).trace,
      t = (exampleStarted true 2 true).timeline.currentFrame := by
  decide

/-! ## A timeline of a single frame -/

theorem updateTimelineRange_timeline (env : Env) (w : VideoEngine)
    (hv : env.outputIsViewer = true) (ha : ¬ w.abortRequested > 0) :
    (w.updateTimelineRange env).timeline =
      if (env.isFrameRangeLocked && decide (w.timeline.lastSeekCaller ≠ some w.tree.output))
          = true then
        w.timeline.setFrameRange
          (if env.declaredFrameRange.1 = INT_MIN then w.timeline.leftBound
            else env.declaredFrameRange.1)
          (if env.declaredFrameRange.2 = INT_MAX then w.timeline.rightBound
            else env.declaredFrameRange.2)
      else w.timeline := by
  unfold VideoEngine.updateTimelineRange VideoEngine.getFrameRange VideoEngine.getFrameRangeOf
  rw [if_pos hv, if_neg ha]
  dsimp only
  split_ifs <;> rfl

/-- The start of a pass leaves the timeline as the start of the pass before
left it, when nothing else has touched the timeline in between. -/
theorem updateTimelineRange_again (env : Env) (w x : VideoEngine)
    (hv : env.outputIsViewer = true)
    (htl : x.timeline = (w.updateTimelineRange env).timeline)
    (hout : x.tree.output = w.tree.output)
    (ha : ¬ w.abortRequested > 0) (hax : ¬ x.abortRequested > 0) :
    (x.updateTimelineRange env).timeline = x.timeline := by
  rw [updateTimelineRange_timeline env x hv hax]
  rw [updateTimelineRange_timeline env w hv ha] at htl
  by_cases hc : (env.isFrameRangeLocked &&
      decide (w.timeline.lastSeekCaller ≠ some w.tree.output)) = true
  · rw [if_pos hc] at htl
    have hseek : x.timeline.lastSeekCaller = w.timeline.lastSeekCaller := by rw [htl]; rfl
    rw [hseek, hout, if_pos hc, htl]
    unfold TimeLine.setFrameRange
    dsimp only
    congr 1 <;> split_ifs <;> rfl
  · rw [if_neg hc] at htl
    rw [htl, hout, if_neg hc]

/-- The second pass of an unbounded run on a viewer whose timeline holds a
single frame returns without announcing a frame, whatever the playback mode,
the direction and the flags of the run. -/
theorem singleFrameRange_second_pass (env : Env) (st : Bool) (w : VideoEngine)
    (hv : env.outputIsViewer = true) (htree : w.tree.isViewer = true)
    (hrec : w.currentRunArgs.recursiveCall = true)
    (hcount : w.currentRunArgs.frameRequestsCount = -1)
    (hindex : w.currentRunArgs.frameRequestIndex = 1)
    (hrange : (w.updateTimelineRange env).timeline.leftBound
      = (w.updateTimelineRange env).timeline.rightBound) :
    ∃ w2, w.iterateOnce env st = .done w2 ∧
      frameRenderedEvents w2.trace = frameRenderedEvents w.trace := by
  by_cases hab : w.abortRequested > 0
  · exact ⟨w, iterateOnce_aborted env st w hab, rfl⟩
  · obtain ⟨f, l, tl, h1, _, _⟩ := updateTimelineRange_frame env w
    have hfl : (w.updateTimelineRange env).passFirstFrame env
        = (w.updateTimelineRange env).passLastFrame env := by
      unfold VideoEngine.passFirstFrame VideoEngine.passLastFrame
      rw [if_pos hv, if_pos hv]
      exact hrange
    cases hset : (w.updateTimelineRange env).setCurrentFrame env
        ((w.updateTimelineRange env).passFirstFrame env)
        ((w.updateTimelineRange env).passLastFrame env) with
    | stop w2 =>
      obtain ⟨tl2, o, fwd, h2⟩ := setCurrentFrame_state_eq env _ _ _ w2 (by rw [hset]; rfl)
      refine ⟨w2, iterateOnce_stop env st w w2 hab hset, ?_⟩
      rw [h2, h1]
    | frame c w2 =>
      obtain ⟨tl2, o, fwd, h2⟩ := setCurrentFrame_state_eq env _ _ _ w2 (by rw [hset]; rfl)
      refine ⟨w2, iterateOnce_mustStop env st w w2 c hab hset ?_, ?_⟩
      · unfold VideoEngine.mustStop
        have e1 : w2.tree.isViewer = true := by rw [h2, h1]; exact htree
        have e2 : w2.currentRunArgs.recursiveCall = true := by rw [h2, h1]; exact hrec
        have e3 : w2.currentRunArgs.frameRequestsCount = -1 := by rw [h2, h1]; exact hcount
        have e4 : w2.currentRunArgs.frameRequestIndex = 1 := by rw [h2, h1]; exact hindex
        rw [e1, e2, e3, e4, hfl]
        simp
      · rw [h2, h1]

/-- C22: on a viewer whose timeline, as the passes read it, holds a single
frame (left bound equal to right bound), an unbounded run (`frameCount == -1`)
with no abort and a frame computation that succeeds returns after at most two
passes having announced exactly one frame, in every playback mode, in either
direction and whatever `sameFrame` and `seekTimeline`. -/
theorem singleFrameRange_renders_once (env : Env) (singleThreaded : Bool)
    (w0 w : VideoEngine) (seekTimeline refreshTree forward sameFrame forcePreview : Bool)
    (hv : env.outputIsViewer = true)
    (hstart : (w0.recordRunArgs env (-1) seekTimeline refreshTree forward sameFrame
      forcePreview).startEngine env = some (true, w))
    (htree : w.tree.isViewer = true)
    (hrange : (w.updateTimelineRange env).timeline.leftBound
      = (w.updateTimelineRange env).timeline.rightBound)
    (hauto : env.autoRunAborted = false)
    (hok : ∀ t w2, VideoEngine.frameSucceeds env singleThreaded t w2) :
    ∀ fuel, 2 ≤ fuel → ∃ w2 t, w.iterateKernel env singleThreaded fuel = some w2 ∧
      frameRenderedEvents w2.trace = frameRenderedEvents w.trace ++ [t] := by
  obtain ⟨ha0, t, f, l, o, tr, tm, hw⟩ := startEngine_true_frame env _ w hstart
  have hab : ¬ w.abortRequested > 0 := by rw [hw]; exact ha0
  have hrec : w.currentRunArgs.recursiveCall = false := by rw [hw]; rfl
  have hcount : w.currentRunArgs.frameRequestsCount = -1 := by rw [hw]; rfl
  have hindex : w.currentRunArgs.frameRequestIndex = 0 := by rw [hw]; rfl
  obtain ⟨f1, l1, tl, h1, _, _⟩ := updateTimelineRange_frame env w
  obtain ⟨c, o1, hset⟩ := setCurrentFrame_first_pass env
    ((w.updateTimelineRange env).passFirstFrame env)
    ((w.updateTimelineRange env).passLastFrame env) (w.updateTimelineRange env)
    (by rw [h1]; exact hrec)
  have hstop : ({ w.updateTimelineRange env with output := o1 } : VideoEngine).mustStop env
      ((w.updateTimelineRange env).passFirstFrame env)
      ((w.updateTimelineRange env).passLastFrame env) = false := by
    apply mustStop_eq_false _ _ _ _ (by rw [h1]; exact hab) hauto
      (by rw [h1]; show w.currentRunArgs.frameRequestsCount ≠ 0; rw [hcount]; decide)
    rintro ⟨_, hr, _⟩
    rw [h1] at hr
    rw [hrec] at hr
    exact Bool.false_ne_true hr
  have hit := iterateOnce_render env singleThreaded w _ c hab hset hstop
  obtain ⟨es, n, hes, hrc⟩ := renderAndCount_ok env singleThreaded c _ (hok c _)
  intro fuel hfuel
  obtain ⟨k, rfl⟩ : ∃ k, fuel = k + 2 := ⟨fuel - 2, by omega⟩
  have hfr : frameRenderedEvents (({ w.updateTimelineRange env with output := o1 } :
      VideoEngine).trace ++ es) = frameRenderedEvents w.trace ++ [c] := by
    rw [frameRenderedEvents_append, hes, h1]
  rw [VideoEngine.iterateKernel, hit, hrc]
  split_ifs
  · exact ⟨_, c, rfl, hfr⟩
  · obtain ⟨cnt, hu⟩ := updateCounters_frame
      ({ ({ w.updateTimelineRange env with output := o1 } : VideoEngine) with
          trace := ({ w.updateTimelineRange env with output := o1 } : VideoEngine).trace ++ es,
          timerFrameCount := n } : VideoEngine)
    have hunb := updateCounters_unbounded
      ({ ({ w.updateTimelineRange env with output := o1 } : VideoEngine) with
          trace := ({ w.updateTimelineRange env with output := o1 } : VideoEngine).trace ++ es,
          timerFrameCount := n } : VideoEngine)
      (by show (w.updateTimelineRange env).currentRunArgs.frameRequestsCount = -1
          rw [h1]; exact hcount)
    have hagain := updateTimelineRange_again env w
      (({ ({ w.updateTimelineRange env with output := o1 } : VideoEngine) with
          trace := ({ w.updateTimelineRange env with output := o1 } : VideoEngine).trace ++ es,
          timerFrameCount := n } : VideoEngine).updateCounters) hv
      (by rw [hu]) (by rw [hu, h1]) hab (by rw [hu, h1]; exact hab)
    obtain ⟨w5, hdone, hfr5⟩ := singleFrameRange_second_pass env singleThreaded
      (({ ({ w.updateTimelineRange env with output := o1 } : VideoEngine) with
          trace := ({ w.updateTimelineRange env with output := o1 } : VideoEngine).trace ++ es,
          timerFrameCount := n } : VideoEngine).updateCounters) hv
      (by rw [hu, h1]; exact htree) (by rw [hu])
      (by rw [hunb]; show (w.updateTimelineRange env).currentRunArgs.frameRequestsCount = -1
          rw [h1]; exact hcount)
      (by rw [hunb]
          show (w.updateTimelineRange env).currentRunArgs.frameRequestIndex + 1 = 1
          rw [h1]
          show w.currentRunArgs.frameRequestIndex + 1 = 1
          rw [hindex]; rfl)
      (by rw [hagain, hu]; exact hrange)
    dsimp only
    rw [VideoEngine.iterateKernel, hdone]
    refine ⟨w5, c, rfl, ?_⟩
    rw [hfr5, hu]
    exact hfr

theorem singleFrameRange_renders_once_witness :
    ((exampleEnv true).outputIsViewer = true ∧
      (exampleSingle.recordRunArgs (exampleEnv true) (-1) true false true false
        false).startEngine (exampleEnv true) = some (true, exampleSingleStarted) ∧
      exampleSingleStarted.tree.isViewer = true ∧
      (exampleSingleStarted.updateTimelineRange (exampleEnv true)).timeline.leftBound
        = (exampleSingleStarted.updateTimelineRange (exampleEnv true)).timeline.rightBound ∧
      (exampleEnv true).autoRunAborted = false ∧
      (∀ t w2, VideoEngine.frameSucceeds (exampleEnv true) false t w2) ∧ 2 ≤ 3) ∧
    ∃ w2 t, exampleSingleStarted.iterateKernel (exampleEnv true) false 3 = some w2 ∧
      frameRenderedEvents w2.trace = frameRenderedEvents exampleSingleStarted.trace ++ [t] :=
  ⟨⟨by decide, by decide, by decide, by decide, by decide, exampleEnv_frameSucceeds true false,
      by decide⟩,
    singleFrameRange_renders_once (exampleEnv true) false exampleSingle exampleSingleStarted
      true false true false false (by decide) (by decide) (by decide) (by decide) (by decide)
      (exampleEnv_frameSucceeds true false) 3 (by decide)⟩

theorem example_single_frame_range :
    (exampleSingleStarted.iterateKernel (exampleEnv true) false 3).map
      (fun w => (frameRenderedEvents w.trace, w.timeline.currentFrame)) = some ([7], 6) := by
  decide

/-! ## The views computed for a frame -/

theorem viewCalls_cons (time : Int) (q : Bool) (v : Nat) (views : List Nat) :
    viewCalls time q (v :: views) =
      [Event.getRegionOfDefinition time v, Event.renderRoI time v q] ++ viewCalls time q views :=
  rfl

/-- When no query fails and no call throws, the per-view loop of `renderFrame`
makes the two calls for every view that is not skipped, in order. -/
theorem renderViews_calls (env : Env) (t : Int) (q : Bool) (mv : Int)
    (hrod : ∀ v, ∃ stat, env.getRegionOfDefinition t v = some stat ∧ stat ≠ .StatFailed)
    (hroi : ∀ v, ∃ stat, env.renderRoI t v q = some stat) :
    ∀ (views : List Nat) (stat : Status) (tr : List Event), stat ≠ .StatFailed →
      ∃ stat2, stat2 ≠ .StatFailed ∧
        VideoEngine.renderViews env t q mv views stat tr =
          (some stat2, tr ++ viewCalls t q
            (views.filter fun (v : Nat) => !(q && decide ((v : Int) ≠ mv)))) := by
  intro views
  induction views with
  | nil =>
    intro stat tr hs
    exact ⟨stat, hs, by simp [VideoEngine.renderViews, viewCalls]⟩
  | cons i rest ih =>
    intro stat tr hs
    rw [VideoEngine.renderViews]
    by_cases hskip : (q && decide ((i : Int) ≠ mv)) = true
    · rw [if_pos hskip]
      obtain ⟨stat2, h2, heq⟩ := ih stat tr hs
      refine ⟨stat2, h2, ?_⟩
      rw [heq, List.filter_cons_of_neg (by rw [hskip]; decide)]
    · rw [if_neg hskip]
      obtain ⟨s1, hs1, hne⟩ := hrod i
      obtain ⟨s2, hs2⟩ := hroi i
      dsimp only
      rw [hs1]
      dsimp only
      rw [if_pos hne, hs2]
      dsimp only
      obtain ⟨stat2, h2, heq⟩ := ih s1
        (tr ++ [Event.getRegionOfDefinition t i] ++ [Event.renderRoI t i q]) hne
      refine ⟨stat2, h2, ?_⟩
      have hkeep : (!(q && decide ((i : Int) ≠ mv))) = true := by
        rw [Bool.not_eq_true']
        exact Bool.eq_false_iff.mpr hskip
      have hf : List.filter (fun (v : Nat) => !(q && decide ((v : Int) ≠ mv))) (i :: rest)
          = i :: List.filter (fun (v : Nat) => !(q && decide ((v : Int) ≠ mv))) rest :=
        List.filter_cons_of_pos hkeep
      rw [heq, hf, viewCalls_cons]
      simp [List.append_assoc]

theorem filter_range_eq (k : Nat) :
    ∀ n : Nat, (List.range n).filter (fun (v : Nat) => decide (v = k))
      = if k < n then [k] else [] := by
  intro n
  induction n with
  | zero => rfl
  | succ n ih =>
    rw [List.range_succ, List.filter_append, ih]
    by_cases h1 : k < n
    · have hne : ¬ n = k := by omega
      rw [if_pos h1, if_pos (by omega)]
      simp [List.filter, hne]
    · by_cases h2 : n = k
      · subst h2
        rw [if_neg h1, if_pos (by omega)]
        simp [List.filter]
      · rw [if_neg h1, if_neg (by omega)]
        simp [List.filter, h2]

theorem filter_range_mainView (n : Nat) (m : Int) (h0 : 0 ≤ m) (hlt : m < (n : Int)) :
    (List.range n).filter (fun (v : Nat) => decide ((v : Int) = m)) = [m.toNat] := by
  have hfun : (fun (v : Nat) => decide ((v : Int) = m)) = fun (v : Nat) => decide (v = m.toNat) := by
    funext v
    congr 1
    apply propext
    constructor <;> intro h <;> omega
  rw [hfun, filter_range_eq, if_pos (by omega)]

/-- C23 (amended): for a non-display output, when no query fails and no call
throws, the computation of a frame queries the region of definition of, and
renders, every view `0 .. viewsCount - 1` exactly when the local
`isSequentialRender` of `renderFrame` is false, that is when the remaining
frame count is neither greater than 1 nor -1 and the run is not forced
sequential; otherwise only the main view is queried and rendered. -/
theorem renderFrame_views (env : Env) (time : Int) (singleThreaded : Bool) (w : VideoEngine)
    (hwriter : w.tree.isViewer = false)
    (hrod : ∀ v, ∃ stat, env.getRegionOfDefinition time v = some stat ∧ stat ≠ .StatFailed)
    (hroi : ∀ v q, ∃ stat, env.renderRoI time v q = some stat) :
    (w.isSequentialRender = true ↔
      (w.currentRunArgs.frameRequestsCount > 1 ∨ w.currentRunArgs.frameRequestsCount = -1 ∨
        w.currentRunArgs.forceSequential = true)) ∧
    (w.isSequentialRender = false →
      (w.renderFrame env time singleThreaded).2.trace =
        w.trace ++ viewCalls time false (List.range env.projectViewsCount.toNat)) ∧
    (w.isSequentialRender = true →
      (w.renderFrame env time singleThreaded).2.trace =
        w.trace ++ viewCalls time true ((List.range env.projectViewsCount.toNat).filter
          fun (v : Nat) => decide ((v : Int) = env.mainView))) ∧
    (w.isSequentialRender = true → 0 ≤ env.mainView → env.mainView < env.projectViewsCount →
      (w.renderFrame env time singleThreaded).2.trace =
        w.trace ++ [.getRegionOfDefinition time env.mainView.toNat,
          .renderRoI time env.mainView.toNat true]) ∧
    ∃ stat, (w.renderFrame env time singleThreaded).1 = some stat ∧ stat ≠ .StatFailed := by
  have hbranch : ¬ (w.tree.isViewer && !w.tree.isOutputOpenFXNode) = true := by
    rw [hwriter]; simp
  have hseq : w.isSequentialRender = true →
      (w.renderFrame env time singleThreaded).2.trace =
        w.trace ++ viewCalls time true ((List.range env.projectViewsCount.toNat).filter
          fun (v : Nat) => decide ((v : Int) = env.mainView)) := by
    intro hq
    obtain ⟨stat2, _, heq⟩ := renderViews_calls env time true env.mainView hrod
      (fun v => hroi v true) (List.range env.projectViewsCount.toNat) .StatOK w.trace
      (by decide)
    unfold VideoEngine.renderFrame
    rw [if_neg hbranch]
    dsimp only
    rw [hq, if_pos rfl, heq]
    dsimp only
    congr 2
    apply List.filter_congr
    intro v _
    simp
  refine ⟨?_, ?_, hseq, ?_, ?_⟩
  · unfold VideoEngine.isSequentialRender
    simp only [Bool.or_eq_true, decide_eq_true_eq, or_assoc]
  · intro hq
    obtain ⟨stat2, _, heq⟩ := renderViews_calls env time false 0 hrod
      (fun v => hroi v false) (List.range env.projectViewsCount.toNat) .StatOK w.trace
      (by decide)
    unfold VideoEngine.renderFrame
    rw [if_neg hbranch]
    dsimp only
    rw [hq, if_neg (by decide), heq]
    dsimp only
    congr 2
    simp
  · intro hq h0 hlt
    rw [hseq hq, filter_range_mainView _ _ h0 (by omega)]
    rfl
  · by_cases hq : w.isSequentialRender = true
    · obtain ⟨stat2, h2, heq⟩ := renderViews_calls env time true env.mainView hrod
        (fun v => hroi v true) (List.range env.projectViewsCount.toNat) .StatOK w.trace
        (by decide)
      refine ⟨stat2, ?_, h2⟩
      unfold VideoEngine.renderFrame
      rw [if_neg hbranch]
      dsimp only
      rw [hq, if_pos rfl, heq]
    · have hq2 : w.isSequentialRender = false := by simpa using hq
      obtain ⟨stat2, h2, heq⟩ := renderViews_calls env time false 0 hrod
        (fun v => hroi v false) (List.range env.projectViewsCount.toNat) .StatOK w.trace
        (by decide)
      refine ⟨stat2, ?_, h2⟩
      unfold VideoEngine.renderFrame
      rw [if_neg hbranch]
      dsimp only
      rw [hq2, if_neg (by decide), heq]

theorem renderFrame_views_witness :
    ((exampleStarted false 1 false).tree.isViewer = false ∧
      (exampleStarted false 1 false).isSequentialRender = false) ∧
    ((exampleStarted false 1 false).renderFrame (exampleEnv false) 1 false).2.trace =
      (exampleStarted false 1 false).trace ++
        viewCalls 1 false (List.range (exampleEnv false).projectViewsCount.toNat) :=
  ⟨⟨by decide, by decide⟩,
    (renderFrame_views (exampleEnv false) 1 false (exampleStarted false 1 false) (by decide)
      (fun _ => ⟨.StatOK, rfl, by decide⟩) (fun _ _ => ⟨.StatOK, rfl⟩)).2.1 (by decide)⟩

/-- C23 as stated fails for a run of more than one frame that is not forced
sequential: in the unbounded run of a writer on a project with two views, the
computation of frame 1 queries and renders view 0 only. -/
theorem renderFrame_sequence_main_view_counterexample :
    ((exampleStarted false (-1) false).tree.isViewer = false ∧
      (exampleStarted false (-1) false).currentRunArgs.forceSequential = false ∧
      (exampleEnv false).projectViewsCount = 2) ∧
    ((exampleStarted false (-1) false).renderFrame (exampleEnv false) 1 false).2.trace =
      (exampleStarted false (-1) false).trace ++
        [.getRegionOfDefinition 1 0, .renderRoI 1 0 true] ∧
    Event.getRegionOfDefinition 1 1 ∉
      ((exampleStarted false (-1) false).renderFrame (exampleEnv false) 1 false).2.trace ∧
    Event.renderRoI 1 1 true ∉
      ((exampleStarted false (-1) false).renderFrame (exampleEnv false) 1 false).2.trace := by
  decide

theorem example_views_of_two_frames :
    ((exampleStarted false 2 false).iterateKernel (exampleEnv false) false 4).map
      (fun w => w.trace.drop (exampleStarted false 2 false).trace.length) =
    some [.getRegionOfDefinition 1 0, .renderRoI 1 0 true, .frameRendered 1,
      .getRegionOfDefinition 2 0, .renderRoI 2 0 false, .getRegionOfDefinition 2 1,
      .renderRoI 2 1 false, .frameRendered 2] := by
  decide

/-! ## A failing region-of-definition query -/

/-- The per-view loop of `renderFrame` when the query of the region of
definition fails for view `v`: the views before `v` that are not skipped have
been queried and rendered, `v` has been queried, and nothing is done for the
views after `v`. -/
theorem renderViews_rod_fails (env : Env) (t : Int) (q : Bool) (mv : Int) (v : Nat)
    (post : List Nat)
    (hkeep : (q && decide ((v : Int) ≠ mv)) = false)
    (hfail : env.getRegionOfDefinition t v = some .StatFailed) :
    ∀ (pre : List Nat) (stat : Status) (tr : List Event),
      (∀ u ∈ pre, (q && decide ((u : Int) ≠ mv)) = false →
        (∃ s, env.getRegionOfDefinition t u = some s ∧ s ≠ .StatFailed) ∧
          ∃ s, env.renderRoI t u q = some s) →
      VideoEngine.renderViews env t q mv (pre ++ v :: post) stat tr =
        (some .StatFailed,
          tr ++ viewCalls t q (pre.filter fun (u : Nat) => !(q && decide ((u : Int) ≠ mv)))
            ++ [Event.getRegionOfDefinition t v]) := by
  intro pre
  induction pre with
  | nil =>
    intro stat tr _
    rw [List.nil_append, VideoEngine.renderViews, if_neg (by rw [hkeep]; decide)]
    dsimp only
    rw [hfail]
    dsimp only
    rw [if_neg (by decide)]
    simp [viewCalls]
  | cons i rest ih =>
    intro stat tr hpre
    have hrest : ∀ u ∈ rest, (q && decide ((u : Int) ≠ mv)) = false →
        (∃ s, env.getRegionOfDefinition t u = some s ∧ s ≠ .StatFailed) ∧
          ∃ s, env.renderRoI t u q = some s :=
      fun u hu => hpre u (List.mem_cons_of_mem _ hu)
    rw [List.cons_append, VideoEngine.renderViews]
    by_cases hskip : (q && decide ((i : Int) ≠ mv)) = true
    · rw [if_pos hskip, ih stat tr hrest]
      have hf : List.filter (fun (u : Nat) => !(q && decide ((u : Int) ≠ mv))) (i :: rest)
          = List.filter (fun (u : Nat) => !(q && decide ((u : Int) ≠ mv))) rest :=
        List.filter_cons_of_neg (by rw [hskip]; decide)
      rw [hf]
    · rw [if_neg hskip]
      have hk : (q && decide ((i : Int) ≠ mv)) = false := Bool.eq_false_iff.mpr hskip
      obtain ⟨⟨s1, hs1, hne⟩, s2, hs2⟩ := hpre i (List.mem_cons_self _ _) hk
      dsimp only
      rw [hs1]
      dsimp only
      rw [if_pos hne, hs2]
      dsimp only
      rw [ih s1 _ hrest]
      have hf : List.filter (fun (u : Nat) => !(q && decide ((u : Int) ≠ mv))) (i :: rest)
          = i :: List.filter (fun (u : Nat) => !(q && decide ((u : Int) ≠ mv))) rest :=
        List.filter_cons_of_pos (by rw [hk]; rfl)
      rw [hf, viewCalls_cons]
      simp [List.append_assoc]

/-- C24: for a non-display output, in a pass of `iterateKernel` that has chosen
frame `c`, if the query of the region of definition fails for view `v` (the
views before it having answered), then nothing is queried or rendered for the
views after `v`, `renderFrame` returns `StatFailed`, and `iterateKernel`
returns at once: the trace ends with the query for `v` and holds no
`frameRendered` for that frame. -/
theorem iterateKernel_rod_fails (env : Env) (singleThreaded : Bool) (w w2 : VideoEngine)
    (c : Int) (v : Nat) (pre post : List Nat)
    (hwriter : w.tree.isViewer = false)
    (hab : ¬ w.abortRequested > 0)
    (hset : (w.updateTimelineRange env).setCurrentFrame env
      ((w.updateTimelineRange env).passFirstFrame env)
      ((w.updateTimelineRange env).passLastFrame env) = .frame c w2)
    (hstop : w2.mustStop env ((w.updateTimelineRange env).passFirstFrame env)
      ((w.updateTimelineRange env).passLastFrame env) = false)
    (hviews : List.range env.projectViewsCount.toNat = pre ++ v :: post)
    (hkeep : (w2.isSequentialRender &&
      decide ((v : Int) ≠ if w2.isSequentialRender = true then env.mainView else 0)) = false)
    (hfail : env.getRegionOfDefinition c v = some .StatFailed)
    (hpre : ∀ u ∈ pre, (w2.isSequentialRender &&
        decide ((u : Int) ≠ if w2.isSequentialRender = true then env.mainView else 0)) = false →
      (∃ s, env.getRegionOfDefinition c u = some s ∧ s ≠ .StatFailed) ∧
        ∃ s, env.renderRoI c u w2.isSequentialRender = some s) :
    (w2.renderFrame env c singleThreaded).1 = some .StatFailed ∧
    (w2.renderFrame env c singleThreaded).2.trace =
      w2.trace ++ viewCalls c w2.isSequentialRender
        (pre.filter fun (u : Nat) => !(w2.isSequentialRender &&
          decide ((u : Int) ≠ if w2.isSequentialRender = true then env.mainView else 0)))
        ++ [Event.getRegionOfDefinition c v] ∧
    (∀ fuel, w.iterateKernel env singleThreaded (fuel + 1)
      = some (w2.renderFrame env c singleThreaded).2) ∧
    frameRenderedEvents (w2.renderFrame env c singleThreaded).2.trace
      = frameRenderedEvents w.trace := by
  obtain ⟨f, l, tl, h1, _, _⟩ := updateTimelineRange_frame env w
  obtain ⟨tl2, o, fwd, h2⟩ := setCurrentFrame_state_eq env _ _ _ w2 (by rw [hset]; rfl)
  have htree : w2.tree.isViewer = false := by rw [h2, h1]; exact hwriter
  have htr : w2.trace = w.trace := by rw [h2, h1]
  have hbranch : ¬ (w2.tree.isViewer && !w2.tree.isOutputOpenFXNode) = true := by
    rw [htree]; simp
  have hloop := renderViews_rod_fails env c w2.isSequentialRender
    (if w2.isSequentialRender = true then env.mainView else 0) v post hkeep hfail pre
    .StatOK w2.trace hpre
  have hres1 : (w2.renderFrame env c singleThreaded).1 = some .StatFailed := by
    unfold VideoEngine.renderFrame
    rw [if_neg hbranch]
    dsimp only
    rw [hviews, hloop]
  have hres2 : (w2.renderFrame env c singleThreaded).2.trace =
      w2.trace ++ viewCalls c w2.isSequentialRender
        (pre.filter fun (u : Nat) => !(w2.isSequentialRender &&
          decide ((u : Int) ≠ if w2.isSequentialRender = true then env.mainView else 0)))
        ++ [Event.getRegionOfDefinition c v] := by
    unfold VideoEngine.renderFrame
    rw [if_neg hbranch]
    dsimp only
    rw [hviews, hloop]
  have hfr : frameRenderedEvents (w2.renderFrame env c singleThreaded).2.trace
      = frameRenderedEvents w.trace := by
    obtain ⟨es, n, he, hnil⟩ := renderFrame_frame env c singleThreaded w2
    rw [he]
    show frameRenderedEvents (w2.trace ++ es) = _
    rw [frameRenderedEvents_append, hnil, List.append_nil, htr]
  have hrac : w2.renderAndCount env singleThreaded c
      = .done (w2.renderFrame env c singleThreaded).2 := by
    unfold VideoEngine.renderAndCount
    cases hrf : w2.renderFrame env c singleThreaded with
    | mk s x =>
      rw [hrf] at hres1
      have hs : s = some .StatFailed := hres1
      subst hs
      simp
  refine ⟨hres1, hres2, ?_, hfr⟩
  intro fuel
  rw [VideoEngine.iterateKernel, iterateOnce_render env singleThreaded w w2 c hab hset hstop,
    hrac]

theorem iterateKernel_rod_fails_witness :
    (exampleFailing.tree.isViewer = false ∧ ¬ exampleFailing.abortRequested > 0 ∧
      List.range rodFailingEnv.projectViewsCount.toNat = [0] ++ 1 :: [] ∧
      rodFailingEnv.getRegionOfDefinition 1 1 = some .StatFailed) ∧
    (exampleFailingFrame.renderFrame rodFailingEnv 1 false).1 = some .StatFailed ∧
    (exampleFailingFrame.renderFrame rodFailingEnv 1 false).2.trace =
      exampleFailingFrame.trace ++ viewCalls 1 exampleFailingFrame.isSequentialRender
        ([0].filter fun (u : Nat) => !(exampleFailingFrame.isSequentialRender &&
          decide ((u : Int) ≠
            if exampleFailingFrame.isSequentialRender = true then rodFailingEnv.mainView else 0)))
        ++ [Event.getRegionOfDefinition 1 1] ∧
    (∀ fuel, exampleFailing.iterateKernel rodFailingEnv false (fuel + 1)
      = some (exampleFailingFrame.renderFrame rodFailingEnv 1 false).2) ∧
    frameRenderedEvents (exampleFailingFrame.renderFrame rodFailingEnv 1 false).2.trace
      = frameRenderedEvents exampleFailing.trace :=
  ⟨⟨by decide, by decide, by decide, by decide⟩,
    iterateKernel_rod_fails rodFailingEnv false exampleFailing exampleFailingFrame 1 1 [0] []
      (by decide) (by decide) (by decide) (by decide) (by decide) (by decide) (by decide)
      (fun u hu _ => by
        have h0 : u = 0 := List.mem_singleton.mp hu
        subst h0
        exact ⟨⟨.StatOK, by decide, by decide⟩, ⟨.StatOK, by decide⟩⟩)⟩

theorem example_rod_fails :
    (exampleFailing.iterateKernel rodFailingEnv false 1).map
      (fun w => w.trace.drop exampleFailing.trace.length)
      = some [.getRegionOfDefinition 1 0, .renderRoI 1 0 false, .getRegionOfDefinition 1 1] := by
  decide

/-! ## The status of `renderRoI` -/

theorem abortOnlyWhileWorking_of_eq (w w2 : VideoEngine)
    (hw : w2.working = w.working) (ha : w2.abortRequested = w.abortRequested)
    (h : w.abortOnlyWhileWorking) : w2.abortOnlyWhileWorking := by
  intro h2
  rw [ha]
  exact h (by rw [← hw]; exact h2)

theorem abortOnlyWhileWorking_of_working (w : VideoEngine) (hw : w.working = true) :
    w.abortOnlyWhileWorking := by
  intro h2
  rw [hw] at h2
  exact absurd h2 (by decide)

theorem abortOnlyWhileWorking_of_reset (w : VideoEngine) (ha : w.abortRequested = 0) :
    w.abortOnlyWhileWorking :=
  fun _ => ha

theorem stopEngine_inv (env : Env) (w : VideoEngine) :
    (w.stopEngine env).2.abortOnlyWhileWorking :=
  abortOnlyWhileWorking_of_reset _ (stopEngine_resets env w).2

theorem startEngine_inv (env : Env) (w w2 : VideoEngine) (b : Bool)
    (h : w.startEngine env = some (b, w2)) (hi : w.abortOnlyWhileWorking) :
    w2.abortOnlyWhileWorking := by
  cases b with
  | true =>
    obtain ⟨_, t, f, l, o, tr, tm, hw⟩ := startEngine_true_frame env w w2 h
    exact abortOnlyWhileWorking_of_working w2 (by rw [hw])
  | false =>
    by_cases ha : w.abortRequested > 0
    · rw [startEngine_abort_pending env w ha] at h
      rw [← (Prod.mk.inj (Option.some.inj h)).2]
      exact hi
    · cases hp : w.prepared env with
      | none => rw [startEngine_of_prepared_none env w ha hp] at h; exact absurd h (by simp)
      | some p =>
        obtain ⟨t, hpf, _⟩ := prepared_frame env w p hp
        obtain ⟨f, l, o, tr, hb⟩ := beginOutput_frame env p
        rw [startEngine_of_prepared env w p ha hp] at h
        obtain ⟨h1, h2⟩ := Prod.mk.inj (Option.some.inj h)
        rw [h1, if_neg (by decide)] at h2
        refine abortOnlyWhileWorking_of_eq w w2 ?_ ?_ hi
        · rw [← h2, hb, hpf]
        · rw [← h2, hb, hpf]

theorem iterateKernel_inv (env : Env) (st : Bool) (fuel : Nat) (w w2 : VideoEngine)
    (h : w.iterateKernel env st fuel = some w2) (hi : w.abortOnlyWhileWorking) :
    w2.abortOnlyWhileWorking := by
  obtain ⟨f, l, tl, o, a, tr, n, he⟩ := iterateKernel_frame env st fuel w w2 h
  exact abortOnlyWhileWorking_of_eq w w2 (by rw [he]) (by rw [he]) hi

theorem abortRendering_inv (blocking callerIsWorker : Bool) (w : VideoEngine)
    (hi : w.abortOnlyWhileWorking) :
    (w.abortRendering blocking callerIsWorker).2.abortOnlyWhileWorking := by
  cases hw : w.working with
  | false =>
    rw [abortRendering_idle blocking callerIsWorker w hw]
    exact hi
  | true =>
    obtain ⟨tr, a, he⟩ := abortRendering_frame blocking callerIsWorker w
    exact abortOnlyWhileWorking_of_working _ (by rw [he]; exact hw)

theorem runSameThread_inv (env : Env) (fuel : Nat) (w w2 : VideoEngine)
    (h : w.runSameThread env fuel = some w2) (hi : w.abortOnlyWhileWorking) :
    w2.abortOnlyWhileWorking := by
  unfold VideoEngine.runSameThread at h
  split_ifs at h with hd
  · rw [← Option.some.inj h]
    exact hi
  · dsimp only at h
    cases hs : ({ w with doingARenderSingleThreaded := true } : VideoEngine).startEngine env with
    | none => rw [hs] at h; simp at h
    | some r =>
      obtain ⟨b, w1⟩ := r
      rw [hs] at h
      cases b with
      | false =>
        dsimp only at h
        rw [← Option.some.inj h]
        exact abortOnlyWhileWorking_of_eq (w1.stopEngine env).2 _ rfl rfl (stopEngine_inv env w1)
      | true =>
        obtain ⟨_, t, f, l, o, tr, tm, hw1⟩ := startEngine_true_frame env _ w1 hs
        have hwork1 : w1.working = true := by rw [hw1]
        dsimp only at h
        split_ifs at h with hq1
        · rw [← Option.some.inj h]
          exact abortOnlyWhileWorking_of_working _ hwork1
        · cases hk : w1.iterateKernel env true fuel with
          | none => rw [hk] at h; simp at h
          | some w3 =>
            obtain ⟨_, _, _, _, _, _, _, h2⟩ := iterateKernel_frame env true fuel w1 w3 hk
            have hwork3 : w3.working = true := by rw [h2]; exact hwork1
            rw [hk] at h
            dsimp only at h
            split_ifs at h with hq2
            · rw [← Option.some.inj h]
              exact abortOnlyWhileWorking_of_working _ hwork3
            · rw [← Option.some.inj h]
              exact abortOnlyWhileWorking_of_eq (w3.stopEngine env).2 _ rfl rfl
                (stopEngine_inv env w3)

theorem render_inv (env : Env) (fuel : Nat) (frameCount : Int) (s r f sf fp : Bool)
    (w w2 : VideoEngine) (h : w.render env fuel frameCount s r f sf fp = some w2)
    (hi : w.abortOnlyWhileWorking) : w2.abortOnlyWhileWorking := by
  unfold VideoEngine.render at h
  dsimp only at h
  by_cases hmt : env.numberOfThreads = -1
  · rw [if_pos hmt] at h
    exact runSameThread_inv env fuel _ w2 h hi
  · rw [if_neg hmt] at h
    split_ifs at h <;> (rw [← Option.some.inj h]; exact hi)

theorem runPass_inv (env : Env) (fuel : Nat) (w : VideoEngine) (out : RunOutcome)
    (h : w.runPass env fuel = some out) (hi : w.abortOnlyWhileWorking) :
    out.state.abortOnlyWhileWorking := by
  have hpark : ∀ x : VideoEngine, (x.stopAndPark env).state.abortOnlyWhileWorking := by
    intro x
    obtain ⟨r, hr⟩ := stopAndPark_state env x
    rw [hr]
    exact abortOnlyWhileWorking_of_eq (x.stopEngine env).2 _ rfl rfl (stopEngine_inv env x)
  unfold VideoEngine.runPass at h
  by_cases hm : w.mustQuit = true
  · rw [if_pos hm] at h
    rw [← Option.some.inj h]
    exact abortOnlyWhileWorking_of_eq w _ rfl rfl hi
  · rw [if_neg hm] at h
    by_cases hr : w.restart = true
    · rw [if_pos hr] at h
      cases hs : w.startEngine env with
      | none => rw [hs] at h; exact absurd h (by simp)
      | some r =>
        obtain ⟨b, w1⟩ := r
        rw [hs] at h
        cases b with
        | false =>
          have h0 : some (w1.stopAndPark env) = some out := h
          rw [← Option.some.inj h0]
          exact hpark w1
        | true =>
          have h0 : (match w1.iterateKernel env false fuel with
            | none => none
            | some w2 => some (w2.stopAndPark env)) = some out := h
          cases hk : w1.iterateKernel env false fuel with
          | none => rw [hk] at h0; exact absurd h0 (by simp)
          | some w2 =>
            rw [hk] at h0
            have h1 : some (w2.stopAndPark env) = some out := h0
            rw [← Option.some.inj h1]
            exact hpark w2
    · rw [if_neg hr] at h
      cases hk : w.iterateKernel env false fuel with
      | none => rw [hk] at h; exact absurd h (by simp)
      | some w2 =>
        rw [hk] at h
        have h1 : some (w2.stopAndPark env) = some out := h
        rw [← Option.some.inj h1]
        exact hpark w2

theorem operation_inv (env : Env) (w w2 : VideoEngine) (hop : Operation env w w2)
    (hi : w.abortOnlyWhileWorking) : w2.abortOnlyWhileWorking := by
  cases hop with
  | render fuel c _ _ h => exact render_inv env fuel _ _ _ _ _ _ w w2 h hi
  | startEngine _ _ b h => exact startEngine_inv env w w2 b h hi
  | iteratePass st _ =>
    obtain ⟨f, l, tl, o, a, tr, n, he⟩ := iterateOnce_frame env st w
    exact abortOnlyWhileWorking_of_eq w _ (by rw [he]) (by rw [he]) hi
  | iterateKernel st fuel _ _ h => exact iterateKernel_inv env st fuel w w2 h hi
  | stopEngine _ => exact stopEngine_inv env w
  | runSameThread fuel _ _ h => exact runSameThread_inv env fuel w w2 h hi
  | runPass fuel _ out h => exact runPass_inv env fuel w out h hi
  | wakeUp _ _ h =>
    unfold VideoEngine.wakeUp at h
    split_ifs at h
    rw [← Option.some.inj h]
    exact abortOnlyWhileWorking_of_eq w _ rfl rfl hi
  | abortRendering blocking callerIsWorker _ => exact abortRendering_inv blocking callerIsWorker w hi
  | refreshTree _ _ h =>
    obtain ⟨t, he, _⟩ := refreshTree_frame env w w2 h
    exact abortOnlyWhileWorking_of_eq w w2 (by rw [he]) (by rw [he]) hi
  | getFrameRange _ =>
    obtain ⟨f, l, he⟩ := getFrameRange_frame env w
    exact abortOnlyWhileWorking_of_eq w _ (by rw [he]) (by rw [he]) hi
  | setPlaybackMode mode _ => exact abortOnlyWhileWorking_of_eq w _ rfl rfl hi
  | refreshAndContinueRender fuel fp ab cw _ _ h =>
    unfold VideoEngine.refreshAndContinueRender at h
    dsimp only at h
    by_cases hp : (!w.isPlaybackRunning) = true
    · rw [if_pos hp] at h
      refine render_inv env fuel _ _ _ _ _ _ _ w2 h ?_
      by_cases hab : ab = true
      · rw [if_pos hab]
        exact abortRendering_inv false cw w hi
      · rw [if_neg hab]; exact hi
    · rw [if_neg hp] at h
      rw [← Option.some.inj h]; exact hi

theorem operations_inv (env : Env) (w w2 : VideoEngine)
    (h : Relation.ReflTransGen (Operation env) w w2) (hi : w.abortOnlyWhileWorking) :
    w2.abortOnlyWhileWorking := by
  induction h with
  | refl => exact hi
  | tail _ hstep ih => exact operation_inv env _ _ hstep ih

theorem quitEngineThread_inv (callerIsWorker : Bool)
    (afterAbort afterQuit : VideoEngine → VideoEngine) (w : VideoEngine)
    (hA : ∀ x : VideoEngine, x.abortOnlyWhileWorking → (afterAbort x).abortOnlyWhileWorking)
    (hB : ∀ x : VideoEngine, x.abortOnlyWhileWorking → (afterQuit x).abortOnlyWhileWorking)
    (hi : w.abortOnlyWhileWorking) :
    (w.quitEngineThread callerIsWorker afterAbort afterQuit).abortOnlyWhileWorking := by
  unfold VideoEngine.quitEngineThread
  by_cases hts : w.threadStarted = true
  · rw [if_pos hts]
    lift_lets
    intro w1 r w2 w3 w4
    have h1 : w1.abortOnlyWhileWorking := abortOnlyWhileWorking_of_eq w w1 rfl rfl hi
    have hr : r.2.abortOnlyWhileWorking := abortRendering_inv true callerIsWorker w1 h1
    have h2 : w2.abortOnlyWhileWorking := by
      show (if w1.isWorking = true then (if r.1 = true then afterAbort r.2 else r.2)
        else w1).abortOnlyWhileWorking
      split_ifs
      · exact hA _ hr
      · exact hr
      · exact h1
    have h3 : w3.abortOnlyWhileWorking := abortOnlyWhileWorking_of_eq w2 w3 rfl rfl h2
    have h4 : w4.abortOnlyWhileWorking := by
      show (if w3.mustQuit = true then afterQuit w3 else w3).abortOnlyWhileWorking
      split_ifs
      · exact hB _ h3
      · exact h3
    exact abortOnlyWhileWorking_of_eq w4 _ rfl rfl h4
  · rw [if_neg hts]
    exact abortOnlyWhileWorking_of_eq w _ rfl rfl hi

theorem transition_inv (env : Env) (w w2 : VideoEngine) (ht : Transition env w w2)
    (hi : w.abortOnlyWhileWorking) : w2.abortOnlyWhileWorking := by
  cases ht with
  | operation _ _ hop => exact operation_inv env w w2 hop hi
  | updateTreeAndContinueRender fuel cw afterWait _ _ hwait h =>
    unfold VideoEngine.updateTreeAndContinueRender at h
    dsimp only at h
    by_cases hp : w.isPlaybackRunning = true
    · rw [if_pos hp] at h
      refine render_inv env fuel _ _ _ _ _ _ _ w2 h ?_
      have hab := abortRendering_inv true cw w hi
      split_ifs
      · exact operations_inv env _ _ (hwait _) hab
      · exact hab
    · rw [if_neg hp] at h
      exact render_inv env fuel _ _ _ _ _ _ w w2 h hi
  | quitEngineThread cw afterAbort afterQuit _ ha hb =>
    exact quitEngineThread_inv cw afterAbort afterQuit w
      (fun x hx => operations_inv env _ _ (ha x) hx)
      (fun x hx => operations_inv env _ _ (hb x) hx) hi

/-- C26: in every state that a freshly constructed scheduler reaches through
its operations (`render`, `startEngine`, passes of `iterateKernel`,
`stopEngine`, `abortRendering`, and the other operations of the scheduler), the
abort counter is zero whenever the working flag is unset. -/
theorem abort_pending_only_while_working (env : Env) (owner : Nat) (defaultArgs : RunArgs)
    (timeline : TimeLine) (output : OutputState) (w : VideoEngine)
    (hreach : Relation.ReflTransGen (Transition env)
      (VideoEngine.construct owner defaultArgs timeline output) w)
    (hidle : w.working = false) : w.abortRequested = 0 := by
  have hinv : w.abortOnlyWhileWorking := by
    clear hidle
    induction hreach with
    | refl => exact fun _ => rfl
    | tail _ hstep ih => exact transition_inv env _ _ hstep ih
  exact hinv hidle

theorem exampleAfterAbort_reachable :
    Relation.ReflTransGen (Transition (exampleEnv true)) exampleEngine exampleAfterAbort :=
  Relation.ReflTransGen.tail
    (Relation.ReflTransGen.tail
      (Relation.ReflTransGen.tail
        (Relation.ReflTransGen.single
          (Transition.operation _ _
            (Operation.render 5 ⟨3, true, false, true, false, false⟩ exampleEngine
              ((exampleEngine.renderCall (exampleEnv true) 5 ⟨3, true, false, true, false,
                false⟩).getD exampleEngine) (by decide))))
        (Transition.operation _ _
          (Operation.startEngine _
            ((((exampleEngine.renderCall (exampleEnv true) 5 ⟨3, true, false, true, false,
                false⟩).getD exampleEngine).startEngine (exampleEnv true)).getD
              (false, exampleEngine)).2 true (by decide))))
      (Transition.operation _ _ (Operation.abortRendering false false _)))
    (Transition.operation _ _ (Operation.stopEngine _))

theorem abort_pending_only_while_working_witness :
    (Relation.ReflTransGen (Transition (exampleEnv true))
        (VideoEngine.construct 3 exampleArgs exampleTimeline
          { firstFrame := 0, lastFrame := 0, currentFrame := 0,
            doingFullSequenceRender := false }) exampleAfterAbort ∧
      exampleAfterAbort.working = false) ∧
    exampleAfterAbort.abortRequested = 0 :=
  ⟨⟨exampleAfterAbort_reachable, by decide⟩,
    abort_pending_only_while_working (exampleEnv true) 3 exampleArgs exampleTimeline
      { firstFrame := 0, lastFrame := 0, currentFrame := 0, doingFullSequenceRender := false }
      exampleAfterAbort exampleAfterAbort_reachable (by decide)⟩

theorem example_abort_then_stop :
    (((exampleStarted true 3 false).abortRendering false false).2.working,
      ((exampleStarted true 3 false).abortRendering false false).2.abortRequested) = (true, 1) ∧
    (exampleAfterAbort.working, exampleAfterAbort.abortRequested) = (false, 0) := by
  decide

/-! ## The counters of a bounded run -/

/-- On the worker thread, the end of a pass either returns having announced
nothing, or announces the frame and updates the counters. -/
theorem renderAndCount_worker (env : Env) (t : Int) (w : VideoEngine) :
    ∃ es n,
      (frameRenderedEvents es = [] ∧ w.renderAndCount env false t =
          .done { w with trace := w.trace ++ es, timerFrameCount := n }) ∨
        (frameRenderedEvents es = [t] ∧ w.renderAndCount env false t =
          .next ({ w with trace := w.trace ++ es, timerFrameCount := n } :
            VideoEngine).updateCounters) := by
  by_cases hok : w.frameSucceeds env false t
  · obtain ⟨es, n, hes, heq⟩ := renderAndCount_ok env false t w hok
    refine ⟨es, n, Or.inr ⟨hes, ?_⟩⟩
    rw [heq, if_neg (by simp)]
  · obtain ⟨es, n, hfr, hnone⟩ := renderFrame_frame env t false w
    unfold VideoEngine.renderAndCount
    cases hs : (w.renderFrame env t false).1 with
    | none =>
      have hpair : w.renderFrame env t false =
          (none, { w with trace := w.trace ++ es, timerFrameCount := n }) :=
        Prod.ext hs hfr
      rw [hpair]
      dsimp only [VideoEngine.emit]
      split_ifs
      · refine ⟨es ++ [.disconnectViewer], n, Or.inl ⟨?_, ?_⟩⟩
        · rw [frameRenderedEvents_append, hnone]; rfl
        · simp only [List.append_assoc]
      · exact ⟨es, n, Or.inl ⟨hnone, rfl⟩⟩
    | some stat =>
      have hpair : w.renderFrame env t false =
          (some stat, { w with trace := w.trace ++ es, timerFrameCount := n }) :=
        Prod.ext hs hfr
      have hstat : stat = .StatFailed := by
        by_contra hne
        exact hok ⟨stat, hs, hne⟩
      rw [hpair]
      dsimp only
      rw [if_pos hstat]
      exact ⟨es, n, Or.inl ⟨hnone, rfl⟩⟩

theorem updateCounters_bounded (w : VideoEngine)
    (h : w.currentRunArgs.frameRequestsCount ≠ -1) :
    w.updateCounters.currentRunArgs.frameRequestsCount
        = w.currentRunArgs.frameRequestsCount - 1 ∧
      w.updateCounters.currentRunArgs.frameRequestIndex
        = w.currentRunArgs.frameRequestIndex + 1 ∧
      w.updateCounters.trace = w.trace := by
  unfold VideoEngine.updateCounters
  dsimp only
  split_ifs with h1
  · refine ⟨?_, rfl, rfl⟩
    show (0 : Int) = _
    rw [h1.2.1]
    rfl
  · exact ⟨rfl, rfl, rfl⟩

theorem mustStop_false_count (env : Env) (f l : Int) (w : VideoEngine)
    (h : w.mustStop env f l = false) : w.currentRunArgs.frameRequestsCount ≠ 0 := by
  intro h0
  rw [mustStop_of_count_zero env f l w h0] at h
  exact absurd h (by decide)

/-- A pass of a bounded run on the worker thread keeps the counters in step
with the frames announced: it returns having announced nothing and changed no
counter, or announces one frame, decrements the remaining count and increments
the index. -/
theorem countsFrames_pass (env : Env) (N : Int) (base : List Int) (w : VideoEngine)
    (hc : w.countsFrames N base) :
    ∃ w3, w3.countsFrames N base ∧
      ((w.iterateOnce env false = .done w3 ∧
          w3.currentRunArgs.frameRequestsCount = w.currentRunArgs.frameRequestsCount ∧
          frameRenderedEvents w3.trace = frameRenderedEvents w.trace) ∨
        (w.iterateOnce env false = .next w3 ∧
          w3.currentRunArgs.frameRequestsCount = w.currentRunArgs.frameRequestsCount - 1 ∧
          ∃ c, frameRenderedEvents w3.trace = frameRenderedEvents w.trace ++ [c])) := by
  obtain ⟨hsum, hpos, ts, hts, hlen⟩ := hc
  by_cases hab : w.abortRequested > 0
  · exact ⟨w, ⟨hsum, hpos, ts, hts, hlen⟩, Or.inl ⟨iterateOnce_aborted env false w hab, rfl, rfl⟩⟩
  · obtain ⟨f, l, tl, h1, _, _⟩ := updateTimelineRange_frame env w
    have hsame : ∀ w2 : VideoEngine,
        ((w.updateTimelineRange env).setCurrentFrame env
          ((w.updateTimelineRange env).passFirstFrame env)
          ((w.updateTimelineRange env).passLastFrame env)).state = w2 →
        w2.currentRunArgs.frameRequestsCount = w.currentRunArgs.frameRequestsCount ∧
        w2.currentRunArgs.frameRequestIndex = w.currentRunArgs.frameRequestIndex ∧
        w2.trace = w.trace := by
      intro w2 hw2
      obtain ⟨tl2, o, fwd, h2⟩ := setCurrentFrame_state_eq env _ _ _ w2 hw2
      rw [h2, h1]
      exact ⟨rfl, rfl, rfl⟩
    cases hset : (w.updateTimelineRange env).setCurrentFrame env
        ((w.updateTimelineRange env).passFirstFrame env)
        ((w.updateTimelineRange env).passLastFrame env) with
    | stop w2 =>
      obtain ⟨e1, e2, e3⟩ := hsame w2 (by rw [hset]; rfl)
      refine ⟨w2, ⟨by rw [e1, e2]; exact hsum, by rw [e1]; exact hpos, ts, by rw [e3]; exact hts,
        by rw [e2]; exact hlen⟩, Or.inl ⟨iterateOnce_stop env false w w2 hab hset, e1, by rw [e3]⟩⟩
    | frame c w2 =>
      obtain ⟨e1, e2, e3⟩ := hsame w2 (by rw [hset]; rfl)
      cases hstop : w2.mustStop env ((w.updateTimelineRange env).passFirstFrame env)
          ((w.updateTimelineRange env).passLastFrame env) with
      | true =>
        refine ⟨w2, ⟨by rw [e1, e2]; exact hsum, by rw [e1]; exact hpos, ts,
          by rw [e3]; exact hts, by rw [e2]; exact hlen⟩,
          Or.inl ⟨iterateOnce_mustStop env false w w2 c hab hset hstop, e1, by rw [e3]⟩⟩
      | false =>
        have hit := iterateOnce_render env false w w2 c hab hset hstop
        have hne0 := mustStop_false_count env _ _ w2 hstop
        obtain ⟨es, n, hres⟩ := renderAndCount_worker env c w2
        obtain ⟨x, hx⟩ : ∃ x : VideoEngine,
            x = { w2 with trace := w2.trace ++ es, timerFrameCount := n } := ⟨_, rfl⟩
        rw [← hx] at hres
        have x1 : x.currentRunArgs.frameRequestsCount = w.currentRunArgs.frameRequestsCount := by
          rw [hx]; exact e1
        have x2 : x.currentRunArgs.frameRequestIndex = w.currentRunArgs.frameRequestIndex := by
          rw [hx]; exact e2
        have x3 : frameRenderedEvents x.trace
            = frameRenderedEvents w.trace ++ frameRenderedEvents es := by
          rw [hx]
          show frameRenderedEvents (w2.trace ++ es) = _
          rw [frameRenderedEvents_append, e3]
        rcases hres with ⟨hes, hdone⟩ | ⟨hes, hnext⟩
        · rw [hes, List.append_nil] at x3
          refine ⟨x, ⟨?_, ?_, ts, ?_, ?_⟩, Or.inl ⟨by rw [hit, hdone], x1, x3⟩⟩
          · rw [x1, x2]; exact hsum
          · rw [x1]; exact hpos
          · rw [x3]; exact hts
          · rw [x2]; exact hlen
        · have hw0 : w.currentRunArgs.frameRequestsCount ≠ 0 := by rw [← e1]; exact hne0
          obtain ⟨u1, u2, u3⟩ := updateCounters_bounded x (by rw [x1]; omega)
          rw [hes] at x3
          refine ⟨x.updateCounters, ⟨?_, ?_, ts ++ [c], ?_, ?_⟩,
            Or.inr ⟨by rw [hit, hnext], by rw [u1, x1], c, by rw [u3, x3]⟩⟩
          · rw [u1, u2, x1, x2]; omega
          · rw [u1, x1]; omega
          · rw [u3, x3, hts, List.append_assoc]
          · rw [u2, x2, List.length_append, List.length_singleton]
            push_cast
            omega

theorem countsFrames_prefix (env : Env) (N : Int) (base : List Int) :
    ∀ (n : Nat) (w : VideoEngine), w.countsFrames N base →
      (w.iterateUpTo env false n).countsFrames N base := by
  intro n
  induction n with
  | zero => intro w hc; exact hc
  | succ n ih =>
    intro w hc
    obtain ⟨w3, hc3, hstep⟩ := countsFrames_pass env N base w hc
    rcases hstep with ⟨hdone, _, _⟩ | ⟨hnext, _, _⟩
    · rw [VideoEngine.iterateUpTo, hdone]
      exact hc3
    · rw [VideoEngine.iterateUpTo, hnext]
      exact ih w3 hc3

/-- A bounded run on the worker thread returns within as many passes as
frames remain, plus one. -/
theorem countsFrames_returns (env : Env) (N : Int) (base : List Int) :
    ∀ (m : Nat) (w : VideoEngine), w.countsFrames N base →
      w.currentRunArgs.frameRequestsCount ≤ (m : Int) →
      ∀ fuel, m + 1 ≤ fuel →
        ∃ w2, w.iterateKernel env false fuel = some w2 ∧ w2.countsFrames N base := by
  intro m
  induction m with
  | zero =>
    intro w hc hle fuel hfuel
    obtain ⟨k, rfl⟩ : ∃ k, fuel = k + 1 := ⟨fuel - 1, by omega⟩
    obtain ⟨w3, hc3, hstep⟩ := countsFrames_pass env N base w hc
    rcases hstep with ⟨hdone, _, _⟩ | ⟨hnext, hcnt, _⟩
    · exact ⟨w3, by rw [VideoEngine.iterateKernel, hdone], hc3⟩
    · have := hc3.2.1
      rw [hcnt] at this
      have hle0 : w.currentRunArgs.frameRequestsCount ≤ 0 := by exact_mod_cast hle
      omega
  | succ m ih =>
    intro w hc hle fuel hfuel
    obtain ⟨k, rfl⟩ : ∃ k, fuel = k + 1 := ⟨fuel - 1, by omega⟩
    obtain ⟨w3, hc3, hstep⟩ := countsFrames_pass env N base w hc
    rcases hstep with ⟨hdone, _, _⟩ | ⟨hnext, hcnt, _⟩
    · exact ⟨w3, by rw [VideoEngine.iterateKernel, hdone], hc3⟩
    · rw [VideoEngine.iterateKernel, hnext]
      refine ih w3 hc3 ?_ k (by omega)
      rw [hcnt]
      push_cast at hle
      omega

/-- C27: in a bounded run of `N >= 1` requested frames on the worker thread,
after any number of passes of `iterateKernel` the remaining count plus the
index is `N` and the index is the number of frames announced by the run;
`iterateKernel` returns within `N + 1` passes, having announced at most `N`
frames. -/
theorem bounded_run_counters (env : Env) (w0 w : VideoEngine) (N : Int)
    (seekTimeline refreshTree forward sameFrame forcePreview : Bool)
    (hN : 1 ≤ N)
    (hstart : (w0.recordRunArgs env N seekTimeline refreshTree forward sameFrame
      forcePreview).startEngine env = some (true, w)) :
    (∀ n, ∃ ts, frameRenderedEvents (w.iterateUpTo env false n).trace
        = frameRenderedEvents w.trace ++ ts ∧
      (w.iterateUpTo env false n).currentRunArgs.frameRequestsCount
        + (w.iterateUpTo env false n).currentRunArgs.frameRequestIndex = N ∧
      (w.iterateUpTo env false n).currentRunArgs.frameRequestIndex = (ts.length : Int)) ∧
    (∀ fuel, N.toNat + 1 ≤ fuel →
      ∃ w2 ts, w.iterateKernel env false fuel = some w2 ∧
        frameRenderedEvents w2.trace = frameRenderedEvents w.trace ++ ts ∧
        (ts.length : Int) ≤ N ∧
        w2.currentRunArgs.frameRequestsCount + w2.currentRunArgs.frameRequestIndex = N ∧
        w2.currentRunArgs.frameRequestIndex = (ts.length : Int)) := by
  obtain ⟨ha0, t, f, l, o, tr, tm, hw⟩ := startEngine_true_frame env _ w hstart
  have hcount : w.currentRunArgs.frameRequestsCount = N := by rw [hw]; rfl
  have hindex : w.currentRunArgs.frameRequestIndex = 0 := by rw [hw]; rfl
  have hc : w.countsFrames N (frameRenderedEvents w.trace) :=
    ⟨by rw [hcount, hindex]; omega, by rw [hcount]; omega, [], by rw [List.append_nil],
      by rw [hindex]; rfl⟩
  constructor
  · intro n
    obtain ⟨hsum, _, ts, hts, hlen⟩ := countsFrames_prefix env N _ n w hc
    exact ⟨ts, hts, hsum, hlen.symm⟩
  · intro fuel hfuel
    obtain ⟨w2, hk, hsum, hpos, ts, hts, hlen⟩ := countsFrames_returns env N _ N.toNat w hc
      (by rw [hcount]; omega) fuel hfuel
    exact ⟨w2, ts, hk, hts, by omega, hsum, hlen.symm⟩

theorem bounded_run_counters_witness :
    ((1 : Int) ≤ 3 ∧
      (exampleEngine.recordRunArgs (exampleEnv true) 3 true false true false
        false).startEngine (exampleEnv true) = some (true, exampleStarted true 3 false) ∧
      (3 : Int).toNat + 1 ≤ 4) ∧
    ∃ w2 ts, (exampleStarted true 3 false).iterateKernel (exampleEnv true) false 4 = some w2 ∧
      frameRenderedEvents w2.trace = frameRenderedEvents (exampleStarted true 3 false).trace ++ ts ∧
      (ts.length : Int) ≤ 3 ∧
      w2.currentRunArgs.frameRequestsCount + w2.currentRunArgs.frameRequestIndex = 3 ∧
      w2.currentRunArgs.frameRequestIndex = (ts.length : Int) :=
  ⟨⟨by decide, by decide, by decide⟩,
    (bounded_run_counters (exampleEnv true) exampleEngine (exampleStarted true 3 false) 3
      true false true false false (by decide) (by decide)).2 4 (by decide)⟩

theorem example_bounded_counters :
    (List.range 5).map (fun n =>
      (((exampleStarted true 3 false).iterateUpTo (exampleEnv true) false
          n).currentRunArgs.frameRequestsCount,
        ((exampleStarted true 3 false).iterateUpTo (exampleEnv true) false
          n).currentRunArgs.frameRequestIndex,
        frameRenderedEvents ((exampleStarted true 3 false).iterateUpTo (exampleEnv true) false
          n).trace))
      = [(3, 0, []), (2, 1, [10]), (1, 2, [10, 1]), (0, 3, [10, 1, 2]), (0, 3, [10, 1, 2])] := by
  decide

/-! ## The advance step and the bounds of the timeline -/

/-- C28: the advance step on a viewer, in a pass to which the frame-advance
policy applies, with bounds `first <= last` and the cursor of the timeline
within them, when the step does not return.  The cursor after the step is the
frame chosen and the bounds of the timeline are not changed.  When the range
holds more than one frame or the playback mode is not BOUNCE, the frame chosen
lies within the bounds, in either direction, as claimed.  On a range of a
single frame in BOUNCE mode it does not: the step turns the direction around
and chooses the frame one before the range when playing forward, one after it
when playing backward, because the BOUNCE branches seek to `currentFrame - 1`
and `currentFrame + 1` without looking at the other bound. -/
theorem advance_stays_in_range (env : Env) (first last : Int) (w : VideoEngine)
    (hv : env.outputIsViewer = true) (hadv : w.advances)
    (hfl : first ≤ last)
    (hge : first ≤ w.timeline.currentFrame) (hle : w.timeline.currentFrame ≤ last) :
    ∀ c w2, w.setCurrentFrame env first last = .frame c w2 →
      w2.timeline.currentFrame = c ∧
      w2.timeline.leftBound = w.timeline.leftBound ∧
      w2.timeline.rightBound = w.timeline.rightBound ∧
      (first < last ∨ w.playbackMode ≠ .PLAYBACK_BOUNCE → first ≤ c ∧ c ≤ last) ∧
      (first = last → w.playbackMode = .PLAYBACK_BOUNCE →
        c = (if w.currentRunArgs.forward = true then first - 1 else last + 1) ∧
        ¬ (first ≤ c ∧ c ≤ last) ∧
        w2.currentRunArgs.forward = !w.currentRunArgs.forward) := by
  intro c w2 h
  cases hfwd : w.currentRunArgs.forward with
  | true =>
    by_cases hlt : w.timeline.currentFrame < last
    · rw [setCurrentFrame_forward_lt env first last w hv hadv hfwd hlt] at h
      injection h with hc hw
      subst hc
      rw [← hw]
      exact ⟨rfl, rfl, rfl, fun _ => ⟨by omega, by omega⟩, fun he _ => by omega⟩
    · rw [setCurrentFrame_forward_end env first last w hv hadv hfwd hlt] at h
      cases hm : w.playbackMode with
      | PLAYBACK_LOOP =>
        rw [hm] at h
        injection h with hc hw
        subst hc
        rw [← hw]
        exact ⟨rfl, rfl, rfl, fun _ => ⟨le_refl _, hfl⟩, fun _ hb => by cases hb⟩
      | PLAYBACK_BOUNCE =>
        rw [hm] at h
        injection h with hc hw
        subst hc
        rw [← hw]
        refine ⟨rfl, rfl, rfl, ?_, ?_⟩
        · intro hrange
          have hlt2 : first < last := by
            rcases hrange with h1 | h1
            · exact h1
            · exact absurd rfl h1
          exact ⟨by omega, by omega⟩
        · intro he _
          refine ⟨?_, by omega, rfl⟩
          rw [if_pos rfl]
          omega
      | PLAYBACK_ONCE =>
        rw [hm] at h
        cases h
  | false =>
    by_cases hgt : w.timeline.currentFrame > first
    · rw [setCurrentFrame_backward_gt env first last w hv hadv hfwd hgt] at h
      injection h with hc hw
      subst hc
      rw [← hw]
      exact ⟨rfl, rfl, rfl, fun _ => ⟨by omega, by omega⟩, fun he _ => by omega⟩
    · rw [setCurrentFrame_backward_end env first last w hv hadv hfwd hgt] at h
      cases hm : w.playbackMode with
      | PLAYBACK_LOOP =>
        rw [hm] at h
        injection h with hc hw
        subst hc
        rw [← hw]
        exact ⟨rfl, rfl, rfl, fun _ => ⟨hfl, le_refl _⟩, fun _ hb => by cases hb⟩
      | PLAYBACK_BOUNCE =>
        rw [hm] at h
        injection h with hc hw
        subst hc
        rw [← hw]
        refine ⟨rfl, rfl, rfl, ?_, ?_⟩
        · intro hrange
          have hlt2 : first < last := by
            rcases hrange with h1 | h1
            · exact h1
            · exact absurd rfl h1
          exact ⟨by omega, by omega⟩
        · intro he _
          refine ⟨?_, by omega, rfl⟩
          rw [if_neg (by decide)]
          omega
      | PLAYBACK_ONCE =>
        rw [hm] at h
        cases h

theorem advance_stays_in_range_witness :
    (((exampleEnv true).outputIsViewer = true ∧
        (examplePass2 .PLAYBACK_BOUNCE true 10).advances ∧ (1 : Int) ≤ 10 ∧
        (1 : Int) ≤ (examplePass2 .PLAYBACK_BOUNCE true 10).timeline.currentFrame ∧
        (examplePass2 .PLAYBACK_BOUNCE true 10).timeline.currentFrame ≤ 10 ∧
        (examplePass2 .PLAYBACK_BOUNCE true 10).setCurrentFrame (exampleEnv true) 1 10 =
          .frame 9 (((examplePass2 .PLAYBACK_BOUNCE true 10).setCurrentFrame (exampleEnv true)
            1 10).state)) ∧
      (1 : Int) ≤ 9 ∧ (9 : Int) ≤ 10) ∧
    (((exampleSinglePass2.updateTimelineRange (exampleEnv true)).advances ∧ (7 : Int) ≤ 7 ∧
        (7 : Int)
          ≤ (exampleSinglePass2.updateTimelineRange (exampleEnv true)).timeline.currentFrame ∧
        (exampleSinglePass2.updateTimelineRange (exampleEnv true)).timeline.currentFrame ≤ 7 ∧
        (exampleSinglePass2.updateTimelineRange (exampleEnv true)).playbackMode
          = .PLAYBACK_BOUNCE ∧
        (exampleSinglePass2.updateTimelineRange (exampleEnv true)).setCurrentFrame
          (exampleEnv true) 7 7 = .frame 6 (((exampleSinglePass2.updateTimelineRange
            (exampleEnv true)).setCurrentFrame (exampleEnv true) 7 7).state)) ∧
      (6 : Int) = (if (exampleSinglePass2.updateTimelineRange
          (exampleEnv true)).currentRunArgs.forward = true then 7 - 1 else 7 + 1) ∧
      ¬ ((7 : Int) ≤ 6 ∧ (6 : Int) ≤ 7) ∧
      (((exampleSinglePass2.updateTimelineRange (exampleEnv true)).setCurrentFrame
        (exampleEnv true) 7 7).state).currentRunArgs.forward
          = !(exampleSinglePass2.updateTimelineRange
            (exampleEnv true)).currentRunArgs.forward) :=
  ⟨⟨⟨by decide, examplePass2_advances _ _ _, by decide, by decide, by decide, by decide⟩,
      (advance_stays_in_range (exampleEnv true) 1 10 (examplePass2 .PLAYBACK_BOUNCE true 10)
        (by decide) (examplePass2_advances _ _ _) (by decide) (by decide) (by decide)
        9 (((examplePass2 .PLAYBACK_BOUNCE true 10).setCurrentFrame (exampleEnv true)
          1 10).state) (by decide)).2.2.2.1 (Or.inl (by decide))⟩,
    ⟨⟨⟨by decide, by decide, by decide⟩, by decide, by decide, by decide, by decide, by decide⟩,
      (advance_stays_in_range (exampleEnv true) 7 7
        (exampleSinglePass2.updateTimelineRange (exampleEnv true))
        (by decide) ⟨by decide, by decide, by decide⟩ (by decide) (by decide) (by decide)
        6 (((exampleSinglePass2.updateTimelineRange (exampleEnv true)).setCurrentFrame
          (exampleEnv true) 7 7).state) (by decide)).2.2.2.2 rfl (by decide)⟩⟩

/-- C28 as stated fails on a range of a single frame in BOUNCE mode: with the
bounds `[7, 7]` and the cursor on 7, the advance step of the second pass of a
run of three frames chooses frame 6 and moves the cursor there; the run is not
stopped and the frames rendered are 7, 6, 7. -/
theorem advance_bounce_single_frame_counterexample :
    ((exampleEnv true).outputIsViewer = true ∧
      exampleSinglePass2.currentRunArgs.recursiveCall = true ∧
      exampleSinglePass2.currentRunArgs.sameFrame = false ∧
      exampleSinglePass2.currentRunArgs.seekTimeline = true ∧
      exampleSinglePass2.playbackMode = .PLAYBACK_BOUNCE ∧
      (exampleSinglePass2.updateTimelineRange (exampleEnv true)).timeline.leftBound = 7 ∧
      (exampleSinglePass2.updateTimelineRange (exampleEnv true)).timeline.rightBound = 7 ∧
      exampleSinglePass2.timeline.currentFrame = 7) ∧
    (exampleSinglePass2.updateTimelineRange (exampleEnv true)).setCurrentFrame (exampleEnv true)
        7 7 = .frame 6 (((exampleSinglePass2.updateTimelineRange
          (exampleEnv true)).setCurrentFrame (exampleEnv true) 7 7).state) ∧
    (((exampleSinglePass2.updateTimelineRange (exampleEnv true)).setCurrentFrame
      (exampleEnv true) 7 7).state).timeline.currentFrame = 6 ∧
    ¬ ((7 : Int) ≤ 6) ∧
    exampleSinglePass2.iterateOnce (exampleEnv true) false
      = .next (exampleSinglePass2.iterateUpTo (exampleEnv true) false 1) ∧
    frameRenderedEvents (exampleSinglePass2.iterateUpTo (exampleEnv true) false 5).trace
      = [7, 6, 7] := by
  decide

/-! ## Playing a bounded number of frames forward -/

/-- The advance step of a viewer playing forward below the right bound. -/
theorem playsForward_advance (env : Env) (st : Bool) (k : Nat) (cur right : Int)
    (w : VideoEngine) (hv : env.outputIsViewer = true)
    (hP : w.playsForward env st k cur right) (hlt : cur < right) :
    ∃ x : VideoEngine,
      (w.updateTimelineRange env).setCurrentFrame env
        ((w.updateTimelineRange env).passFirstFrame env)
        ((w.updateTimelineRange env).passLastFrame env) = .frame (cur + 1) x ∧
      x.currentRunArgs = w.currentRunArgs ∧ x.abortRequested = w.abortRequested ∧
      x.mustQuit = w.mustQuit ∧ x.trace = w.trace ∧ x.tree = w.tree ∧
      x.timeline = w.timeline.incrementCurrentFrame w.tree.output := by
  obtain ⟨hadv, hfwd, hab, hq, hcount, hstable, hright, hcur⟩ := hP
  obtain ⟨f, l, tl, h1, _, _⟩ := updateTimelineRange_frame env w
  have hargs : (w.updateTimelineRange env).currentRunArgs = w.currentRunArgs := by rw [h1]
  have htree : (w.updateTimelineRange env).tree = w.tree := by rw [h1]
  have hlast : (w.updateTimelineRange env).passLastFrame env = right := by
    unfold VideoEngine.passLastFrame
    rw [if_pos hv, hstable, hright]
  have hset := setCurrentFrame_forward_lt env
    ((w.updateTimelineRange env).passFirstFrame env)
    ((w.updateTimelineRange env).passLastFrame env) (w.updateTimelineRange env) hv
    (by unfold VideoEngine.advances; rw [hargs]; exact hadv)
    (by rw [hargs]; exact hfwd)
    (by rw [hlast, hstable, hcur]; exact hlt)
  rw [hstable, hcur, htree] at hset
  refine ⟨_, hset, ?_, ?_, ?_, ?_, ?_, rfl⟩
  · exact hargs
  · show (w.updateTimelineRange env).abortRequested = _
    rw [h1]
  · show (w.updateTimelineRange env).mustQuit = _
    rw [h1]
  · show (w.updateTimelineRange env).trace = _
    rw [h1]
  · rfl

/-- After its first pass, a bounded run on a viewer playing forward with `k`
frames left and room for `k + 1` frames below the right bound announces the
`k` frames after the cursor, in order, and returns with the cursor one frame
further. -/
theorem playsForward_run (env : Env) (st : Bool) (right : Int)
    (hv : env.outputIsViewer = true) (hauto : env.autoRunAborted = false)
    (hok : ∀ t w2, VideoEngine.frameSucceeds env st t w2) :
    ∀ (k : Nat) (cur : Int) (w : VideoEngine), w.playsForward env st k cur right →
      cur + (k : Int) + 1 ≤ right →
      ∀ fuel, k + 1 ≤ fuel → ∃ w2, w.iterateKernel env st fuel = some w2 ∧
        frameRenderedEvents w2.trace = frameRenderedEvents w.trace ++ framesFrom (cur + 1) k ∧
        w2.timeline.currentFrame = cur + (k : Int) + 1 := by
  intro k
  induction k with
  | zero =>
    intro cur w hP hroom fuel hfuel
    obtain ⟨x, hset, xargs, xab, xq, xtr, xtree, xtl⟩ :=
      playsForward_advance env st 0 cur right w hv hP (by omega)
    obtain ⟨hadv, hfwd, hab, hq, hcount, hstable, hright, hcur⟩ := hP
    obtain ⟨fuel, rfl⟩ : ∃ j, fuel = j + 1 := ⟨fuel - 1, by omega⟩
    have hstop : x.mustStop env ((w.updateTimelineRange env).passFirstFrame env)
        ((w.updateTimelineRange env).passLastFrame env) = true :=
      mustStop_of_count_zero env _ _ x (by rw [xargs, hcount]; rfl)
    refine ⟨x, ?_, ?_, ?_⟩
    · rw [VideoEngine.iterateKernel, iterateOnce_mustStop env st w x _ hab hset hstop]
    · rw [xtr]
      simp [framesFrom]
    · rw [xtl]
      show w.timeline.currentFrame + 1 = _
      rw [hcur]
      simp
  | succ k ih =>
    intro cur w hP hroom fuel hfuel
    obtain ⟨x, hset, xargs, xab, xq, xtr, xtree, xtl⟩ :=
      playsForward_advance env st (k + 1) cur right w hv hP (by omega)
    obtain ⟨hadv, hfwd, hab, hq, hcount, hstable, hright, hcur⟩ := hP
    obtain ⟨fuel, rfl⟩ : ∃ j, fuel = j + 1 := ⟨fuel - 1, by omega⟩
    have hstop := mustStop_eq_false env ((w.updateTimelineRange env).passFirstFrame env)
      ((w.updateTimelineRange env).passLastFrame env) x (by rw [xab]; exact hab) hauto
      (by rw [xargs, hcount]; push_cast; omega)
      (fun h => by
        have h1 := h.2.2.2.1
        rw [xargs, hcount] at h1
        push_cast at h1
        omega)
    obtain ⟨es, n, hes, hnext⟩ := iterateOnce_frame_next env st w x (cur + 1) hab hset hstop
      (by rw [xq]; exact hq) (hok _ _)
    obtain ⟨y, hy⟩ : ∃ y : VideoEngine,
        y = { x with trace := x.trace ++ es, timerFrameCount := n } := ⟨_, rfl⟩
    rw [← hy] at hnext
    have yargs : y.currentRunArgs = w.currentRunArgs := by rw [hy]; exact xargs
    obtain ⟨cnt, hu⟩ := updateCounters_frame y
    obtain ⟨u1, u2, u3⟩ := updateCounters_bounded y
      (by rw [yargs, hcount]; push_cast; omega)
    have hP3 : y.updateCounters.playsForward env st k (cur + 1) right := by
      have htl3 : y.updateCounters.timeline = w.timeline.incrementCurrentFrame w.tree.output := by
        rw [hu, hy]; exact xtl
      have htree3 : y.updateCounters.tree = w.tree := by rw [hu, hy]; exact xtree
      refine ⟨⟨?_, ?_, ?_⟩, ?_, ?_, ?_, ?_, ?_, ?_, ?_⟩
      · rw [hu]
      · rw [hu]
        show y.currentRunArgs.sameFrame = false
        rw [yargs]; exact hadv.2.1
      · rw [hu]
        show y.currentRunArgs.seekTimeline = true
        rw [yargs]; exact hadv.2.2
      · rw [hu]
        show y.currentRunArgs.forward = true
        rw [yargs]; exact hfwd
      · rw [hu, hy]
        show ¬ x.abortRequested > 0
        rw [xab]; exact hab
      · rw [hu, hy]
        show (st && x.mustQuit) = false
        rw [xq]; exact hq
      · rw [u1, yargs, hcount]
        push_cast
        omega
      · apply updateTimelineRange_seeked
        rw [htl3, htree3]
        rfl
      · rw [htl3]
        exact hright
      · rw [htl3]
        show w.timeline.currentFrame + 1 = cur + 1
        rw [hcur]
    have hfr3 : frameRenderedEvents y.updateCounters.trace
        = frameRenderedEvents w.trace ++ [cur + 1] := by
      rw [u3, hy]
      show frameRenderedEvents (x.trace ++ es) = _
      rw [frameRenderedEvents_append, hes, xtr]
    rw [VideoEngine.iterateKernel, hnext]
    dsimp only
    obtain ⟨w2, hrun, hfr, hcur2⟩ := ih (cur + 1) y.updateCounters hP3
      (by push_cast at hroom; omega) fuel (by omega)
    refine ⟨w2, hrun, ?_, ?_⟩
    · rw [hfr, hfr3, framesFrom, List.append_assoc]
      rfl
    · rw [hcur2]
      push_cast
      ring

theorem setCurrentFrame_first_pass_viewer (env : Env) (f l : Int) (w : VideoEngine)
    (hv : env.outputIsViewer = true) (hrec : w.currentRunArgs.recursiveCall = false) :
    w.setCurrentFrame env f l = .frame w.timeline.currentFrame w := by
  unfold VideoEngine.setCurrentFrame
  simp [hv, hrec]

/-- C29: on a viewer, a run started by `render(N, seekTimeline = true, ..,
forward = true, sameFrame = false, ..)` with `N >= 1`, the cursor of the
timeline on `c` and `c + N` not beyond the right bound that the passes read,
with no abort or quit and no failing frame, returns within `N + 1` passes
having announced exactly the frames `c, c + 1, ..., c + N - 1`, in that order,
and leaves the cursor on `c + N`. -/
theorem bounded_forward_run (env : Env) (singleThreaded : Bool) (w0 w : VideoEngine)
    (N c : Int) (refreshTree forcePreview : Bool)
    (hv : env.outputIsViewer = true)
    (hstart : (w0.recordRunArgs env N true refreshTree true false
      forcePreview).startEngine env = some (true, w))
    (hN : 1 ≤ N) (hc : w.timeline.currentFrame = c)
    (hroom : c + N ≤ (w.updateTimelineRange env).timeline.rightBound)
    (hauto : env.autoRunAborted = false)
    (hquit : (singleThreaded && w0.mustQuit) = false)
    (hok : ∀ t w2, VideoEngine.frameSucceeds env singleThreaded t w2) :
    ∀ fuel, N.toNat + 1 ≤ fuel →
      ∃ w2, w.iterateKernel env singleThreaded fuel = some w2 ∧
        frameRenderedEvents w2.trace = frameRenderedEvents w.trace ++
          (List.range N.toNat).map (fun (i : Nat) => c + (i : Int)) ∧
        w2.timeline.currentFrame = c + N := by
  obtain ⟨ha0, t, f, l, o, tr, tm, hw⟩ := startEngine_true_frame env _ w hstart
  have hab : ¬ w.abortRequested > 0 := by rw [hw]; exact ha0
  have hrec : w.currentRunArgs.recursiveCall = false := by rw [hw]; rfl
  have hcount : w.currentRunArgs.frameRequestsCount = N := by rw [hw]; rfl
  have hsame : w.currentRunArgs.sameFrame = false := by rw [hw]; rfl
  have hseek : w.currentRunArgs.seekTimeline = true := by rw [hw]; rfl
  have hfwd : w.currentRunArgs.forward = true := by rw [hw]; rfl
  have hq : (singleThreaded && w.mustQuit) = false := by rw [hw]; exact hquit
  obtain ⟨f1, l1, tl, h1, htl, _⟩ := updateTimelineRange_frame env w
  have hargs : (w.updateTimelineRange env).currentRunArgs = w.currentRunArgs := by rw [h1]
  have hcur : (w.updateTimelineRange env).timeline.currentFrame = c := by
    rw [h1]; show tl.currentFrame = c; rw [htl, hc]
  have hset := setCurrentFrame_first_pass_viewer env
    ((w.updateTimelineRange env).passFirstFrame env)
    ((w.updateTimelineRange env).passLastFrame env) (w.updateTimelineRange env) hv
    (by rw [hargs]; exact hrec)
  rw [hcur] at hset
  have hstop := mustStop_eq_false env ((w.updateTimelineRange env).passFirstFrame env)
    ((w.updateTimelineRange env).passLastFrame env) (w.updateTimelineRange env)
    (by rw [h1]; exact hab) hauto (by rw [hargs, hcount]; omega)
    (fun h => by
      have h2 := h.2.1
      rw [hargs, hrec] at h2
      exact Bool.false_ne_true h2)
  obtain ⟨es, n, hes, hnext⟩ := iterateOnce_frame_next env singleThreaded w _ c hab hset hstop
    (by rw [h1]; exact hq) (hok _ _)
  obtain ⟨y, hy⟩ : ∃ y : VideoEngine, y = { w.updateTimelineRange env with
      trace := (w.updateTimelineRange env).trace ++ es, timerFrameCount := n } := ⟨_, rfl⟩
  rw [← hy] at hnext
  have yargs : y.currentRunArgs = w.currentRunArgs := by rw [hy]; exact hargs
  obtain ⟨cnt, hu⟩ := updateCounters_frame y
  obtain ⟨u1, u2, u3⟩ := updateCounters_bounded y (by rw [yargs, hcount]; omega)
  have htl3 : y.updateCounters.timeline = (w.updateTimelineRange env).timeline := by
    rw [hu, hy]
  have hab3 : ¬ y.updateCounters.abortRequested > 0 := by
    rw [hu, hy]
    show ¬ (w.updateTimelineRange env).abortRequested > 0
    rw [h1]; exact hab
  have hP3 : y.updateCounters.playsForward env singleThreaded (N - 1).toNat c
      (w.updateTimelineRange env).timeline.rightBound := by
    refine ⟨⟨?_, ?_, ?_⟩, ?_, hab3, ?_, ?_, ?_, ?_, ?_⟩
    · rw [hu]
    · rw [hu]
      show y.currentRunArgs.sameFrame = false
      rw [yargs]; exact hsame
    · rw [hu]
      show y.currentRunArgs.seekTimeline = true
      rw [yargs]; exact hseek
    · rw [hu]
      show y.currentRunArgs.forward = true
      rw [yargs]; exact hfwd
    · rw [hu, hy]
      show (singleThreaded && (w.updateTimelineRange env).mustQuit) = false
      rw [h1]; exact hq
    · rw [u1, yargs, hcount]
      omega
    · exact updateTimelineRange_again env w y.updateCounters hv htl3
        (by rw [hu, hy]; show (w.updateTimelineRange env).tree.output = _; rw [h1]) hab hab3
    · rw [htl3]
    · rw [htl3]; exact hcur
  have hfr3 : frameRenderedEvents y.updateCounters.trace
      = frameRenderedEvents w.trace ++ [c] := by
    rw [u3, hy]
    show frameRenderedEvents ((w.updateTimelineRange env).trace ++ es) = _
    rw [frameRenderedEvents_append, hes, h1]
  intro fuel hfuel
  obtain ⟨fuel, rfl⟩ : ∃ j, fuel = j + 1 := ⟨fuel - 1, by omega⟩
  obtain ⟨w2, hrun, hfr, hcur2⟩ := playsForward_run env singleThreaded _ hv hauto hok
    (N - 1).toNat c y.updateCounters hP3 (by omega) fuel (by omega)
  have hNk : N.toNat = (N - 1).toNat + 1 := by omega
  refine ⟨w2, ?_, ?_, ?_⟩
  · rw [VideoEngine.iterateKernel, hnext]
    exact hrun
  · rw [hfr, hfr3, hNk, ← framesFrom_eq_map, framesFrom, List.append_assoc]
    rfl
  · rw [hcur2]
    omega

theorem bounded_forward_run_witness :
    ((exampleEnv true).outputIsViewer = true ∧
      (({ exampleEngine with timeline := { exampleTimeline with currentFrame := 4 } } :
        VideoEngine).recordRunArgs (exampleEnv true) 3 true false true false
          false).startEngine (exampleEnv true) = some (true, exampleForward) ∧
      (1 : Int) ≤ 3 ∧ exampleForward.timeline.currentFrame = 4 ∧
      (4 : Int) + 3
        ≤ (exampleForward.updateTimelineRange (exampleEnv true)).timeline.rightBound ∧
      (exampleEnv true).autoRunAborted = false ∧
      (∀ t w2, VideoEngine.frameSucceeds (exampleEnv true) false t w2) ∧
      (3 : Int).toNat + 1 ≤ 4) ∧
    ∃ w2, exampleForward.iterateKernel (exampleEnv true) false 4 = some w2 ∧
      frameRenderedEvents w2.trace = frameRenderedEvents exampleForward.trace ++
        (List.range (3 : Int).toNat).map (fun (i : Nat) => (4 : Int) + (i : Int)) ∧
      w2.timeline.currentFrame = 4 + 3 :=
  ⟨⟨by decide, by decide, by decide, by decide, by decide, by decide,
      exampleEnv_frameSucceeds true false, by decide⟩,
    bounded_forward_run (exampleEnv true) false
      ({ exampleEngine with timeline := { exampleTimeline with currentFrame := 4 } } :
        VideoEngine) exampleForward 3 4 false false (by decide) (by decide) (by decide)
      (by decide) (by decide) (by decide) (by decide) (exampleEnv_frameSucceeds true false) 4
      (by decide)⟩

theorem example_forward_run :
    (exampleForward.iterateKernel (exampleEnv true) false 4).map
      (fun w => (frameRenderedEvents w.trace, w.timeline.currentFrame))
      = some ([4, 5, 6], 7) := by
  decide

/-! ## `fillGraph` and depth-first search -/

/-- A node that is already listed, with all its inputs, adds nothing. -/
theorem fillGraph_of_mem {g : Graph} (k n : Nat) (marked sorted : List Nat)
    (hm : TopoOrdered g marked) (hn : n ∈ marked) (hd : DepthLE g k n) :
    RenderTree.fillGraph g k n (marked, sorted) = some (marked, sorted) := by
  obtain ⟨r, hr⟩ := Option.isSome_iff_exists.mp (fillGraph_isSome k n hd (marked, sorted))
  obtain ⟨d, hres, htopo, _, hreach⟩ := fillGraph_spec k n marked sorted r hm hr
  have hnil : d = [] := by
    cases d with
    | nil => rfl
    | cons x rest =>
      have hx : x ∈ marked := topoOrdered_reachable hm (hreach x (List.mem_cons_self _ _)) hn
      have hdis := (List.nodup_append.mp htopo.1).2.2
      exact absurd (List.mem_cons_self x rest) (fun h => hdis hx h)
  rw [hr, hres, hnil, List.append_nil, List.append_nil]

/-- The loop over the input slots, in `fillGraph` and in the reference
traversal, when the two agree on which nodes below the inputs are done. -/
theorem fillInputs_refines {g : Graph} {k : Nat}
    (ih : ∀ (n : Nat) (marked sorted visited order : List Nat), TopoOrdered g marked →
      (∀ x, Reachable g x n → (x ∈ visited ↔ x ∈ marked)) → DepthLE g k n →
      ∃ d visited2,
        RenderTree.fillGraph g k n (marked, sorted) = some (marked ++ d, sorted ++ d) ∧
        referenceDepthFirst g k n (visited, order) = some (visited2, order ++ d) ∧
        TopoOrdered g (marked ++ d) ∧ n ∈ marked ++ d ∧ (∀ x ∈ d, Reachable g x n) ∧
        ∀ x, x ∈ visited2 ↔ (x ∈ visited ∨ x ∈ d)) :
    ∀ (inputs : List (Option Nat)) (marked sorted visited order : List Nat),
      TopoOrdered g marked →
      (∀ i, some i ∈ inputs → ∀ x, Reachable g x i → (x ∈ visited ↔ x ∈ marked)) →
      (∀ i, some i ∈ inputs → DepthLE g k i) →
      ∃ d visited2,
        inputs.foldlM (RenderTree.fillInput (RenderTree.fillGraph g k)) (marked, sorted)
          = some (marked ++ d, sorted ++ d) ∧
        inputs.foldlM (RenderTree.fillInput (referenceDepthFirst g k)) (visited, order)
          = some (visited2, order ++ d) ∧
        TopoOrdered g (marked ++ d) ∧ (∀ i, some i ∈ inputs → i ∈ marked ++ d) ∧
        (∀ x ∈ d, ∃ i, some i ∈ inputs ∧ Reachable g x i) ∧
        ∀ x, x ∈ visited2 ↔ (x ∈ visited ∨ x ∈ d) := by
  intro inputs
  induction inputs with
  | nil =>
    intro marked sorted visited order hm _ _
    refine ⟨[], visited, by simp, by simp, by simpa using hm, by simp, by simp, by simp⟩
  | cons a rest ihr =>
    intro marked sorted visited order hm hagree hdepth
    have hagree_rest : ∀ i, some i ∈ rest → ∀ x, Reachable g x i →
        (x ∈ visited ↔ x ∈ marked) := fun i hi => hagree i (List.mem_cons_of_mem _ hi)
    have hdepth_rest : ∀ i, some i ∈ rest → DepthLE g k i :=
      fun i hi => hdepth i (List.mem_cons_of_mem _ hi)
    cases a with
    | none =>
      obtain ⟨d, v2, h1, h2, htopo, hin, hreach, hv⟩ :=
        ihr marked sorted visited order hm hagree_rest hdepth_rest
      refine ⟨d, v2, ?_, ?_, htopo, ?_, ?_, hv⟩
      · simpa [List.foldlM_cons, RenderTree.fillInput] using h1
      · simpa [List.foldlM_cons, RenderTree.fillInput] using h2
      · intro i hi
        rcases List.mem_cons.mp hi with hi | hi
        · cases hi
        · exact hin i hi
      · intro x hx
        obtain ⟨i, hi, hr⟩ := hreach x hx
        exact ⟨i, List.mem_cons_of_mem _ hi, hr⟩
    | some j =>
      obtain ⟨d1, v1, hf1, hr1, htopo1, hj1, hreach1, hv1⟩ :=
        ih j marked sorted visited order hm (hagree j (List.mem_cons_self _ _))
          (hdepth j (List.mem_cons_self _ _))
      have hagree1 : ∀ i, some i ∈ rest → ∀ x, Reachable g x i →
          (x ∈ v1 ↔ x ∈ marked ++ d1) := by
        intro i hi x hx
        rw [hv1 x, List.mem_append, hagree_rest i hi x hx]
      obtain ⟨d2, v2, hf2, hr2, htopo2, hin2, hreach2, hv2⟩ :=
        ihr (marked ++ d1) (sorted ++ d1) v1 (order ++ d1) htopo1 hagree1 hdepth_rest
      refine ⟨d1 ++ d2, v2, ?_, ?_, ?_, ?_, ?_, ?_⟩
      · simpa [List.foldlM_cons, RenderTree.fillInput, hf1, List.append_assoc] using hf2
      · simpa [List.foldlM_cons, RenderTree.fillInput, hr1, List.append_assoc] using hr2
      · simpa [List.append_assoc] using htopo2
      · intro i hi
        rcases List.mem_cons.mp hi with hi | hi
        · have hij : i = j := by simpa using hi
          subst hij
          have := List.mem_append_left d2 hj1
          simpa [List.append_assoc] using this
        · simpa [List.append_assoc] using hin2 i hi
      · intro x hx
        rcases List.mem_append.mp hx with hx | hx
        · exact ⟨j, List.mem_cons_self _ _, hreach1 x hx⟩
        · obtain ⟨i, hi, hr⟩ := hreach2 x hx
          exact ⟨i, List.mem_cons_of_mem _ hi, hr⟩
      · intro x
        rw [hv2 x, hv1 x, List.mem_append, or_assoc]

/-- On an acyclic graph, a call of `fillGraph` and a call of the reference
traversal that agree on which nodes below `n` are done append the same nodes,
in the same order. -/
theorem fillGraph_refines {g : Graph} (hg : Acyclic g) :
    ∀ (k n : Nat) (marked sorted visited order : List Nat), TopoOrdered g marked →
      (∀ x, Reachable g x n → (x ∈ visited ↔ x ∈ marked)) → DepthLE g k n →
      ∃ d visited2,
        RenderTree.fillGraph g k n (marked, sorted) = some (marked ++ d, sorted ++ d) ∧
        referenceDepthFirst g k n (visited, order) = some (visited2, order ++ d) ∧
        TopoOrdered g (marked ++ d) ∧ n ∈ marked ++ d ∧ (∀ x ∈ d, Reachable g x n) ∧
        ∀ x, x ∈ visited2 ↔ (x ∈ visited ∨ x ∈ d) := by
  intro k
  induction k with
  | zero => intro n _ _ _ _ _ _ h; exact absurd h (by simp [DepthLE])
  | succ k ih =>
    intro n marked sorted visited order hm hagree hdepth
    by_cases hnv : n ∈ visited
    · have hnm : n ∈ marked := (hagree n Relation.ReflTransGen.refl).mp hnv
      refine ⟨[], visited, ?_, ?_, by simpa using hm, by simpa using hnm, by simp, by simp⟩
      · rw [fillGraph_of_mem (k + 1) n marked sorted hm hnm hdepth]
        simp
      · rw [referenceDepthFirst, if_pos hnv]
        simp
    · have hnm : n ∉ marked := fun h => hnv ((hagree n Relation.ReflTransGen.refl).mpr h)
      have hne : ∀ i, some i ∈ g.inputsOf n → ∀ x, Reachable g x i → x ≠ n := by
        intro i hi x hx hxn
        subst hxn
        exact hg x (Relation.TransGen.tail' hx hi)
      have hagree_in : ∀ i, some i ∈ g.inputsOf n → ∀ x, Reachable g x i →
          (x ∈ n :: visited ↔ x ∈ marked) := by
        intro i hi x hx
        rw [List.mem_cons, ← hagree x (Relation.ReflTransGen.tail hx hi)]
        constructor
        · rintro (h | h)
          · exact absurd h (hne i hi x hx)
          · exact h
        · exact Or.inr
      obtain ⟨d, v2, hf, hr, htopo, hin, hreach, hv⟩ :=
        fillInputs_refines ih (g.inputsOf n) marked sorted (n :: visited) order hm hagree_in
          (fun i hi => hdepth i hi)
      have hnd : n ∉ d := by
        intro h
        obtain ⟨i, hi, hx⟩ := hreach n h
        exact hne i hi n hx rfl
      have hnmd : n ∉ marked ++ d := by
        intro h
        rcases List.mem_append.mp h with h | h
        · exact hnm h
        · exact hnd h
      refine ⟨d ++ [n], v2, ?_, ?_, ?_, ?_, ?_, ?_⟩
      · rw [RenderTree.fillGraph, hf]
        simp [hnmd, List.append_assoc]
      · rw [referenceDepthFirst, if_neg hnv, hr]
        simp [List.append_assoc]
      · simpa [List.append_assoc] using
          topoOrdered_snoc htopo hnmd (fun m hmn => hin m hmn)
      · simp
      · intro x hx
        rcases List.mem_append.mp hx with hx | hx
        · obtain ⟨i, hi, hxi⟩ := hreach x hx
          exact Relation.ReflTransGen.tail hxi hi
        · have hxn : x = n := by simpa using hx
          exact hxn ▸ Relation.ReflTransGen.refl
      · intro x
        rw [hv x, List.mem_cons, List.mem_append, List.mem_singleton]
        tauto

/-- C30: on every acyclic graph, whatever the tree held before, `refreshTree`
returns and the sequence that `fillGraph` has built is the post-order of the
reference depth-first search from the output, which visits the inputs in slot
order and skips the nodes already visited. -/
theorem fillGraph_eq_depthFirst_postOrder (g : Graph) (outputIsViewer outputIsOpenFX : Bool)
    (t : RenderTree) (hg : Acyclic g) :
    ∃ t2, t.refreshTree g outputIsViewer outputIsOpenFX = some t2 ∧
      referencePostOrder g t.output = some t2.sorted := by
  obtain ⟨d, v2, hf, hr, _, _, _, _⟩ := fillGraph_refines hg (g.length + 1) t.output [] [] [] []
    (topoOrdered_nil g) (fun x _ => by simp) (depthLE_length_succ hg t.output)
  simp only [List.nil_append] at hf hr
  have hrun : ∃ t2, t.refreshTree g outputIsViewer outputIsOpenFX = some t2 ∧ t2.sorted = d := by
    unfold RenderTree.refreshTree RenderTree.clearGraph
    dsimp only
    rw [hf]
    exact ⟨_, rfl, rfl⟩
  obtain ⟨t2, ht2, hs⟩ := hrun
  refine ⟨t2, ht2, ?_⟩
  unfold referencePostOrder
  rw [hr, hs]
  rfl

theorem fillGraph_eq_depthFirst_postOrder_witness :
    Acyclic exampleGraph ∧
    ∃ t2, exampleTree.refreshTree exampleGraph true false = some t2 ∧
      referencePostOrder exampleGraph exampleTree.output = some t2.sorted :=
  ⟨exampleGraph_acyclic,
    fillGraph_eq_depthFirst_postOrder exampleGraph true false exampleTree exampleGraph_acyclic⟩

theorem example_depthFirst_postOrder :
    referencePostOrder exampleGraph 3 = some [0, 1, 2, 3] ∧
    (exampleTree.refreshTree exampleGraph true false).map (fun t => t.sorted)
      = some [0, 1, 2, 3] := by
  decide

end Natron
